import Mathlib

/-!
# space-force: physics and collision resolution

A shallow embedding of `src/main.cpp` and `src/objects/*.cpp` and theorems about it.

Numbers: the C++ `float` is modelled by an arbitrary linearly ordered field `F`
(exact arithmetic; `ℚ` for evaluation, `ℝ` for the real-number reading).  The
`<cmath>` functions `std::sqrt`, `std::cos`, `std::sin` and the constant `M_PI`
are not field operations; they are parameters of the model (`CMath`).  Theorems
that need more of `std::sqrt` than "it is a function" say so through `SqrtExactAt`.

Division: `x / y` is the field division.  At `y = 0` the field division of Lean
returns `0` where IEEE arithmetic returns an infinity or a NaN, so a statement
about a path that divides is only meaningful when its divisors are non-zero.
`elasticCollisionTraced` therefore also returns the divisors of the divisions it
evaluated, in program order.  Where the value of a division by zero matters, the
same source is read on `IEEE F`, the numbers of `F` with the infinities and the NaN
of IEEE 754 (`elasticCollisionIEEE`); rounding is modelled in neither reading.
-/

namespace SpaceForce

/-! ## `sf::Vector2f` -/

/-- The SFML vector `sf::Vector2<T>`, at `T = F`. -/
@[ext]
structure Vector2f (F : Type) where
  x : F
  y : F
deriving DecidableEq, Repr

namespace Vector2f

variable {F : Type} [LinearOrderedField F]

/-- Source `operator+(Vector2, Vector2)`. -/
instance : Add (Vector2f F) := ⟨fun l r => ⟨l.x + r.x, l.y + r.y⟩⟩

/-- Source `operator-(Vector2, Vector2)`. -/
instance : Sub (Vector2f F) := ⟨fun l r => ⟨l.x - r.x, l.y - r.y⟩⟩

/-- Source `operator*(Vector2, T)`. -/
instance : HMul (Vector2f F) F (Vector2f F) := ⟨fun l r => ⟨l.x * r, l.y * r⟩⟩

/-- Source `operator*(T, Vector2)`. -/
instance : HMul F (Vector2f F) (Vector2f F) := ⟨fun l r => ⟨r.x * l, r.y * l⟩⟩

/-- Source `operator/(Vector2, T)`. -/
instance : HDiv (Vector2f F) F (Vector2f F) := ⟨fun l r => ⟨l.x / r, l.y / r⟩⟩


end Vector2f

/-! ## `src/objects/base_object.hpp` -/

/-- The fields of `class GameObject`. -/
@[ext]
structure GameObject (F : Type) where
  position : Vector2f F
  velocity : Vector2f F
deriving DecidableEq, Repr

namespace GameObject

variable {F : Type}

/-- Source `GameObject::getPosition`. -/
def getPosition (o : GameObject F) : Vector2f F := o.position

/-- Source `GameObject::setPosition`. -/
def setPosition (o : GameObject F) (pos : Vector2f F) : GameObject F := { o with position := pos }

/-- Source `GameObject::getVelocity`. -/
def getVelocity (o : GameObject F) : Vector2f F := o.velocity

/-- Source `GameObject::setVelocity`. -/
def setVelocity (o : GameObject F) (vel : Vector2f F) : GameObject F := { o with velocity := vel }


end GameObject

/-! ## `<cmath>` -/

/-- The names of `<cmath>` that the sources call.  They are not field operations, so the
model takes them as given. -/
structure CMath (F : Type) where
  sqrt : F → F
  cos : F → F
  sin : F → F
  M_PI : F

/-- The function `sqrt` returns the exact non-negative square root of `x`. -/
def SqrtExactAt {F : Type} [LinearOrderedField F] (sqrt : F → F) (x : F) : Prop :=
  0 ≤ sqrt x ∧ sqrt x * sqrt x = x

/-- Evaluation over `ℚ`: `Rat.sqrt` is the exact root on squares of rationals.  `ℚ` has no
cosine, sine or `π`; the three remaining fields are placeholders, used only in runs in which no
key is pressed, which never read them. -/
def ratCMath : CMath ℚ :=
  { sqrt := Rat.sqrt, cos := fun _ => 0, sin := fun _ => 0, M_PI := 0 }

/-! ## `float` with the special values of IEEE 754 -/

/-- A `float` with the special values of IEEE 754: a number, an infinity (`true` marks the
negative one) or a NaN.  Numbers are exact (no rounding, no overflow) and a zero is the
positive zero.  This is the reading of `float` under which a division by zero has the value
the program computes. -/
inductive IEEE (F : Type) where
  | num : F → IEEE F
  | inf : Bool → IEEE F
  | nan : IEEE F
deriving DecidableEq

namespace IEEE

variable {F : Type} [LinearOrderedField F]

/-- IEEE 754 addition: infinities of opposite sign add to a NaN. -/
def add : IEEE F → IEEE F → IEEE F
  | num x, num y => num (x + y)
  | num _, inf s => inf s
  | inf s, num _ => inf s
  | inf s, inf t => if s = t then inf s else nan
  | _, _ => nan

/-- IEEE 754 negation. -/
def neg : IEEE F → IEEE F
  | num x => num (-x)
  | inf s => inf (!s)
  | nan => nan

/-- IEEE 754 multiplication: zero times an infinity is a NaN. -/
def mul : IEEE F → IEEE F → IEEE F
  | num x, num y => num (x * y)
  | num x, inf s => if x = 0 then nan else inf (s != decide (x < 0))
  | inf s, num y => if y = 0 then nan else inf (s != decide (y < 0))
  | inf s, inf t => inf (s != t)
  | _, _ => nan

/-- IEEE 754 division: a non-zero number divided by zero is an infinity, zero divided by zero
and an infinity divided by an infinity are a NaN, a number divided by an infinity is zero. -/
def div : IEEE F → IEEE F → IEEE F
  | num x, num y =>
    if y = 0 then (if x = 0 then nan else inf (decide (x < 0))) else num (x / y)
  | num _, inf _ => num 0
  | inf s, num y => inf (s != decide (y < 0))
  | _, _ => nan

instance : Add (IEEE F) := ⟨add⟩

instance : Neg (IEEE F) := ⟨neg⟩

instance : Sub (IEEE F) := ⟨fun l r => add l (neg r)⟩

instance : Mul (IEEE F) := ⟨mul⟩

instance : Div (IEEE F) := ⟨div⟩

/-- Source `std::sqrt` on a `float` with special values, from the function `sqrt` on
numbers: a NaN for a negative number, for the negative infinity and for a NaN. -/
def sqrt (sqrt : F → F) : IEEE F → IEEE F
  | num x => if x < 0 then nan else num (sqrt x)
  | inf s => if s then nan else inf false
  | nan => nan

/-- Source comparison `v == 0.0f`: false for an infinity and for a NaN. -/
def eqZero : IEEE F → Bool
  | num x => decide (x = 0)
  | _ => false

/-- Source comparison `v > 0`: true for the positive infinity, false for a NaN. -/
def gtZero : IEEE F → Bool
  | num x => decide (0 < x)
  | inf s => !s
  | nan => false

end IEEE

/-- The object `o` with its four numbers read as `float`s with special values. -/
def GameObject.toIEEE {F : Type} (o : GameObject F) : GameObject (IEEE F) :=
  { position := ⟨IEEE.num o.position.x, IEEE.num o.position.y⟩
    velocity := ⟨IEEE.num o.velocity.x, IEEE.num o.velocity.y⟩ }

/-! ## `src/objects/bullet.hpp`, `src/objects/bullet.cpp`

The `sf::CircleShape shape` / `sf::ConvexShape shape` members of the three classes are
SFML rendering state: `update` writes them (`setPosition`, `setRotation`), only `draw`
reads them, and nothing of the simulation depends on them.  They are not modelled. -/

/-- The fields of `class Bullet : public GameObject`. -/
structure Bullet (F : Type) extends GameObject F where
  lifetime : F
  timeAlive : F
deriving DecidableEq, Repr

namespace Bullet

variable {F : Type} [LinearOrderedField F]

/-- Source `Bullet::Bullet(pos, vel)`. -/
def new (pos vel : Vector2f F) : Bullet F :=
  { position := pos, velocity := vel, lifetime := 30000.0, timeAlive := 0.0 }

/-- Source `Bullet::update`. -/
def update (b : Bullet F) (dt : F) : Bullet F :=
  { b with position := b.position + b.velocity * dt, timeAlive := b.timeAlive + dt }

/-- Source `Bullet::isExpired`. -/
def isExpired (b : Bullet F) : Bool := b.timeAlive > b.lifetime

end Bullet

/-! ## `src/objects/asteroid.hpp`, `src/objects/asteroid.cpp` -/

/-- The fields of `class Asteroid : public GameObject`. -/
structure Asteroid (F : Type) extends GameObject F where
  radius : F
  mass : F
deriving DecidableEq, Repr

namespace Asteroid

variable {F : Type} [LinearOrderedField F]

/-- Source `Asteroid::Asteroid(pos, vel, rad)`. -/
def new (pos vel : Vector2f F) (rad : F) : Asteroid F :=
  let radius := rad
  { position := pos, velocity := vel, radius := radius, mass := 0.1 * radius * radius }

/-- Source `Asteroid::update`. -/
def update (a : Asteroid F) (dt : F) : Asteroid F :=
  { a with position := a.position + a.velocity * dt }

/-- Source `Asteroid::getRadius`. -/
def getRadius (a : Asteroid F) : F := a.radius

/-- Source `Asteroid::getMass`. -/
def getMass (a : Asteroid F) : F := a.mass

end Asteroid

/-! ## `src/objects/rocket.hpp`, `src/objects/rocket.cpp` -/

/-- The two shapes that `Rocket::draw` can hand to `window.draw`: the hull `shape` and the
local `flame`. -/
inductive DrawCall where
  | shape
  | flame
deriving DecidableEq, Repr

/-- The fields of `class Rocket : public GameObject` (the two `const float` members are
`Rocket.thrustPower` and `Rocket.rotationThrust`). -/
structure Rocket (F : Type) extends GameObject F where
  angle : F
  angularVelocity : F
  thrusting : Bool
deriving DecidableEq, Repr

namespace Rocket

variable {F : Type} [LinearOrderedField F]

/-- Source `const float thrustPower = 1000.0f;` -/
def thrustPower : F := 1000.0

/-- Source `const float rotationThrust = 500.0f;` -/
def rotationThrust : F := 500.0

/-- Source `Rocket::Rocket(pos)`. -/
def new (pos : Vector2f F) : Rocket F :=
  { position := pos, velocity := ⟨0, 0⟩, angle := 0.0, angularVelocity := 0.0, thrusting := false }

/-- Source `Rocket::update`. -/
def update (r : Rocket F) (dt : F) : Rocket F :=
  let angle := r.angle + r.angularVelocity * dt
  let position := r.position + r.velocity * dt
  let position := if position.x < 0 then { position with x := position.x + 1800 } else position
  let position := if position.x > 1800 then { position with x := position.x - 1800 } else position
  let position := if position.y < 0 then { position with y := position.y + 1000 } else position
  let position := if position.y > 1000 then { position with y := position.y - 1000 } else position
  { r with angle := angle, position := position, thrusting := false }

/-- Source `Rocket::isThrusting`. -/
def isThrusting (r : Rocket F) : Bool := r.thrusting

/-- Source `Rocket::draw` (rocket.cpp 27-42), as the list of the calls of `window.draw` in
order: the hull always, the flame when `thrusting`. -/
def draw (r : Rocket F) : List DrawCall :=
  DrawCall.shape :: (if r.thrusting then [DrawCall.flame] else [])

/-- Source `Rocket::applyThrust`. -/
def applyThrust (m : CMath F) (r : Rocket F) (dt : F) (forward : Bool) : Rocket F :=
  let rad := r.angle * m.M_PI / 180.0
  let thrustDirection : Vector2f F :=
    if forward then ⟨m.cos (rad - m.M_PI / 2), m.sin (rad - m.M_PI / 2)⟩
    else ⟨-m.cos (rad - m.M_PI / 2), -m.sin (rad - m.M_PI / 2)⟩
  { r with velocity := r.velocity + thrustDirection * (thrustPower : F) * dt, thrusting := forward }

/-- Source `Rocket::applyRotationThrust`. -/
def applyRotationThrust (r : Rocket F) (dt : F) (clockwise : Bool) : Rocket F :=
  { r with
    angularVelocity :=
      r.angularVelocity + (if clockwise then (rotationThrust : F) else -rotationThrust) * dt }

/-- Source `Rocket::reset`. -/
def reset (r : Rocket F) : Rocket F :=
  { r with position := ⟨900.0, 500.0⟩, velocity := ⟨0.0, 0.0⟩, angularVelocity := 0.0,
           angle := 0.0 }

/-- Source `Rocket::shoot`. -/
def shoot (m : CMath F) (r : Rocket F) : Bullet F :=
  let rad := r.angle * m.M_PI / 180.0
  let bulletVelocity : Vector2f F :=
    r.velocity + (⟨m.cos (rad - m.M_PI / 2), m.sin (rad - m.M_PI / 2)⟩ : Vector2f F) * (100.0 : F)
  let bulletPosition : Vector2f F :=
    r.position + ⟨m.cos (rad - m.M_PI / 2) * 15.0, m.sin (rad - m.M_PI / 2) * 15.0⟩
  Bullet.new bulletPosition bulletVelocity

end Rocket

/-! ## `src/main.cpp` -/

/-- Source `const int WIDTH = 1800;` -/
def WIDTH : Int := 1800

/-- Source `const int HEIGHT = 1000;` -/
def HEIGHT : Int := 1000

section Main

variable {F : Type} [LinearOrderedField F]

/-- Source `elasticCollision` (main.cpp 11-29), with the references `a` and `b` returned as a
pair.  The second component lists the divisors of the scalar divisions evaluated before the
function returned, in program order (`Vector2 / T` is two scalar divisions). -/
def elasticCollisionTraced (sqrt : F → F) (a b : GameObject F) (massA massB : F) :
    (GameObject F × GameObject F) × List F :=
  let delta := b.getPosition - a.getPosition
  let distance := sqrt (delta.x * delta.x + delta.y * delta.y)
  if distance = 0 then ((a, b), [])
  else
    let normal := delta / distance
    let relativeVelocity := b.getVelocity - a.getVelocity
    let velocityAlongNormal := relativeVelocity.x * normal.x + relativeVelocity.y * normal.y
    if velocityAlongNormal > 0 then ((a, b), [distance, distance])
    else
      let restitution : F := 1.0
      let impulse := -(1 + restitution) * velocityAlongNormal / (1 / massA + 1 / massB)
      let impulseVec := impulse * normal
      let a1 := a.setVelocity (a.getVelocity - impulseVec / massA)
      let b1 := b.setVelocity (b.getVelocity + impulseVec / massB)
      ((a1, b1),
        [distance, distance, massA, massB, 1 / massA + 1 / massB, massA, massA, massB, massB])

/-- The state left by `elasticCollision(a, b, massA, massB)`. -/
def elasticCollision (sqrt : F → F) (a b : GameObject F) (massA massB : F) :
    GameObject F × GameObject F :=
  (elasticCollisionTraced sqrt a b massA massB).1

/-- Source `elasticCollision` (main.cpp 11-29) on `float`s with the special values of
IEEE 754, with the references `a` and `b` returned as a pair.  The operators of
`sf::Vector2f` are written out by component (`operator*(T, Vector2)` multiplies each component
of the vector by the scalar on its right). -/
def elasticCollisionIEEE (sqrt : F → F) (a b : GameObject (IEEE F)) (massA massB : IEEE F) :
    GameObject (IEEE F) × GameObject (IEEE F) :=
  let deltaX := b.getPosition.x - a.getPosition.x
  let deltaY := b.getPosition.y - a.getPosition.y
  let distance := IEEE.sqrt sqrt (deltaX * deltaX + deltaY * deltaY)
  if distance.eqZero then (a, b)
  else
    let normalX := deltaX / distance
    let normalY := deltaY / distance
    let relativeVelocityX := b.getVelocity.x - a.getVelocity.x
    let relativeVelocityY := b.getVelocity.y - a.getVelocity.y
    let velocityAlongNormal := relativeVelocityX * normalX + relativeVelocityY * normalY
    if velocityAlongNormal.gtZero then (a, b)
    else
      let restitution : IEEE F := IEEE.num 1.0
      let impulse :=
        -(IEEE.num 1 + restitution) * velocityAlongNormal /
          (IEEE.num 1 / massA + IEEE.num 1 / massB)
      let impulseVecX := normalX * impulse
      let impulseVecY := normalY * impulse
      let a1 := a.setVelocity
        ⟨a.getVelocity.x - impulseVecX / massA, a.getVelocity.y - impulseVecY / massA⟩
      let b1 := b.setVelocity
        ⟨b.getVelocity.x + impulseVecX / massB, b.getVelocity.y + impulseVecY / massB⟩
      (a1, b1)

/-- The local `velocityAlongNormal` of `elasticCollision` (main.cpp 12-19). -/
def velocityAlongNormal (sqrt : F → F) (a b : GameObject F) : F :=
  let delta := b.getPosition - a.getPosition
  let distance := sqrt (delta.x * delta.x + delta.y * delta.y)
  let normal := delta / distance
  let relativeVelocity := b.getVelocity - a.getVelocity
  relativeVelocity.x * normal.x + relativeVelocity.y * normal.y

/-- Source `std::clamp(v, lo, hi)`.  For `lo ≤ hi` this is the value the C++ standard requires.
For `hi < lo` the call is undefined in C++ and the libraries differ; the definition then
computes `(v < lo) ? lo : (hi < v) ? hi : v`. -/
def clamp (v lo hi : F) : F :=
  if v < lo then lo else if hi < v then hi else v

/-- Source `handleWallCollisions` (main.cpp 31-46). -/
def handleWallCollisions (obj : GameObject F) (radius : F) : GameObject F :=
  let pos := obj.getPosition
  let vel := obj.getVelocity
  let (pos, vel) : Vector2f F × Vector2f F :=
    if pos.x - radius ≤ 0 ∨ pos.x + radius ≥ (WIDTH : F) then
      ({ pos with x := clamp pos.x radius ((WIDTH : F) - radius) },
        { vel with x := -0.95 * vel.x })
    else (pos, vel)
  let (pos, vel) : Vector2f F × Vector2f F :=
    if pos.y - radius ≤ 0 ∨ pos.y + radius ≥ (HEIGHT : F) then
      ({ pos with y := clamp pos.y radius ((HEIGHT : F) - radius) },
        { vel with y := -0.95 * vel.y })
    else (pos, vel)
  (obj.setPosition pos).setVelocity vel

/-- The three containers owned by `main`: `rocket`, `asteroids`, `bullets`. -/
structure Game (F : Type) where
  rocket : Rocket F
  asteroids : List (Asteroid F)
  bullets : List (Bullet F)
deriving DecidableEq, Repr

/-- The inner loop of the bullet-asteroid phase for one bullet (main.cpp 51-63): the
asteroids are scanned in container order up to the first one hit.  Returns the bullet and
the asteroids as the loop leaves them. -/
def scanAsteroids (sqrt : F → F) (bullet : Bullet F) :
    List (Asteroid F) → Bullet F × List (Asteroid F)
  | [] => (bullet, [])
  | asteroid :: rest =>
    let delta := bullet.getPosition - asteroid.getPosition
    let distance := sqrt (delta.x * delta.x + delta.y * delta.y)
    if distance < asteroid.getRadius then
      let r :=
        elasticCollision sqrt bullet.toGameObject asteroid.toGameObject 0.1 asteroid.getMass
      ({ bullet with toGameObject := r.1 }, { asteroid with toGameObject := r.2 } :: rest)
    else
      let r := scanAsteroids sqrt bullet rest
      (r.1, asteroid :: r.2)

/-- The bullet-asteroid phase of `handleCollisions` (main.cpp 49-69). -/
def bulletAsteroidPhase (sqrt : F → F) :
    List (Bullet F) → List (Asteroid F) → List (Bullet F) × List (Asteroid F)
  | [], asteroids => ([], asteroids)
  | bullet :: rest, asteroids =>
    let r := scanAsteroids sqrt bullet asteroids
    let r2 := bulletAsteroidPhase sqrt rest r.2
    (r.1 :: r2.1, r2.2)

/-- The rocket-asteroid phase of `handleCollisions` (main.cpp 71-79). -/
def rocketAsteroidPhase (sqrt : F → F) (rocket : Rocket F) :
    List (Asteroid F) → Rocket F × List (Asteroid F)
  | [] => (rocket, [])
  | asteroid :: rest =>
    let delta := rocket.getPosition - asteroid.getPosition
    let distance := sqrt (delta.x * delta.x + delta.y * delta.y)
    if distance < asteroid.getRadius + 10.0 then
      let r :=
        elasticCollision sqrt rocket.toGameObject asteroid.toGameObject 1.0 asteroid.getMass
      let r2 := rocketAsteroidPhase sqrt { rocket with toGameObject := r.1 } rest
      (r2.1, { asteroid with toGameObject := r.2 } :: r2.2)
    else
      let r2 := rocketAsteroidPhase sqrt rocket rest
      (r2.1, asteroid :: r2.2)

/-- The body of the inner loop of the asteroid-asteroid phase (main.cpp 84):
`elasticCollision(asteroids[i], asteroids[j], asteroids[i].getMass(), asteroids[j].getMass())`. -/
def collidePair (sqrt : F → F) (asteroids : List (Asteroid F)) (i j : Nat) : List (Asteroid F) :=
  match asteroids[i]?, asteroids[j]? with
  | some ai, some aj =>
    let r := elasticCollision sqrt ai.toGameObject aj.toGameObject ai.getMass aj.getMass
    (asteroids.set i { ai with toGameObject := r.1 }).set j { aj with toGameObject := r.2 }
  | _, _ => asteroids

/-- The asteroid-asteroid phase of `handleCollisions` (main.cpp 81-86):
`for i in [0, size)`, `for j in [i + 1, size)`. -/
def asteroidAsteroidPhase (sqrt : F → F) (asteroids : List (Asteroid F)) : List (Asteroid F) :=
  (List.range asteroids.length).foldl
    (fun as i =>
      (List.range' (i + 1) (asteroids.length - (i + 1))).foldl
        (fun as j => collidePair sqrt as i j) as)
    asteroids

/-- Source `handleCollisions` (main.cpp 48-87). -/
def handleCollisions (sqrt : F → F) (g : Game F) : Game F :=
  let r := bulletAsteroidPhase sqrt g.bullets g.asteroids
  let bullets := r.1
  let r2 := rocketAsteroidPhase sqrt g.rocket r.2
  let rocket := r2.1
  let asteroids := asteroidAsteroidPhase sqrt r2.2
  { rocket := rocket, asteroids := asteroids, bullets := bullets }

/-- The state `main` starts its loop with (main.cpp 91-98). -/
def initialGame : Game F :=
  { rocket := Rocket.new ⟨(WIDTH : F) * 0.0 + 40.0, (HEIGHT : F) / 2.0⟩
    asteroids := [Asteroid.new ⟨900, 500⟩ ⟨0, 0⟩ 400]
    bullets := [] }

/-- The keyboard state sampled in one pass of the loop of `main` (main.cpp 112-116). -/
structure Keys where
  W : Bool
  S : Bool
  A : Bool
  D : Bool
  Space : Bool
deriving DecidableEq, Repr

/-- No key is pressed. -/
def Keys.noInput : Keys := { W := false, S := false, A := false, D := false, Space := false }

/-- "Handle input" (main.cpp 111-116). -/
def handleInput (m : CMath F) (dt : F) (keys : Keys) (g : Game F) : Game F :=
  let rocket := g.rocket
  let rocket := if keys.W then rocket.applyThrust m dt true else rocket
  let rocket := if keys.S then rocket.applyThrust m dt false else rocket
  let rocket := if keys.A then rocket.applyRotationThrust dt false else rocket
  let rocket := if keys.D then rocket.applyRotationThrust dt true else rocket
  let bullets := if keys.Space then g.bullets ++ [rocket.shoot m] else g.bullets
  { g with rocket := rocket, bullets := bullets }

/-- "Update game objects" (main.cpp 118-121). -/
def updateObjects (dt : F) (g : Game F) : Game F :=
  { rocket := g.rocket.update dt
    bullets := g.bullets.map (fun bullet => bullet.update dt)
    asteroids := g.asteroids.map (fun asteroid => asteroid.update dt) }

/-- "Handle wall collisions" (main.cpp 123-126). -/
def wallCollisions (g : Game F) : Game F :=
  { rocket := { g.rocket with toGameObject := handleWallCollisions g.rocket.toGameObject 10.0 }
    bullets := g.bullets.map
      (fun bullet => { bullet with toGameObject := handleWallCollisions bullet.toGameObject 3.0 })
    asteroids := g.asteroids.map
      (fun asteroid =>
        { asteroid with
          toGameObject := handleWallCollisions asteroid.toGameObject asteroid.getRadius }) }

/-- "Remove expired bullets" (main.cpp 128-131): the erase-remove idiom keeps the bullets
that are not expired, in order. -/
def removeExpired (g : Game F) : Game F :=
  { g with bullets := g.bullets.filter (fun b => !b.isExpired) }

/-- One pass of the loop of `main` without the window events and the rendering
(main.cpp 103, 111-134): `dt` is the clock reading, `keys` the keyboard state. -/
def tick (m : CMath F) (dt : F) (keys : Keys) (g : Game F) : Game F :=
  let g := handleInput m dt keys g
  let g := updateObjects dt g
  let g := wallCollisions g
  let g := removeExpired g
  handleCollisions m.sqrt g

/-! ## Quantities the theorems name -/

/-- The squared distance between the centers of `a` and `b`, the argument that
`elasticCollision` passes to `std::sqrt` (main.cpp 12-13). -/
def centerDistanceSq (a b : GameObject F) : F :=
  let delta := b.getPosition - a.getPosition
  delta.x * delta.x + delta.y * delta.y

/-- The local `distance` of `elasticCollision` (main.cpp 12-13). -/
def centerDistance (sqrt : F → F) (a b : GameObject F) : F :=
  let delta := b.getPosition - a.getPosition
  sqrt (delta.x * delta.x + delta.y * delta.y)

/-- The local `normal` of `elasticCollision` (main.cpp 17). -/
def collisionNormal (sqrt : F → F) (a b : GameObject F) : Vector2f F :=
  (b.getPosition - a.getPosition) / centerDistance sqrt a b

/-- The local `impulse` of `elasticCollision` (main.cpp 23-24). -/
def collisionImpulse (sqrt : F → F) (a b : GameObject F) (massA massB : F) : F :=
  -(1 + 1.0) * velocityAlongNormal sqrt a b / (1 / massA + 1 / massB)

/-- The kinetic energy `(1/2) * mass * |v|^2` of an object moving with the velocity of `o`. -/
def kineticEnergy (mass : F) (o : GameObject F) : F :=
  1 / 2 * mass * (o.velocity.x * o.velocity.x + o.velocity.y * o.velocity.y)

/-- The contact test of the rocket-asteroid phase (main.cpp 73-76). -/
def rocketTouches (sqrt : F → F) (rocket : Rocket F) (asteroid : Asteroid F) : Prop :=
  let delta := rocket.getPosition - asteroid.getPosition
  let distance := sqrt (delta.x * delta.x + delta.y * delta.y)
  distance < asteroid.getRadius + 10.0

/-- The hit test of the bullet-asteroid phase (main.cpp 53-56). -/
def bulletHits (sqrt : F → F) (bullet : Bullet F) (asteroid : Asteroid F) : Prop :=
  let delta := bullet.getPosition - asteroid.getPosition
  let distance := sqrt (delta.x * delta.x + delta.y * delta.y)
  distance < asteroid.getRadius

/-- The contact test of the rocket is a comparison of two numbers. -/
instance rocketTouches.decidable (sqrt : F → F) (rocket : Rocket F) (asteroid : Asteroid F) :
    Decidable (rocketTouches sqrt rocket asteroid) := by
  unfold rocketTouches
  exact inferInstance

/-- The hit test of a bullet is a comparison of two numbers. -/
instance bulletHits.decidable (sqrt : F → F) (bullet : Bullet F) (asteroid : Asteroid F) :
    Decidable (bulletHits sqrt bullet asteroid) := by
  unfold bulletHits
  exact inferInstance

/-- One step of the craft phase as the specification words it: if the body passes the craft
gate, `elasticCollision(craft, body, 1.0, body.mass)` is applied to the two, else both are
left as they are.  `acc` holds the craft so far and the bodies already visited, in order; the
gate is tested with the position of `r0`, the craft at the start of the phase. -/
def craftGateStep (sqrt : F → F) (r0 : Rocket F) (acc : Rocket F × List (Asteroid F))
    (a : Asteroid F) : Rocket F × List (Asteroid F) :=
  if rocketTouches sqrt r0 a then
    let r := elasticCollision sqrt acc.1.toGameObject a.toGameObject 1.0 a.getMass
    ({ acc.1 with toGameObject := r.1 }, acc.2 ++ [{ a with toGameObject := r.2 }])
  else (acc.1, acc.2 ++ [a])

/-- What the collision code never writes in an asteroid: position, radius and mass. -/
def Asteroid.fixedData (a : Asteroid F) : Vector2f F × F × F := (a.position, a.radius, a.mass)

/-- What the collision code never writes in a bullet: position, lifetime and time alive. -/
def Bullet.fixedData (b : Bullet F) : Vector2f F × F × F := (b.position, b.lifetime, b.timeAlive)

/-- What the collision code never writes in the rocket: position, angle, angular velocity
and the thrusting flag. -/
def Rocket.fixedData (r : Rocket F) : Vector2f F × F × F × Bool :=
  (r.position, r.angle, r.angularVelocity, r.thrusting)

/-- The total momentum along one axis (`axis` is `Vector2f.x` or `Vector2f.y`), with the
masses that `handleCollisions` uses: `1.0` for the rocket, `0.1` for a bullet and the stored
mass for an asteroid. -/
def totalMomentum (axis : Vector2f F → F) (g : Game F) : F :=
  1.0 * axis g.rocket.velocity + (g.bullets.map (fun b => 0.1 * axis b.velocity)).sum +
    (g.asteroids.map (fun a => a.mass * axis a.velocity)).sum

end Main


/-! ## Concrete inputs -/

/-- An object at the origin moving right with unit speed. -/
def movingAtOrigin : GameObject ℚ := { position := ⟨0, 0⟩, velocity := ⟨1, 0⟩ }

/-- An object at `(3, 4)`, at distance `5` from the origin, at rest. -/
def restingAt34 : GameObject ℚ := { position := ⟨3, 4⟩, velocity := ⟨0, 0⟩ }

/-- An object at the origin, at rest. -/
def restingAtOrigin : GameObject ℚ := { position := ⟨0, 0⟩, velocity := ⟨0, 0⟩ }

/-- An object at `(3, 4)` moving right with unit speed, away from the origin. -/
def movingAt34 : GameObject ℚ := { position := ⟨3, 4⟩, velocity := ⟨1, 0⟩ }

/-- An object in the middle of the playfield. -/
def midField : GameObject ℚ := { position := ⟨900, 500⟩, velocity := ⟨4, -7⟩ }

/-- An object whose bounding circle of radius `10` crosses the left edge only. -/
def nearLeftWall : GameObject ℚ := { position := ⟨5, 500⟩, velocity := ⟨-20, 3⟩ }

/-- An object with the `x` components of `nearLeftWall` and other `y` components. -/
def nearLeftWallOther : GameObject ℚ := { position := ⟨5, 2⟩, velocity := ⟨-20, 7⟩ }

/-- The scenario of the specification: the craft at `(5, 500)` moving left with velocity
`(-20, 0)`, the asteroid that `main` creates, and no bullets. -/
def wrapScenario : Game ℚ :=
  { rocket :=
      { position := ⟨5, 500⟩, velocity := ⟨-20, 0⟩, angle := 0, angularVelocity := 0,
        thrusting := false }
    asteroids := [Asteroid.new ⟨900, 500⟩ ⟨0, 0⟩ 400]
    bullets := [] }

/-- A craft at the corner `(0, 0)` of the playfield moving right at `5000` units per second. -/
def fastRocket : Rocket ℚ :=
  { position := ⟨0, 0⟩, velocity := ⟨5000, 0⟩, angle := 0, angularVelocity := 0,
    thrusting := false }

/-- A bullet whose time alive equals its lifetime of `30000`. -/
def bulletAtLimit : Bullet ℚ :=
  { position := ⟨100, 100⟩, velocity := ⟨1, 0⟩, lifetime := 30000, timeAlive := 30000 }

/-- A bullet whose time alive exceeds its lifetime of `30000`. -/
def bulletPastLimit : Bullet ℚ :=
  { position := ⟨200, 100⟩, velocity := ⟨1, 0⟩, lifetime := 30000, timeAlive := 30001 }

/-- A game whose bullet container holds `bulletPastLimit` and `bulletAtLimit`. -/
def pruneScenario : Game ℚ :=
  { rocket := Rocket.new ⟨40, 500⟩
    asteroids := [Asteroid.new ⟨900, 500⟩ ⟨0, 0⟩ 400]
    bullets := [bulletPastLimit, bulletAtLimit] }

/-- A bullet at the origin moving right. -/
def originBullet : Bullet ℚ :=
  { position := ⟨0, 0⟩, velocity := ⟨1, 0⟩, lifetime := 30000, timeAlive := 0 }

/-- A body of radius `10` at distance `50` from the origin: `originBullet` is outside it. -/
def farBody : Asteroid ℚ := Asteroid.new ⟨30, 40⟩ ⟨0, 0⟩ 10

/-- A body of radius `10` at distance `5` from the origin: `originBullet` is inside it. -/
def nearBody : Asteroid ℚ := Asteroid.new ⟨3, 4⟩ ⟨0, 0⟩ 10

/-- A second body of radius `10` at distance `5` from the origin. -/
def otherNearBody : Asteroid ℚ := Asteroid.new ⟨4, 3⟩ ⟨0, 0⟩ 10

/-- The projectile of the scenario of the specification on the tick in which it is inside
the body: at `(600, 500)` with velocity `(50, 0)`. -/
def scenarioBullet : Bullet ℚ :=
  { position := ⟨600, 500⟩, velocity := ⟨50, 0⟩, lifetime := 30000, timeAlive := 12 }

/-- A craft at `(1500, 500)`, out of contact range of the body of `main`. -/
def distantRocket : Rocket ℚ := Rocket.new ⟨1500, 500⟩

/-- A body of radius `10` at `(900, 500)` moving right with unit speed. -/
def leftBody : Asteroid ℚ := Asteroid.new ⟨900, 500⟩ ⟨1, 0⟩ 10

/-- A body of radius `10` at rest at `(950, 500)`: its circle is `30` away from the circle of
`leftBody`, which moves towards it. -/
def rightBody : Asteroid ℚ := Asteroid.new ⟨950, 500⟩ ⟨0, 0⟩ 10

/-- A bullet at `(100, 500)`, `800` to the left of `leftBody`. -/
def distantBullet : Bullet ℚ :=
  { position := ⟨100, 500⟩, velocity := ⟨50, 0⟩, lifetime := 30000, timeAlive := 1 }

/-- A game in which neither the bullet nor the craft is in contact with the one body. -/
def gateScenario : Game ℚ :=
  { rocket := distantRocket, asteroids := [leftBody], bullets := [distantBullet] }

/-- The scenario of the specification on the tick of the hit: the body of `main` at rest,
`scenarioBullet` inside it, and the craft out of contact range. -/
def hitScenario : Game ℚ :=
  { rocket := distantRocket, asteroids := [Asteroid.new ⟨900, 500⟩ ⟨0, 0⟩ 400],
    bullets := [scenarioBullet] }

/-- A craft at rest at `(905, 500)`, `5` to the right of the center of `leftBody` and so
within its contact range of `10 + 10`. -/
def contactRocket : Rocket ℚ := Rocket.new ⟨905, 500⟩

/-- A game in which the craft is in contact with the one body, which moves towards it. -/
def contactScenario : Game ℚ :=
  { rocket := contactRocket, asteroids := [leftBody], bullets := [] }

/-! ## Component lemmas -/

section Lemmas

variable {F : Type} [LinearOrderedField F]

@[simp] theorem Vector2f.add_x (l r : Vector2f F) : (l + r).x = l.x + r.x := rfl
@[simp] theorem Vector2f.add_y (l r : Vector2f F) : (l + r).y = l.y + r.y := rfl
@[simp] theorem Vector2f.sub_x (l r : Vector2f F) : (l - r).x = l.x - r.x := rfl
@[simp] theorem Vector2f.sub_y (l r : Vector2f F) : (l - r).y = l.y - r.y := rfl
@[simp] theorem Vector2f.mul_x (l : Vector2f F) (r : F) : (l * r).x = l.x * r := rfl
@[simp] theorem Vector2f.mul_y (l : Vector2f F) (r : F) : (l * r).y = l.y * r := rfl
@[simp] theorem Vector2f.smul_x (l : F) (r : Vector2f F) : (l * r).x = r.x * l := rfl
@[simp] theorem Vector2f.smul_y (l : F) (r : Vector2f F) : (l * r).y = r.y * l := rfl
@[simp] theorem Vector2f.div_x (l : Vector2f F) (r : F) : (l / r).x = l.x / r := rfl
@[simp] theorem Vector2f.div_y (l : Vector2f F) (r : F) : (l / r).y = l.y / r := rfl

end Lemmas

section AccessorLemmas

variable {F : Type}

@[simp] theorem GameObject.getPosition_eq (o : GameObject F) : o.getPosition = o.position := rfl
@[simp] theorem GameObject.getVelocity_eq (o : GameObject F) : o.getVelocity = o.velocity := rfl
@[simp] theorem GameObject.setPosition_position (o : GameObject F) (p : Vector2f F) :
    (o.setPosition p).position = p := rfl
@[simp] theorem GameObject.setPosition_velocity (o : GameObject F) (p : Vector2f F) :
    (o.setPosition p).velocity = o.velocity := rfl
@[simp] theorem GameObject.setVelocity_position (o : GameObject F) (v : Vector2f F) :
    (o.setVelocity v).position = o.position := rfl
@[simp] theorem GameObject.setVelocity_velocity (o : GameObject F) (v : Vector2f F) :
    (o.setVelocity v).velocity = v := rfl

end AccessorLemmas

section Lemmas

variable {F : Type} [LinearOrderedField F]

/-- On squares of non-negative rationals `Rat.sqrt` is exact. -/
theorem rat_sqrt_mul_self (q : ℚ) (h : 0 ≤ q) : Rat.sqrt (q * q) = q := by
  rw [Rat.sqrt_eq, abs_of_nonneg h]

/-- The three paths of `elasticCollisionTraced`, with the locals named. -/
theorem elasticCollisionTraced_eq (sqrt : F → F) (a b : GameObject F) (massA massB : F) :
    elasticCollisionTraced sqrt a b massA massB =
      if centerDistance sqrt a b = 0 then ((a, b), [])
      else if velocityAlongNormal sqrt a b > 0 then
        ((a, b), [centerDistance sqrt a b, centerDistance sqrt a b])
      else
        ((a.setVelocity
            (a.velocity -
              (collisionImpulse sqrt a b massA massB * collisionNormal sqrt a b) / massA),
          b.setVelocity
            (b.velocity +
              (collisionImpulse sqrt a b massA massB * collisionNormal sqrt a b) / massB)),
          [centerDistance sqrt a b, centerDistance sqrt a b, massA, massB,
            1 / massA + 1 / massB, massA, massA, massB, massB]) := by
  simp only [elasticCollisionTraced, centerDistance, velocityAlongNormal, collisionImpulse,
    collisionNormal]
  split_ifs <;> rfl

/-- The three paths of `elasticCollision`, with the locals named. -/
theorem elasticCollision_eq (sqrt : F → F) (a b : GameObject F) (massA massB : F) :
    elasticCollision sqrt a b massA massB =
      if centerDistance sqrt a b = 0 then (a, b)
      else if velocityAlongNormal sqrt a b > 0 then (a, b)
      else
        (a.setVelocity
            (a.velocity -
              (collisionImpulse sqrt a b massA massB * collisionNormal sqrt a b) / massA),
          b.setVelocity
            (b.velocity +
              (collisionImpulse sqrt a b massA massB * collisionNormal sqrt a b) / massB)) := by
  rw [elasticCollision, elasticCollisionTraced_eq]
  split_ifs <;> rfl

/-- Positive masses have a non-zero sum of reciprocals. -/
theorem inv_mass_sum_ne_zero (massA massB : F) (hA : 0 < massA) (hB : 0 < massB) :
    1 / massA + 1 / massB ≠ 0 := by
  have h1 : 0 < 1 / massA := one_div_pos.mpr hA
  have h2 : 0 < 1 / massB := one_div_pos.mpr hB
  exact (add_pos h1 h2).ne'

/-- With positive masses every division that `elasticCollision` evaluates has a non-zero
divisor. -/
theorem elasticCollisionTraced_divisors_ne_zero (sqrt : F → F) (a b : GameObject F)
    (massA massB : F) (hA : 0 < massA) (hB : 0 < massB) :
    ∀ d ∈ (elasticCollisionTraced sqrt a b massA massB).2, d ≠ 0 := by
  rw [elasticCollisionTraced_eq]
  have hS := inv_mass_sum_ne_zero massA massB hA hB
  have hA1 := hA.ne'
  have hB1 := hB.ne'
  split_ifs with h1 h2
  · simp
  · intro d hd
    simp only [List.mem_cons, List.mem_singleton, List.not_mem_nil, or_false] at hd
    rcases hd with rfl | rfl <;> assumption
  · intro d hd
    simp only [List.mem_cons, List.mem_singleton, List.not_mem_nil, or_false] at hd
    rcases hd with rfl | rfl | rfl | rfl | rfl | rfl | rfl | rfl | rfl <;> assumption

/-- The value of `Rat.sqrt` at `25`. -/
theorem rat_sqrt_25 : Rat.sqrt 25 = 5 := by
  rw [show (25 : ℚ) = 5 * 5 by norm_num]
  exact rat_sqrt_mul_self 5 (by norm_num)

/-- The value of `Rat.sqrt` at `0`. -/
theorem rat_sqrt_0 : Rat.sqrt 0 = 0 := by
  have h := rat_sqrt_mul_self 0 le_rfl
  rwa [mul_zero] at h

/-- The algebra behind energy conservation: an impulse `j` along a unit normal `n` with
`j * (1/mA + 1/mB) = -2 * ((vb - va) . n)` leaves the kinetic energy unchanged. -/
theorem kinetic_energy_algebra (mA mB j nx ny vax vay vbx vby : F) (hA : mA ≠ 0) (hB : mB ≠ 0)
    (hj : j * (1 / mA + 1 / mB) = -2 * ((vbx - vax) * nx + (vby - vay) * ny))
    (hn : nx * nx + ny * ny = 1) :
    1 / 2 * mA * (vax * vax + vay * vay) + 1 / 2 * mB * (vbx * vbx + vby * vby) =
      1 / 2 * mA * ((vax - nx * j / mA) * (vax - nx * j / mA) +
          (vay - ny * j / mA) * (vay - ny * j / mA)) +
        1 / 2 * mB * ((vbx + nx * j / mB) * (vbx + nx * j / mB) +
          (vby + ny * j / mB) * (vby + ny * j / mB)) := by
  have hAi : mA * mA⁻¹ = 1 := mul_inv_cancel₀ hA
  have hBi : mB * mB⁻¹ = 1 := mul_inv_cancel₀ hB
  simp only [div_eq_mul_inv, one_mul] at hj ⊢
  linear_combination
    (j * (vax * nx + vay * ny) - 2⁻¹ * mA⁻¹ * j ^ 2 * (nx * nx + ny * ny)) * hAi +
      (-j * (vbx * nx + vby * ny) - 2⁻¹ * mB⁻¹ * j ^ 2 * (nx * nx + ny * ny)) * hBi +
      (-2⁻¹ * j * (nx * nx + ny * ny)) * hj +
      (j * ((vbx - vax) * nx + (vby - vay) * ny)) * hn

/-- Where `std::sqrt` is exact and the distance is not zero, the collision normal is a unit
vector. -/
theorem collisionNormal_unit (sqrt : F → F) (a b : GameObject F)
    (hs : SqrtExactAt sqrt (centerDistanceSq a b)) (h0 : centerDistance sqrt a b ≠ 0) :
    (collisionNormal sqrt a b).x * (collisionNormal sqrt a b).x +
      (collisionNormal sqrt a b).y * (collisionNormal sqrt a b).y = 1 := by
  have hd : centerDistance sqrt a b * centerDistance sqrt a b =
      (b.position.x - a.position.x) * (b.position.x - a.position.x) +
        (b.position.y - a.position.y) * (b.position.y - a.position.y) := hs.2
  simp only [collisionNormal, Vector2f.div_x, Vector2f.div_y, Vector2f.sub_x, Vector2f.sub_y,
    GameObject.getPosition_eq]
  field_simp
  linear_combination -hd

/-- The impulse times the sum of the inverse masses. -/
theorem collisionImpulse_mul (sqrt : F → F) (a b : GameObject F) (massA massB : F)
    (hA : 0 < massA) (hB : 0 < massB) :
    collisionImpulse sqrt a b massA massB * (1 / massA + 1 / massB) =
      -2 * velocityAlongNormal sqrt a b := by
  have hS := inv_mass_sum_ne_zero massA massB hA hB
  unfold collisionImpulse
  rw [div_mul_cancel₀ _ hS]
  norm_num

end Lemmas

/-! ## Elastic collision resolver -/

section ElasticCollision

variable {F : Type} [LinearOrderedField F]

/-- C1. Momentum conservation of `elasticCollision`: for all objects `a`, `b` and all masses
`massA > 0`, `massB > 0` (and whatever `std::sqrt` returns) the total momentum
`massA * va + massB * vb` is the same before and after the call, in `x` and in `y`, on every
path of the function; and every division the call evaluates has a non-zero divisor, so the
field division is the exact quotient. -/
theorem elasticCollision_momentum_conserved (sqrt : F → F) (a b : GameObject F)
    (massA massB : F) (hA : 0 < massA) (hB : 0 < massB) :
    (massA * a.velocity.x + massB * b.velocity.x =
        massA * (elasticCollision sqrt a b massA massB).1.velocity.x +
          massB * (elasticCollision sqrt a b massA massB).2.velocity.x) ∧
      (massA * a.velocity.y + massB * b.velocity.y =
        massA * (elasticCollision sqrt a b massA massB).1.velocity.y +
          massB * (elasticCollision sqrt a b massA massB).2.velocity.y) ∧
      ∀ d ∈ (elasticCollisionTraced sqrt a b massA massB).2, d ≠ 0 := by
  refine ⟨?_, ?_, elasticCollisionTraced_divisors_ne_zero sqrt a b massA massB hA hB⟩
  · rw [elasticCollision_eq]
    split_ifs with h1 h2
    · rfl
    · rfl
    · simp only [GameObject.setVelocity_velocity, Vector2f.sub_x, Vector2f.add_x,
        Vector2f.div_x, Vector2f.smul_x]
      have hA1 := hA.ne'
      have hB1 := hB.ne'
      field_simp
      ring
  · rw [elasticCollision_eq]
    split_ifs with h1 h2
    · rfl
    · rfl
    · simp only [GameObject.setVelocity_velocity, Vector2f.sub_y, Vector2f.add_y,
        Vector2f.div_y, Vector2f.smul_y]
      have hA1 := hA.ne'
      have hB1 := hB.ne'
      field_simp
      ring

/-- Witness of C1: masses `1` and `2`, centers at distance `5`, the objects approaching. -/
theorem elasticCollision_momentum_conserved_witness :
    (0 : ℚ) < 1 ∧ (0 : ℚ) < 2 ∧
      ((1 : ℚ) * movingAtOrigin.velocity.x + 2 * restingAt34.velocity.x =
        1 * (elasticCollision Rat.sqrt movingAtOrigin restingAt34 1 2).1.velocity.x +
          2 * (elasticCollision Rat.sqrt movingAtOrigin restingAt34 1 2).2.velocity.x) ∧
      ((1 : ℚ) * movingAtOrigin.velocity.y + 2 * restingAt34.velocity.y =
        1 * (elasticCollision Rat.sqrt movingAtOrigin restingAt34 1 2).1.velocity.y +
          2 * (elasticCollision Rat.sqrt movingAtOrigin restingAt34 1 2).2.velocity.y) ∧
      ∀ d ∈ (elasticCollisionTraced Rat.sqrt movingAtOrigin restingAt34 1 2).2, d ≠ 0 :=
  ⟨by norm_num, by norm_num,
    elasticCollision_momentum_conserved Rat.sqrt movingAtOrigin restingAt34 1 2
      (by norm_num) (by norm_num)⟩

/-- C2. Kinetic-energy conservation of `elasticCollision` (restitution fixed at `1.0`): for
objects with distinct centers and masses `massA > 0`, `massB > 0`, where `std::sqrt` returns
the exact root of the squared center distance, the total kinetic energy
`(1/2) * massA * |va|^2 + (1/2) * massB * |vb|^2` is the same before and after the call. -/
theorem elasticCollision_kinetic_energy_conserved (sqrt : F → F) (a b : GameObject F)
    (massA massB : F) (_hab : a.position ≠ b.position) (hA : 0 < massA) (hB : 0 < massB)
    (hs : SqrtExactAt sqrt (centerDistanceSq a b)) :
    kineticEnergy massA a + kineticEnergy massB b =
      kineticEnergy massA (elasticCollision sqrt a b massA massB).1 +
        kineticEnergy massB (elasticCollision sqrt a b massA massB).2 := by
  rw [elasticCollision_eq]
  split_ifs with h1 h2
  · rfl
  · rfl
  · have hn := collisionNormal_unit sqrt a b hs h1
    have hj := collisionImpulse_mul sqrt a b massA massB hA hB
    have hv : velocityAlongNormal sqrt a b =
        (b.velocity.x - a.velocity.x) * (collisionNormal sqrt a b).x +
          (b.velocity.y - a.velocity.y) * (collisionNormal sqrt a b).y := rfl
    rw [hv] at hj
    simp only [kineticEnergy, GameObject.setVelocity_velocity, Vector2f.sub_x, Vector2f.sub_y,
      Vector2f.add_x, Vector2f.add_y, Vector2f.div_x, Vector2f.div_y, Vector2f.smul_x,
      Vector2f.smul_y]
    exact kinetic_energy_algebra massA massB _ _ _ _ _ _ _ hA.ne' hB.ne' hj hn

/-- Witness of C2: masses `1` and `2`, centers `(0,0)` and `(3,4)`, where `Rat.sqrt 25 = 5`. -/
theorem elasticCollision_kinetic_energy_conserved_witness :
    movingAtOrigin.position ≠ restingAt34.position ∧ (0 : ℚ) < 1 ∧ (0 : ℚ) < 2 ∧
      SqrtExactAt Rat.sqrt (centerDistanceSq movingAtOrigin restingAt34) ∧
      kineticEnergy 1 movingAtOrigin + kineticEnergy 2 restingAt34 =
        kineticEnergy 1 (elasticCollision Rat.sqrt movingAtOrigin restingAt34 1 2).1 +
          kineticEnergy 2 (elasticCollision Rat.sqrt movingAtOrigin restingAt34 1 2).2 := by
  have hne : movingAtOrigin.position ≠ restingAt34.position := by
    simp [movingAtOrigin, restingAt34]
  have hs : SqrtExactAt Rat.sqrt (centerDistanceSq movingAtOrigin restingAt34) := by
    have h25 : centerDistanceSq movingAtOrigin restingAt34 = 25 := by
      norm_num [centerDistanceSq, movingAtOrigin, restingAt34]
    rw [h25, SqrtExactAt, rat_sqrt_25]
    norm_num
  exact ⟨hne, by norm_num, by norm_num, hs,
    elasticCollision_kinetic_energy_conserved Rat.sqrt movingAtOrigin restingAt34 1 2 hne
      (by norm_num) (by norm_num) hs⟩

/-- C3. No-op on a separating pair: for objects with distinct centers and any masses, if the
`velocityAlongNormal` that `elasticCollision` computes is strictly positive, the call returns
both objects exactly as they were (position and velocity); the only divisions it evaluated are
the two by the non-zero distance, none by a mass. -/
theorem elasticCollision_separating_noop (sqrt : F → F) (a b : GameObject F)
    (massA massB : F) (_hab : a.position ≠ b.position)
    (hv : velocityAlongNormal sqrt a b > 0) :
    elasticCollision sqrt a b massA massB = (a, b) ∧
      ∀ d ∈ (elasticCollisionTraced sqrt a b massA massB).2, d ≠ 0 := by
  constructor
  · rw [elasticCollision_eq]
    split_ifs with h1
    · rfl
    · rfl
  · rw [elasticCollisionTraced_eq]
    split_ifs with h1
    · simp
    · intro d hd
      simp only [List.mem_cons, List.mem_singleton, List.not_mem_nil, or_false] at hd
      rcases hd with rfl | rfl <;> assumption

/-- Witness of C3: centers `(0,0)` and `(3,4)`, the second object moving away, masses `0`. -/
theorem elasticCollision_separating_noop_witness :
    restingAtOrigin.position ≠ movingAt34.position ∧
      velocityAlongNormal Rat.sqrt restingAtOrigin movingAt34 > 0 ∧
      elasticCollision Rat.sqrt restingAtOrigin movingAt34 0 0 = (restingAtOrigin, movingAt34) ∧
      ∀ d ∈ (elasticCollisionTraced Rat.sqrt restingAtOrigin movingAt34 0 0).2, d ≠ 0 := by
  have hne : restingAtOrigin.position ≠ movingAt34.position := by
    simp [restingAtOrigin, movingAt34]
  have hv : velocityAlongNormal Rat.sqrt restingAtOrigin movingAt34 > 0 := by
    have h25 : ((3 : ℚ) - 0) * (3 - 0) + (4 - 0) * (4 - 0) = 25 := by norm_num
    simp only [velocityAlongNormal, restingAtOrigin, movingAt34, GameObject.getPosition_eq,
      GameObject.getVelocity_eq, Vector2f.sub_x, Vector2f.sub_y, Vector2f.div_x,
      Vector2f.div_y, h25, rat_sqrt_25]
    norm_num
  exact ⟨hne, hv, elasticCollision_separating_noop Rat.sqrt restingAtOrigin movingAt34 0 0 hne hv⟩

/-- C4. No-op on coincident centers: for objects with `posA = posB`, any velocities and any
masses (zero included), where `std::sqrt 0 = 0`, `elasticCollision` returns both objects exactly
as they were and has evaluated no division at all. -/
theorem elasticCollision_coincident_noop (sqrt : F → F) (a b : GameObject F)
    (massA massB : F) (hpos : a.position = b.position) (hs : sqrt 0 = 0) :
    elasticCollision sqrt a b massA massB = (a, b) ∧
      (elasticCollisionTraced sqrt a b massA massB).2 = [] := by
  have h0 : centerDistance sqrt a b = 0 := by
    simp only [centerDistance, GameObject.getPosition_eq, Vector2f.sub_x, Vector2f.sub_y, hpos,
      sub_self, mul_zero, add_zero]
    exact hs
  constructor
  · rw [elasticCollision_eq, if_pos h0]
  · rw [elasticCollisionTraced_eq, if_pos h0]

/-- Witness of C4: both centers at `(3,4)`, different velocities, both masses `0`. -/
theorem elasticCollision_coincident_noop_witness :
    restingAt34.position = movingAt34.position ∧ Rat.sqrt 0 = 0 ∧
      elasticCollision Rat.sqrt restingAt34 movingAt34 0 0 = (restingAt34, movingAt34) ∧
      (elasticCollisionTraced Rat.sqrt restingAt34 movingAt34 0 0).2 = [] :=
  ⟨rfl, rat_sqrt_0,
    elasticCollision_coincident_noop Rat.sqrt restingAt34 movingAt34 0 0 rfl rat_sqrt_0⟩

end ElasticCollision

/-! ## Wall reflection resolver -/

section WallLemmas

variable {F : Type} [LinearOrderedField F]

/-- With `lo ≤ hi` the value of `clamp` lies in `[lo, hi]`. -/
theorem clamp_mem (v lo hi : F) (h : lo ≤ hi) : lo ≤ clamp v lo hi ∧ clamp v lo hi ≤ hi := by
  unfold clamp
  split_ifs with h1 h2
  · exact ⟨le_rfl, h⟩
  · exact ⟨h, le_rfl⟩
  · exact ⟨not_lt.mp h1, not_lt.mp h2⟩

/-- The `x` position left by `handleWallCollisions`. -/
theorem handleWallCollisions_position_x (obj : GameObject F) (radius : F) :
    (handleWallCollisions obj radius).position.x =
      if obj.position.x - radius ≤ 0 ∨ obj.position.x + radius ≥ 1800 then
        clamp obj.position.x radius (1800 - radius)
      else obj.position.x := by
  simp only [handleWallCollisions, WIDTH, HEIGHT, Int.cast_ofNat, GameObject.getPosition_eq,
    GameObject.getVelocity_eq]
  split_ifs <;> rfl

/-- The `x` velocity left by `handleWallCollisions`. -/
theorem handleWallCollisions_velocity_x (obj : GameObject F) (radius : F) :
    (handleWallCollisions obj radius).velocity.x =
      if obj.position.x - radius ≤ 0 ∨ obj.position.x + radius ≥ 1800 then
        -0.95 * obj.velocity.x
      else obj.velocity.x := by
  simp only [handleWallCollisions, WIDTH, HEIGHT, Int.cast_ofNat, GameObject.getPosition_eq,
    GameObject.getVelocity_eq]
  split_ifs <;> rfl

/-- The `y` position left by `handleWallCollisions`. -/
theorem handleWallCollisions_position_y (obj : GameObject F) (radius : F) :
    (handleWallCollisions obj radius).position.y =
      if obj.position.y - radius ≤ 0 ∨ obj.position.y + radius ≥ 1000 then
        clamp obj.position.y radius (1000 - radius)
      else obj.position.y := by
  simp only [handleWallCollisions, WIDTH, HEIGHT, Int.cast_ofNat, GameObject.getPosition_eq,
    GameObject.getVelocity_eq]
  split_ifs <;> rfl

/-- The `y` velocity left by `handleWallCollisions`. -/
theorem handleWallCollisions_velocity_y (obj : GameObject F) (radius : F) :
    (handleWallCollisions obj radius).velocity.y =
      if obj.position.y - radius ≤ 0 ∨ obj.position.y + radius ≥ 1000 then
        -0.95 * obj.velocity.y
      else obj.velocity.y := by
  simp only [handleWallCollisions, WIDTH, HEIGHT, Int.cast_ofNat, GameObject.getPosition_eq,
    GameObject.getVelocity_eq]
  split_ifs <;> rfl

/-- An object that touches no edge is returned as it was. -/
theorem handleWallCollisions_inside (obj : GameObject F) (radius : F)
    (hx : ¬(obj.position.x - radius ≤ 0 ∨ obj.position.x + radius ≥ 1800))
    (hy : ¬(obj.position.y - radius ≤ 0 ∨ obj.position.y + radius ≥ 1000)) :
    handleWallCollisions obj radius = obj := by
  apply GameObject.ext
  · apply Vector2f.ext
    · rw [handleWallCollisions_position_x, if_neg hx]
    · rw [handleWallCollisions_position_y, if_neg hy]
  · apply Vector2f.ext
    · rw [handleWallCollisions_velocity_x, if_neg hx]
    · rw [handleWallCollisions_velocity_y, if_neg hy]

/-- A reflected non-zero velocity component differs from the original one. -/
theorem reflected_ne (v : F) (hv : v ≠ 0) : v ≠ -0.95 * v := by
  intro h
  apply hv
  have h2 : (1.95 : F) * v = 0 := by linear_combination h
  rcases mul_eq_zero.mp h2 with h3 | h3
  · norm_num at h3
  · exact h3

end WallLemmas

section Wall

variable {F : Type} [LinearOrderedField F]

/-- Counterexample to C5 as stated: radius `600` and the object at `(900, 500)`.  The `x`
axis does not fire and `x` stays `900`; the `y` axis fires (`500 - 600 ≤ 0`) and calls
`std::clamp(500, 600, 400)` with `lo > hi`.  Whatever that call returns, the claimed bound
`600 ≤ y ≤ 1000 - 600` cannot hold: for every radius above `500` the interval
`[radius, 1000 - radius]` is empty. -/
theorem handleWallCollisions_containment_counterexample :
    (0 : ℚ) ≤ 600 ∧ (handleWallCollisions midField 600).position.x = 900 ∧
      (midField.position.y - 600 ≤ 0 ∨ midField.position.y + 600 ≥ 1000) ∧
      ¬((600 : ℚ) ≤ (handleWallCollisions midField 600).position.x ∧
        (handleWallCollisions midField 600).position.x ≤ 1800 - 600 ∧
        (600 : ℚ) ≤ (handleWallCollisions midField 600).position.y ∧
        (handleWallCollisions midField 600).position.y ≤ 1000 - 600) := by
  have hx : (handleWallCollisions midField 600).position.x = 900 := by
    rw [handleWallCollisions_position_x]
    norm_num [midField]
  refine ⟨by norm_num, hx, by norm_num [midField], ?_⟩
  rintro ⟨-, -, h3, h4⟩
  linarith

/-- C5 (amended). Wall containment: for every object and every radius with
`0 ≤ radius ≤ 500` (half the playfield height), after `handleWallCollisions(obj, radius)` the
position satisfies `radius ≤ x ≤ 1800 - radius` and `radius ≤ y ≤ 1000 - radius`. -/
theorem handleWallCollisions_containment (obj : GameObject F) (radius : F)
    (_h0 : 0 ≤ radius) (h : radius ≤ 500) :
    radius ≤ (handleWallCollisions obj radius).position.x ∧
      (handleWallCollisions obj radius).position.x ≤ 1800 - radius ∧
      radius ≤ (handleWallCollisions obj radius).position.y ∧
      (handleWallCollisions obj radius).position.y ≤ 1000 - radius := by
  have hx : radius ≤ 1800 - radius := by linarith
  have hy : radius ≤ 1000 - radius := by linarith
  rw [handleWallCollisions_position_x, handleWallCollisions_position_y]
  refine ⟨?_, ?_, ?_, ?_⟩
  · split_ifs with c
    · exact (clamp_mem _ _ _ hx).1
    · push_neg at c
      linarith [c.1]
  · split_ifs with c
    · exact (clamp_mem _ _ _ hx).2
    · push_neg at c
      linarith [c.2]
  · split_ifs with c
    · exact (clamp_mem _ _ _ hy).1
    · push_neg at c
      linarith [c.1]
  · split_ifs with c
    · exact (clamp_mem _ _ _ hy).2
    · push_neg at c
      linarith [c.2]

/-- Witness of C5 (amended): radius `10`, an object that crosses the left edge. -/
theorem handleWallCollisions_containment_witness :
    (0 : ℚ) ≤ 10 ∧ (10 : ℚ) ≤ 500 ∧
      (10 : ℚ) ≤ (handleWallCollisions nearLeftWall 10).position.x ∧
      (handleWallCollisions nearLeftWall 10).position.x ≤ 1800 - 10 ∧
      (10 : ℚ) ≤ (handleWallCollisions nearLeftWall 10).position.y ∧
      (handleWallCollisions nearLeftWall 10).position.y ≤ 1000 - 10 :=
  ⟨by norm_num, by norm_num,
    handleWallCollisions_containment nearLeftWall 10 (by norm_num) (by norm_num)⟩

/-- C6. Per-axis wall reflection rule of `handleWallCollisions`, for every object and radius.
(1) If `pos.x - radius ≤ 0` or `pos.x + radius ≥ 1800`, the call sets `vel.x` to
`-0.95 * vel.x` (and `pos.x` to the clamped value); (2) otherwise it leaves `pos.x` and `vel.x`
unchanged; (3), (4) the same for `y` with bound `1000`.  (5), (6) The `x` outcome is the same
for any other object with the same `x` components, whatever its `y` components, and vice
versa.  (7) An object with `radius < pos.x < 1800 - radius` and
`radius < pos.y < 1000 - radius` is returned unchanged.  "Exactly when" is the case
distinction (1)/(2); as an equation between values, (8) and (9), the new component equals
`-0.95` times the old one if and only if the condition holds, whenever the old component is
not zero (a zero component equals its own reflection). -/
theorem handleWallCollisions_axis_rule (obj other : GameObject F) (radius : F) :
    ((obj.position.x - radius ≤ 0 ∨ obj.position.x + radius ≥ 1800) →
        (handleWallCollisions obj radius).velocity.x = -0.95 * obj.velocity.x ∧
          (handleWallCollisions obj radius).position.x =
            clamp obj.position.x radius (1800 - radius)) ∧
      (¬(obj.position.x - radius ≤ 0 ∨ obj.position.x + radius ≥ 1800) →
        (handleWallCollisions obj radius).position.x = obj.position.x ∧
          (handleWallCollisions obj radius).velocity.x = obj.velocity.x) ∧
      ((obj.position.y - radius ≤ 0 ∨ obj.position.y + radius ≥ 1000) →
        (handleWallCollisions obj radius).velocity.y = -0.95 * obj.velocity.y ∧
          (handleWallCollisions obj radius).position.y =
            clamp obj.position.y radius (1000 - radius)) ∧
      (¬(obj.position.y - radius ≤ 0 ∨ obj.position.y + radius ≥ 1000) →
        (handleWallCollisions obj radius).position.y = obj.position.y ∧
          (handleWallCollisions obj radius).velocity.y = obj.velocity.y) ∧
      (other.position.x = obj.position.x → other.velocity.x = obj.velocity.x →
        (handleWallCollisions other radius).position.x =
            (handleWallCollisions obj radius).position.x ∧
          (handleWallCollisions other radius).velocity.x =
            (handleWallCollisions obj radius).velocity.x) ∧
      (other.position.y = obj.position.y → other.velocity.y = obj.velocity.y →
        (handleWallCollisions other radius).position.y =
            (handleWallCollisions obj radius).position.y ∧
          (handleWallCollisions other radius).velocity.y =
            (handleWallCollisions obj radius).velocity.y) ∧
      (radius < obj.position.x → obj.position.x < 1800 - radius →
        radius < obj.position.y → obj.position.y < 1000 - radius →
        handleWallCollisions obj radius = obj) ∧
      (obj.velocity.x ≠ 0 →
        ((handleWallCollisions obj radius).velocity.x = -0.95 * obj.velocity.x ↔
          (obj.position.x - radius ≤ 0 ∨ obj.position.x + radius ≥ 1800))) ∧
      (obj.velocity.y ≠ 0 →
        ((handleWallCollisions obj radius).velocity.y = -0.95 * obj.velocity.y ↔
          (obj.position.y - radius ≤ 0 ∨ obj.position.y + radius ≥ 1000))) := by
  refine ⟨?_, ?_, ?_, ?_, ?_, ?_, ?_, ?_, ?_⟩
  · intro c
    rw [handleWallCollisions_velocity_x, handleWallCollisions_position_x, if_pos c, if_pos c]
    exact ⟨rfl, rfl⟩
  · intro c
    rw [handleWallCollisions_velocity_x, handleWallCollisions_position_x, if_neg c, if_neg c]
    exact ⟨rfl, rfl⟩
  · intro c
    rw [handleWallCollisions_velocity_y, handleWallCollisions_position_y, if_pos c, if_pos c]
    exact ⟨rfl, rfl⟩
  · intro c
    rw [handleWallCollisions_velocity_y, handleWallCollisions_position_y, if_neg c, if_neg c]
    exact ⟨rfl, rfl⟩
  · intro hp hv
    rw [handleWallCollisions_velocity_x, handleWallCollisions_position_x,
      handleWallCollisions_velocity_x, handleWallCollisions_position_x, hp, hv]
    exact ⟨rfl, rfl⟩
  · intro hp hv
    rw [handleWallCollisions_velocity_y, handleWallCollisions_position_y,
      handleWallCollisions_velocity_y, handleWallCollisions_position_y, hp, hv]
    exact ⟨rfl, rfl⟩
  · intro h1 h2 h3 h4
    apply handleWallCollisions_inside
    · rintro (c | c) <;> linarith
    · rintro (c | c) <;> linarith
  · intro hv
    rw [handleWallCollisions_velocity_x]
    constructor
    · intro h
      by_contra c
      rw [if_neg c] at h
      exact reflected_ne _ hv h
    · intro c
      rw [if_pos c]
  · intro hv
    rw [handleWallCollisions_velocity_y]
    constructor
    · intro h
      by_contra c
      rw [if_neg c] at h
      exact reflected_ne _ hv h
    · intro c
      rw [if_pos c]

/-- Witness of C6: radius `10`; `nearLeftWall` crosses the left edge only, so its `x`
velocity `-20` becomes `19` and its `y` components stay; `nearLeftWallOther` has the same `x`
outcome; `midField` is returned unchanged. -/
theorem handleWallCollisions_axis_rule_witness :
    (handleWallCollisions nearLeftWall 10).velocity.x = -0.95 * nearLeftWall.velocity.x ∧
      (handleWallCollisions nearLeftWall 10).position.y = nearLeftWall.position.y ∧
      (handleWallCollisions nearLeftWall 10).velocity.y = nearLeftWall.velocity.y ∧
      (handleWallCollisions nearLeftWallOther 10).velocity.x =
        (handleWallCollisions nearLeftWall 10).velocity.x ∧
      handleWallCollisions midField 10 = midField := by
  have h := handleWallCollisions_axis_rule nearLeftWall nearLeftWallOther 10
  have hm := handleWallCollisions_axis_rule midField midField 10
  have cx : nearLeftWall.position.x - 10 ≤ 0 ∨ nearLeftWall.position.x + 10 ≥ 1800 := by
    left
    norm_num [nearLeftWall]
  have cy : ¬(nearLeftWall.position.y - 10 ≤ 0 ∨ nearLeftWall.position.y + 10 ≥ 1000) := by
    norm_num [nearLeftWall]
  exact ⟨(h.1 cx).1, (h.2.2.2.1 cy).1, (h.2.2.2.1 cy).2, (h.2.2.2.2.1 rfl rfl).2,
    hm.2.2.2.2.2.2.1 (by norm_num [midField]) (by norm_num [midField])
      (by norm_num [midField]) (by norm_num [midField])⟩

end Wall

/-! ## Craft update -/

section RocketLemmas

variable {F : Type} [LinearOrderedField F]

/-- The `x` position left by `Rocket::update`. -/
theorem Rocket.update_position_x (r : Rocket F) (dt : F) :
    (r.update dt).position.x =
      if r.position.x + r.velocity.x * dt < 0 then r.position.x + r.velocity.x * dt + 1800
      else if r.position.x + r.velocity.x * dt > 1800 then
        r.position.x + r.velocity.x * dt - 1800
      else r.position.x + r.velocity.x * dt := by
  simp only [Rocket.update]
  split_ifs <;> simp_all <;> linarith

/-- The `y` position left by `Rocket::update`. -/
theorem Rocket.update_position_y (r : Rocket F) (dt : F) :
    (r.update dt).position.y =
      if r.position.y + r.velocity.y * dt < 0 then r.position.y + r.velocity.y * dt + 1000
      else if r.position.y + r.velocity.y * dt > 1000 then
        r.position.y + r.velocity.y * dt - 1000
      else r.position.y + r.velocity.y * dt := by
  simp only [Rocket.update]
  split_ifs <;> simp_all <;> linarith

end RocketLemmas

section RocketUpdate

variable {F : Type} [LinearOrderedField F]

/-- C7. Toroidal wrap of the craft update: for every craft state and `dt`,
`Rocket::update(dt)` leaves the velocity unchanged and, with `p = position + velocity * dt`,
sets `x` to `p.x + 1800` if `p.x < 0`, to `p.x - 1800` if `p.x > 1800`, else to `p.x`; and `y`
likewise with `1000`. -/
theorem Rocket_update_toroidal_wrap (r : Rocket F) (dt : F) :
    (r.update dt).velocity = r.velocity ∧
      (r.update dt).position.x =
        (if (r.position + r.velocity * dt).x < 0 then (r.position + r.velocity * dt).x + 1800
         else if (r.position + r.velocity * dt).x > 1800 then
           (r.position + r.velocity * dt).x - 1800
         else (r.position + r.velocity * dt).x) ∧
      (r.update dt).position.y =
        (if (r.position + r.velocity * dt).y < 0 then (r.position + r.velocity * dt).y + 1000
         else if (r.position + r.velocity * dt).y > 1000 then
           (r.position + r.velocity * dt).y - 1000
         else (r.position + r.velocity * dt).y) := by
  refine ⟨rfl, ?_, ?_⟩
  · rw [Rocket.update_position_x]
    rfl
  · rw [Rocket.update_position_y]
    rfl

/-- Counterexample to C9 as stated: the craft at `(0, 0)` with velocity `(5000, 0)` and
`dt = 1` is integrated to `x = 5000`, shifted once by `1800`, and left at `x = 3200`, outside
the playfield. -/
theorem Rocket_update_stays_on_playfield_counterexample :
    (0 ≤ fastRocket.position.x ∧ fastRocket.position.x ≤ 1800 ∧
        0 ≤ fastRocket.position.y ∧ fastRocket.position.y ≤ 1000) ∧
      (0 : ℚ) ≤ 1 ∧ (fastRocket.update 1).position = ⟨3200, 0⟩ ∧
      ¬(0 ≤ (fastRocket.update 1).position.x ∧ (fastRocket.update 1).position.x ≤ 1800 ∧
        0 ≤ (fastRocket.update 1).position.y ∧ (fastRocket.update 1).position.y ≤ 1000) := by
  have hx : (fastRocket.update 1).position.x = 3200 := by
    rw [Rocket.update_position_x]
    norm_num [fastRocket]
  have hy : (fastRocket.update 1).position.y = 0 := by
    rw [Rocket.update_position_y]
    norm_num [fastRocket]
  refine ⟨by norm_num [fastRocket], by norm_num, Vector2f.ext hx hy, ?_⟩
  rw [hx]
  norm_num

/-- C9 (amended). Toroidal topology keeps the craft on the playfield when one update moves it
by at most one playfield period per axis: for every craft whose position lies in
`[0,1800] x [0,1000]`, every velocity and every `dt ≥ 0` with `|velocity.x * dt| ≤ 1800` and
`|velocity.y * dt| ≤ 1000`, the position after `Rocket::update(dt)` again lies in
`[0,1800] x [0,1000]`. -/
theorem Rocket_update_stays_on_playfield (r : Rocket F) (dt : F)
    (hx0 : 0 ≤ r.position.x) (hx1 : r.position.x ≤ 1800)
    (hy0 : 0 ≤ r.position.y) (hy1 : r.position.y ≤ 1000) (_hdt : 0 ≤ dt)
    (hvx : |r.velocity.x * dt| ≤ 1800) (hvy : |r.velocity.y * dt| ≤ 1000) :
    0 ≤ (r.update dt).position.x ∧ (r.update dt).position.x ≤ 1800 ∧
      0 ≤ (r.update dt).position.y ∧ (r.update dt).position.y ≤ 1000 := by
  have hvx2 := abs_le.mp hvx
  have hvy2 := abs_le.mp hvy
  rw [Rocket.update_position_x, Rocket.update_position_y]
  refine ⟨?_, ?_, ?_, ?_⟩ <;> split_ifs <;> linarith [hvx2.1, hvx2.2, hvy2.1, hvy2.2]

/-- Witness of C9 (amended): the craft at `(5, 500)` with velocity `(-20, 0)` and `dt = 1/2`. -/
theorem Rocket_update_stays_on_playfield_witness :
    (0 ≤ wrapScenario.rocket.position.x ∧ wrapScenario.rocket.position.x ≤ 1800 ∧
        0 ≤ wrapScenario.rocket.position.y ∧ wrapScenario.rocket.position.y ≤ 1000) ∧
      (0 : ℚ) ≤ 1 / 2 ∧ |wrapScenario.rocket.velocity.x * (1 / 2)| ≤ 1800 ∧
      |wrapScenario.rocket.velocity.y * (1 / 2)| ≤ 1000 ∧
      0 ≤ (wrapScenario.rocket.update (1 / 2)).position.x ∧
      (wrapScenario.rocket.update (1 / 2)).position.x ≤ 1800 ∧
      0 ≤ (wrapScenario.rocket.update (1 / 2)).position.y ∧
      (wrapScenario.rocket.update (1 / 2)).position.y ≤ 1000 := by
  have hvx : |wrapScenario.rocket.velocity.x * (1 / 2)| ≤ 1800 := by
    norm_num [wrapScenario, abs_le]
  have hvy : |wrapScenario.rocket.velocity.y * (1 / 2)| ≤ 1000 := by
    norm_num [wrapScenario, abs_le]
  exact ⟨by norm_num [wrapScenario], by norm_num, hvx, hvy,
    Rocket_update_stays_on_playfield wrapScenario.rocket (1 / 2) (by norm_num [wrapScenario])
      (by norm_num [wrapScenario]) (by norm_num [wrapScenario]) (by norm_num [wrapScenario])
      (by norm_num) hvx hvy⟩

end RocketUpdate

/-! ## Body -/

section Body

variable {F : Type} [LinearOrderedField F]

/-- C10. Mass derivation: for every position, velocity and radius `r`, the body constructed by
`Asteroid(pos, vel, r)` has `getRadius() = r` and `getMass() = 0.1 * r * r`; for the radius
`400` of the body that `main` creates the mass is `16000`. -/
theorem Asteroid_new_radius_mass (pos vel : Vector2f F) (r : F) :
    (Asteroid.new pos vel r).getRadius = r ∧ (Asteroid.new pos vel r).getMass = 0.1 * r * r ∧
      (Asteroid.new pos vel 400).getMass = 16000 := by
  refine ⟨rfl, rfl, ?_⟩
  norm_num [Asteroid.new, Asteroid.getMass]

end Body

/-! ## Collision dispatcher and tick -/

section DispatchLemmas

variable {F : Type} [LinearOrderedField F]

/-- The function `elasticCollision` does not move its first object. -/
theorem elasticCollision_fst_position (sqrt : F → F) (a b : GameObject F) (massA massB : F) :
    (elasticCollision sqrt a b massA massB).1.position = a.position := by
  rw [elasticCollision_eq]
  split_ifs <;> rfl

/-- The function `elasticCollision` does not move its second object. -/
theorem elasticCollision_snd_position (sqrt : F → F) (a b : GameObject F) (massA massB : F) :
    (elasticCollision sqrt a b massA massB).2.position = b.position := by
  rw [elasticCollision_eq]
  split_ifs <;> rfl

/-- The scan of one bullet leaves position and radius of every asteroid as they were. -/
theorem scanAsteroids_contact_data (sqrt : F → F) (bullet : Bullet F)
    (asteroids : List (Asteroid F)) :
    (scanAsteroids sqrt bullet asteroids).2.map (fun a => (a.position, a.radius)) =
      asteroids.map (fun a => (a.position, a.radius)) := by
  induction asteroids with
  | nil => rfl
  | cons asteroid rest ih =>
    simp only [scanAsteroids]
    split_ifs
    · simp only [List.map_cons, elasticCollision_snd_position]
    · simp only [List.map_cons, ih]

/-- The bullet-asteroid phase leaves position and radius of every asteroid as they were. -/
theorem bulletAsteroidPhase_contact_data (sqrt : F → F) (bullets : List (Bullet F)) :
    ∀ asteroids : List (Asteroid F),
      (bulletAsteroidPhase sqrt bullets asteroids).2.map (fun a => (a.position, a.radius)) =
        asteroids.map (fun a => (a.position, a.radius)) := by
  induction bullets with
  | nil => intro asteroids; rfl
  | cons bullet rest ih =>
    intro asteroids
    simp only [bulletAsteroidPhase]
    rw [ih, scanAsteroids_contact_data]

/-- The contact test of the rocket reads position and radius of the asteroid only. -/
theorem rocketTouches_congr (sqrt : F → F) (rocket : Rocket F) (a b : Asteroid F)
    (hp : a.position = b.position) (hr : a.radius = b.radius) :
    rocketTouches sqrt rocket a ↔ rocketTouches sqrt rocket b := by
  simp only [rocketTouches, GameObject.getPosition_eq, Asteroid.getRadius, hp, hr]

/-- A rocket in contact with no asteroid comes out of the rocket-asteroid phase as it was. -/
theorem rocketAsteroidPhase_far (sqrt : F → F) (rocket : Rocket F)
    (asteroids : List (Asteroid F))
    (hfar : ∀ asteroid ∈ asteroids, ¬rocketTouches sqrt rocket asteroid) :
    rocketAsteroidPhase sqrt rocket asteroids = (rocket, asteroids) := by
  induction asteroids with
  | nil => rfl
  | cons asteroid rest ih =>
    have h := hfar asteroid (List.mem_cons_self _ _)
    simp only [rocketTouches] at h
    have ih2 := ih (fun x hx => hfar x (List.mem_cons_of_mem _ hx))
    simp only [rocketAsteroidPhase]
    rw [if_neg h, ih2]

/-- The rocket that `handleCollisions` returns is the one the rocket-asteroid phase leaves. -/
theorem handleCollisions_rocket (sqrt : F → F) (g : Game F) :
    (handleCollisions sqrt g).rocket =
      (rocketAsteroidPhase sqrt g.rocket
        (bulletAsteroidPhase sqrt g.bullets g.asteroids).2).1 := rfl

/-- A rocket in contact with no asteroid comes out of `handleCollisions` as it was. -/
theorem handleCollisions_rocket_far (sqrt : F → F) (g : Game F)
    (hfar : ∀ asteroid ∈ g.asteroids, ¬rocketTouches sqrt g.rocket asteroid) :
    (handleCollisions sqrt g).rocket = g.rocket := by
  rw [handleCollisions_rocket, rocketAsteroidPhase_far]
  intro asteroid hmem
  have hkey : (asteroid.position, asteroid.radius) ∈
      (bulletAsteroidPhase sqrt g.bullets g.asteroids).2.map
        (fun a => (a.position, a.radius)) :=
    List.mem_map.mpr ⟨asteroid, hmem, rfl⟩
  rw [bulletAsteroidPhase_contact_data] at hkey
  obtain ⟨original, horig, hk⟩ := List.mem_map.mp hkey
  have hp : original.position = asteroid.position := congrArg Prod.fst hk
  have hr : original.radius = asteroid.radius := congrArg Prod.snd hk
  exact fun ht => hfar original horig ((rocketTouches_congr sqrt g.rocket _ _ hp hr).mpr ht)

/-- With no key pressed and no asteroid in contact at the dispatch, the rocket that a tick
leaves is the updated rocket after `handleWallCollisions(rocket, 10.0f)`. -/
theorem tick_rocket_eq (m : CMath F) (dt : F) (g : Game F)
    (hfar : ∀ asteroid ∈ (wallCollisions (updateObjects dt g)).asteroids,
      ¬rocketTouches m.sqrt (wallCollisions (updateObjects dt g)).rocket asteroid) :
    (tick m dt Keys.noInput g).rocket =
      { g.rocket.update dt with
        toGameObject := handleWallCollisions (g.rocket.update dt).toGameObject 10.0 } := by
  have h : tick m dt Keys.noInput g =
      handleCollisions m.sqrt (removeExpired (wallCollisions (updateObjects dt g))) := rfl
  rw [h, handleCollisions_rocket_far]
  · rfl
  · exact hfar

/-- The asteroid of `wrapScenario` does not move and touches no edge. -/
theorem wrapScenario_asteroids (dt : ℚ) :
    (wallCollisions (updateObjects dt wrapScenario)).asteroids =
      [Asteroid.new ⟨900, 500⟩ ⟨0, 0⟩ 400] := by
  have hu : (Asteroid.new ⟨900, 500⟩ ⟨0, 0⟩ 400 : Asteroid ℚ).update dt =
      Asteroid.new ⟨900, 500⟩ ⟨0, 0⟩ 400 := by
    simp [Asteroid.update, Asteroid.new, Vector2f.ext_iff]
  simp only [wallCollisions, updateObjects, wrapScenario, List.map_cons, List.map_nil, hu]
  congr 1
  have hin : handleWallCollisions (Asteroid.new ⟨900, 500⟩ ⟨0, 0⟩ 400 : Asteroid ℚ).toGameObject
      (Asteroid.new ⟨900, 500⟩ ⟨0, 0⟩ 400 : Asteroid ℚ).getRadius =
      (Asteroid.new ⟨900, 500⟩ ⟨0, 0⟩ 400 : Asteroid ℚ).toGameObject := by
    apply handleWallCollisions_inside <;> norm_num [Asteroid.new, Asteroid.getRadius]
  rw [hin]

/-- A rocket at height `500` and at least `410` to the right of the asteroid of
`wrapScenario` is not in contact with it. -/
theorem wrapScenario_far (rocket : Rocket ℚ) (hy : rocket.position.y = 500)
    (hx : 1310 ≤ rocket.position.x) :
    ¬rocketTouches Rat.sqrt rocket (Asteroid.new ⟨900, 500⟩ ⟨0, 0⟩ 400) := by
  have hsq : (rocket.position.x - 900) * (rocket.position.x - 900) + (500 - 500) * (500 - 500) =
      (rocket.position.x - 900) * (rocket.position.x - 900) := by ring
  simp only [rocketTouches, Asteroid.new, Asteroid.getRadius, GameObject.getPosition_eq,
    Vector2f.sub_x, Vector2f.sub_y, hy, hsq]
  rw [rat_sqrt_mul_self _ (by linarith)]
  norm_num
  linarith

/-- The rocket of `wrapScenario` after the update with `dt = 1/2` and the wall phase. -/
theorem wrapScenario_rocket_half :
    handleWallCollisions (wrapScenario.rocket.update (1 / 2)).toGameObject 10.0 =
      ⟨⟨1790, 500⟩, ⟨19, 0⟩⟩ := by
  have hx : (wrapScenario.rocket.update (1 / 2)).position.x = 1795 := by
    rw [Rocket.update_position_x]
    norm_num [wrapScenario]
  have hy : (wrapScenario.rocket.update (1 / 2)).position.y = 500 := by
    rw [Rocket.update_position_y]
    norm_num [wrapScenario]
  have hv : (wrapScenario.rocket.update (1 / 2)).velocity = ⟨-20, 0⟩ := rfl
  apply GameObject.ext
  · apply Vector2f.ext
    · rw [handleWallCollisions_position_x, hx]
      norm_num [clamp]
    · rw [handleWallCollisions_position_y, hy]
      norm_num [clamp]
  · apply Vector2f.ext
    · rw [handleWallCollisions_velocity_x, hx, hv]
      norm_num
    · rw [handleWallCollisions_velocity_y, hy, hv]
      norm_num

/-- The rocket of `wrapScenario` after the update with `dt = 1`. -/
theorem wrapScenario_rocket_one :
    (wrapScenario.rocket.update 1).position = ⟨1785, 500⟩ := by
  apply Vector2f.ext
  · rw [Rocket.update_position_x]
    norm_num [wrapScenario]
  · rw [Rocket.update_position_y]
    norm_num [wrapScenario]

end DispatchLemmas

section Tick

variable {F : Type} [LinearOrderedField F]

/-- Counterexample to C8 as stated, on the scenario of the specification with `dt = 1/2`
(so `5 - 20 * dt < 0`), no key pressed and the asteroid of `main` out of contact range: the
update wraps the craft to `x = 1795 = 1805 - 20 * dt`, then `handleWallCollisions(rocket, 10.0f)`
reflects it, and the tick ends with the craft at `(1790, 500)` with velocity `(19, 0)`. -/
theorem tick_craft_exempt_counterexample :
    (0 : ℚ) ≤ 1 / 2 ∧ (5 : ℚ) - 20 * (1 / 2) < 0 ∧
      (∀ asteroid ∈ (wallCollisions (updateObjects (1 / 2) wrapScenario)).asteroids,
        ¬rocketTouches ratCMath.sqrt
          (wallCollisions (updateObjects (1 / 2) wrapScenario)).rocket asteroid) ∧
      (wrapScenario.rocket.update (1 / 2)).position = ⟨1805 - 20 * (1 / 2), 500⟩ ∧
      (tick ratCMath (1 / 2) Keys.noInput wrapScenario).rocket.velocity = ⟨19, 0⟩ ∧
      (tick ratCMath (1 / 2) Keys.noInput wrapScenario).rocket.position = ⟨1790, 500⟩ ∧
      ¬((tick ratCMath (1 / 2) Keys.noInput wrapScenario).rocket.velocity =
            wrapScenario.rocket.velocity ∧
          (tick ratCMath (1 / 2) Keys.noInput wrapScenario).rocket.position =
            (wrapScenario.rocket.update (1 / 2)).position) := by
  have hw : (wallCollisions (updateObjects (1 / 2) wrapScenario)).rocket.toGameObject =
      ⟨⟨1790, 500⟩, ⟨19, 0⟩⟩ := wrapScenario_rocket_half
  have hfar : ∀ asteroid ∈ (wallCollisions (updateObjects (1 / 2) wrapScenario)).asteroids,
      ¬rocketTouches ratCMath.sqrt
        (wallCollisions (updateObjects (1 / 2) wrapScenario)).rocket asteroid := by
    intro asteroid hmem
    rw [wrapScenario_asteroids, List.mem_singleton] at hmem
    rw [hmem]
    apply wrapScenario_far
    · rw [hw]
    · rw [hw]
      norm_num
  have ht := tick_rocket_eq ratCMath (1 / 2) wrapScenario hfar
  have hg : (tick ratCMath (1 / 2) Keys.noInput wrapScenario).rocket.toGameObject =
      ⟨⟨1790, 500⟩, ⟨19, 0⟩⟩ := by
    rw [ht]
    exact wrapScenario_rocket_half
  have hvel : (tick ratCMath (1 / 2) Keys.noInput wrapScenario).rocket.velocity = ⟨19, 0⟩ :=
    congrArg GameObject.velocity hg
  have hpos : (tick ratCMath (1 / 2) Keys.noInput wrapScenario).rocket.position =
      ⟨1790, 500⟩ := congrArg GameObject.position hg
  have hup : (wrapScenario.rocket.update (1 / 2)).position = ⟨1805 - 20 * (1 / 2), 500⟩ := by
    apply Vector2f.ext
    · rw [Rocket.update_position_x]
      norm_num [wrapScenario]
    · rw [Rocket.update_position_y]
      norm_num [wrapScenario]
  refine ⟨by norm_num, by norm_num, hfar, hup, hvel, hpos, ?_⟩
  rw [hvel]
  intro h
  have h2 := congrArg Vector2f.x h.1
  norm_num [wrapScenario] at h2

/-- C8 (amended). The craft is not exempt from wall reflection within a tick: for every craft
state and every `dt ≥ 0`, one full tick (update, wall resolution, prune, collision dispatch)
with no key pressed and no asteroid in contact range at the dispatch leaves the craft in the
state that `handleWallCollisions(rocket, 10.0f)` makes of the updated craft.  If the toroidally
wrapped integrated position `p` has `10 < p.x < 1790` and `10 < p.y < 990`, the tick leaves
the velocity unchanged and the position equal to `p`. -/
theorem tick_craft_wall_reflected (m : CMath F) (dt : F) (g : Game F) (_hdt : 0 ≤ dt)
    (hfar : ∀ asteroid ∈ (wallCollisions (updateObjects dt g)).asteroids,
      ¬rocketTouches m.sqrt (wallCollisions (updateObjects dt g)).rocket asteroid) :
    (tick m dt Keys.noInput g).rocket =
        { g.rocket.update dt with
          toGameObject := handleWallCollisions (g.rocket.update dt).toGameObject 10.0 } ∧
      (10 < (g.rocket.update dt).position.x → (g.rocket.update dt).position.x < 1790 →
        10 < (g.rocket.update dt).position.y → (g.rocket.update dt).position.y < 990 →
        (tick m dt Keys.noInput g).rocket.velocity = g.rocket.velocity ∧
          (tick m dt Keys.noInput g).rocket.position = (g.rocket.update dt).position) := by
  have ht := tick_rocket_eq m dt g hfar
  refine ⟨ht, ?_⟩
  intro h1 h2 h3 h4
  have hin : handleWallCollisions (g.rocket.update dt).toGameObject 10.0 =
      (g.rocket.update dt).toGameObject := by
    apply handleWallCollisions_inside
    · rintro (c | c)
      · norm_num at c
        linarith
      · norm_num at c
        linarith
    · rintro (c | c)
      · norm_num at c
        linarith
      · norm_num at c
        linarith
  rw [ht, hin]
  exact ⟨rfl, rfl⟩

/-- Witness of C8 (amended): the scenario of the specification with `dt = 1`; the craft ends
the tick at `x = 1805 - 20 * dt = 1785` with velocity `(-20, 0)`. -/
theorem tick_craft_wall_reflected_witness :
    (0 : ℚ) ≤ 1 ∧
      (∀ asteroid ∈ (wallCollisions (updateObjects 1 wrapScenario)).asteroids,
        ¬rocketTouches ratCMath.sqrt
          (wallCollisions (updateObjects 1 wrapScenario)).rocket asteroid) ∧
      (tick ratCMath 1 Keys.noInput wrapScenario).rocket.velocity = ⟨-20, 0⟩ ∧
      (tick ratCMath 1 Keys.noInput wrapScenario).rocket.position = ⟨1805 - 20 * 1, 500⟩ := by
  have hp := wrapScenario_rocket_one
  have hin : handleWallCollisions (wrapScenario.rocket.update 1).toGameObject 10.0 =
      (wrapScenario.rocket.update 1).toGameObject := by
    apply handleWallCollisions_inside <;> rw [hp] <;> norm_num
  have hw : (wallCollisions (updateObjects 1 wrapScenario)).rocket.toGameObject =
      (wrapScenario.rocket.update 1).toGameObject := hin
  have hfar : ∀ asteroid ∈ (wallCollisions (updateObjects 1 wrapScenario)).asteroids,
      ¬rocketTouches ratCMath.sqrt
        (wallCollisions (updateObjects 1 wrapScenario)).rocket asteroid := by
    intro asteroid hmem
    rw [wrapScenario_asteroids, List.mem_singleton] at hmem
    rw [hmem]
    apply wrapScenario_far
    · rw [hw, hp]
    · rw [hw, hp]
      norm_num
  have h := (tick_craft_wall_reflected ratCMath 1 wrapScenario (by norm_num) hfar).2
    (by rw [hp]; norm_num) (by rw [hp]; norm_num) (by rw [hp]; norm_num)
    (by rw [hp]; norm_num)
  refine ⟨by norm_num, hfar, h.1, ?_⟩
  rw [h.2, hp]
  norm_num

end Tick

/-! ## What the dispatcher leaves alone -/

section FrameLemmas

variable {F : Type} [LinearOrderedField F]

/-- A property that every step of a left fold preserves holds at its end. -/
theorem foldl_invariant {α β : Type} (P : α → Prop) (f : α → β → α) (l : List β)
    (h : ∀ a, ∀ b ∈ l, P a → P (f a b)) (a : α) (ha : P a) : P (l.foldl f a) := by
  induction l generalizing a with
  | nil => exact ha
  | cons b rest ih =>
    rw [List.foldl_cons]
    apply ih
    · intro a2 b2 hb2
      exact h a2 b2 (List.mem_cons_of_mem _ hb2)
    · exact h a b (List.mem_cons_self _ _) ha

/-- A property of the asteroid container that every call in the asteroid-asteroid phase
preserves holds after the phase.  The calls have `i < j`. -/
theorem asteroidAsteroidPhase_invariant (sqrt : F → F) (P : List (Asteroid F) → Prop)
    (h : ∀ l i j, i < j → P l → P (collidePair sqrt l i j)) (asteroids : List (Asteroid F))
    (h0 : P asteroids) : P (asteroidAsteroidPhase sqrt asteroids) := by
  unfold asteroidAsteroidPhase
  apply foldl_invariant P _ _ _ _ h0
  intro l i _ hl
  apply foldl_invariant P _ _ _ _ hl
  intro l2 j hj hl2
  have hij : i + 1 ≤ j := (List.mem_range'_1.mp hj).1
  exact h l2 i j hij hl2

/-- Replacing the entry at `i` by one with the same image under `f` does not change the
list of images. -/
theorem map_set_of_eq {α β : Type} (f : α → β) (l : List α) (i : Nat) (x y : α)
    (hi : l[i]? = some x) (hxy : f y = f x) : (l.set i y).map f = l.map f := by
  rw [List.map_set, hxy]
  apply List.ext_getElem?
  intro n
  by_cases hn : i = n
  · subst hn
    rw [List.getElem?_set]
    simp only [if_true, List.length_map, List.getElem?_map, hi, Option.map_some']
    have hlt : i < l.length := by
      by_contra hc
      rw [List.getElem?_eq_none (not_lt.mp hc)] at hi
      exact Option.noConfusion hi
    simp [hlt]
  · rw [List.getElem?_set_ne hn]

/-- One call of the asteroid-asteroid phase writes no position, radius or mass. -/
theorem collidePair_fixedData (sqrt : F → F) (l : List (Asteroid F)) (i j : Nat) :
    (collidePair sqrt l i j).map Asteroid.fixedData = l.map Asteroid.fixedData := by
  unfold collidePair
  split
  · rename_i ai aj hi hj
    have h1 : (l.set i { ai with toGameObject :=
        (elasticCollision sqrt ai.toGameObject aj.toGameObject ai.getMass aj.getMass).1 }).map
          Asteroid.fixedData = l.map Asteroid.fixedData := by
      apply map_set_of_eq _ _ _ ai _ hi
      simp only [Asteroid.fixedData, elasticCollision_fst_position]
    by_cases hij : i = j
    · subst hij
      rw [List.set_set]
      apply map_set_of_eq _ _ _ aj _ hj
      simp only [Asteroid.fixedData, elasticCollision_snd_position]
    · rw [← h1]
      apply map_set_of_eq _ _ _ aj
      · rw [List.getElem?_set_ne hij]
        exact hj
      · simp only [Asteroid.fixedData, elasticCollision_snd_position]
  · rfl

/-- The asteroid-asteroid phase writes no position, radius or mass. -/
theorem asteroidAsteroidPhase_fixedData (sqrt : F → F) (asteroids : List (Asteroid F)) :
    (asteroidAsteroidPhase sqrt asteroids).map Asteroid.fixedData =
      asteroids.map Asteroid.fixedData := by
  apply asteroidAsteroidPhase_invariant sqrt
    (fun l => l.map Asteroid.fixedData = asteroids.map Asteroid.fixedData)
  · intro l i j _ hl
    rw [collidePair_fixedData]
    exact hl
  · rfl

/-- The scan of one bullet writes no position, radius or mass of an asteroid. -/
theorem scanAsteroids_fixedData (sqrt : F → F) (bullet : Bullet F)
    (asteroids : List (Asteroid F)) :
    (scanAsteroids sqrt bullet asteroids).2.map Asteroid.fixedData =
      asteroids.map Asteroid.fixedData := by
  induction asteroids with
  | nil => rfl
  | cons asteroid rest ih =>
    simp only [scanAsteroids]
    split_ifs
    · simp only [List.map_cons, Asteroid.fixedData, elasticCollision_snd_position]
    · simp only [List.map_cons, ih]

/-- The scan of one bullet writes no position, lifetime or time alive of the bullet. -/
theorem scanAsteroids_bullet_fixedData (sqrt : F → F) (bullet : Bullet F)
    (asteroids : List (Asteroid F)) :
    (scanAsteroids sqrt bullet asteroids).1.fixedData = bullet.fixedData := by
  induction asteroids with
  | nil => rfl
  | cons asteroid rest ih =>
    simp only [scanAsteroids]
    split_ifs
    · simp only [Bullet.fixedData, elasticCollision_fst_position]
    · exact ih

/-- The bullet-asteroid phase writes no position, radius or mass of an asteroid. -/
theorem bulletAsteroidPhase_fixedData (sqrt : F → F) (bullets : List (Bullet F)) :
    ∀ asteroids : List (Asteroid F),
      (bulletAsteroidPhase sqrt bullets asteroids).2.map Asteroid.fixedData =
        asteroids.map Asteroid.fixedData := by
  induction bullets with
  | nil => intro asteroids; rfl
  | cons bullet rest ih =>
    intro asteroids
    simp only [bulletAsteroidPhase]
    rw [ih, scanAsteroids_fixedData]

/-- The bullet-asteroid phase writes no position, lifetime or time alive of a bullet. -/
theorem bulletAsteroidPhase_bullets_fixedData (sqrt : F → F) (bullets : List (Bullet F)) :
    ∀ asteroids : List (Asteroid F),
      (bulletAsteroidPhase sqrt bullets asteroids).1.map Bullet.fixedData =
        bullets.map Bullet.fixedData := by
  induction bullets with
  | nil => intro asteroids; rfl
  | cons bullet rest ih =>
    intro asteroids
    simp only [bulletAsteroidPhase, List.map_cons]
    rw [ih, scanAsteroids_bullet_fixedData]

/-- The rocket-asteroid phase writes no position, radius or mass of an asteroid. -/
theorem rocketAsteroidPhase_fixedData (sqrt : F → F) (asteroids : List (Asteroid F)) :
    ∀ rocket : Rocket F,
      (rocketAsteroidPhase sqrt rocket asteroids).2.map Asteroid.fixedData =
        asteroids.map Asteroid.fixedData := by
  induction asteroids with
  | nil => intro rocket; rfl
  | cons asteroid rest ih =>
    intro rocket
    simp only [rocketAsteroidPhase]
    split_ifs
    · simp only [List.map_cons, ih, Asteroid.fixedData, elasticCollision_snd_position]
    · simp only [List.map_cons, ih]

/-- The rocket-asteroid phase writes no position, angle, angular velocity or flag of the
rocket. -/
theorem rocketAsteroidPhase_rocket_fixedData (sqrt : F → F) (asteroids : List (Asteroid F)) :
    ∀ rocket : Rocket F,
      (rocketAsteroidPhase sqrt rocket asteroids).1.fixedData = rocket.fixedData := by
  induction asteroids with
  | nil => intro rocket; rfl
  | cons asteroid rest ih =>
    intro rocket
    simp only [rocketAsteroidPhase]
    split_ifs
    · rw [ih]
      simp only [Rocket.fixedData, elasticCollision_fst_position]
    · exact ih rocket

/-- The function `handleCollisions` writes no position, radius or mass of an asteroid. -/
theorem handleCollisions_asteroids_fixedData (sqrt : F → F) (g : Game F) :
    (handleCollisions sqrt g).asteroids.map Asteroid.fixedData =
      g.asteroids.map Asteroid.fixedData := by
  simp only [handleCollisions]
  rw [asteroidAsteroidPhase_fixedData, rocketAsteroidPhase_fixedData,
    bulletAsteroidPhase_fixedData]

/-- The function `handleCollisions` writes no position, lifetime or time alive of a bullet. -/
theorem handleCollisions_bullets_fixedData (sqrt : F → F) (g : Game F) :
    (handleCollisions sqrt g).bullets.map Bullet.fixedData = g.bullets.map Bullet.fixedData := by
  simp only [handleCollisions]
  rw [bulletAsteroidPhase_bullets_fixedData]

/-- The function `handleCollisions` writes no position, angle, angular velocity or flag of
the rocket. -/
theorem handleCollisions_rocket_fixedData (sqrt : F → F) (g : Game F) :
    (handleCollisions sqrt g).rocket.fixedData = g.rocket.fixedData := by
  simp only [handleCollisions]
  rw [rocketAsteroidPhase_rocket_fixedData]

end FrameLemmas

/-! ## Body mass and projectile expiry -/

section FixedDataLemmas

variable {F : Type}

end FixedDataLemmas

section MassAndExpiry

variable {F : Type} [LinearOrderedField F]

/-- C12. Projectile expiry with strict inequality: `Bullet::isExpired()` is true iff
`timeAlive > lifetime`, where the constructor sets `lifetime = 30000` and `update` leaves it;
the prune step leaves in the container exactly the bullets with `timeAlive ≤ lifetime`, in
their original relative order (it is the filter by that test), and touches nothing else; a
bullet of the container with `timeAlive = lifetime` is retained and one with
`timeAlive > lifetime` is absent. -/
theorem Bullet_expiry_prune (b : Bullet F) (pos vel : Vector2f F) (dt : F) (g : Game F) :
    (b.isExpired = true ↔ b.timeAlive > b.lifetime) ∧
      (Bullet.new pos vel).lifetime = 30000 ∧ (b.update dt).lifetime = b.lifetime ∧
      (removeExpired g).bullets = g.bullets.filter (fun x => decide (x.timeAlive ≤ x.lifetime)) ∧
      (removeExpired g).bullets.Sublist g.bullets ∧
      (removeExpired g).rocket = g.rocket ∧ (removeExpired g).asteroids = g.asteroids ∧
      (b ∈ (removeExpired g).bullets ↔ b ∈ g.bullets ∧ b.timeAlive ≤ b.lifetime) ∧
      (b ∈ g.bullets → b.timeAlive = b.lifetime → b ∈ (removeExpired g).bullets) ∧
      (b.timeAlive > b.lifetime → b ∉ (removeExpired g).bullets) := by
  have hfilter : (removeExpired g).bullets =
      g.bullets.filter (fun x => decide (x.timeAlive ≤ x.lifetime)) := by
    simp only [removeExpired, Bullet.isExpired]
    apply List.filter_congr
    intro x _
    simp only [gt_iff_lt, Bool.not_eq_eq_eq_not, Bool.not_true, decide_eq_false_iff_not, not_lt,
      decide_eq_true_eq, Bool.decide_eq_true]
    by_cases hx : x.timeAlive ≤ x.lifetime
    · simp [hx, not_lt.mpr hx]
    · simp [hx, not_le.mp hx]
  have hmem : b ∈ (removeExpired g).bullets ↔ b ∈ g.bullets ∧ b.timeAlive ≤ b.lifetime := by
    rw [hfilter, List.mem_filter, decide_eq_true_eq]
  refine ⟨?_, ?_, rfl, hfilter, ?_, rfl, rfl, hmem, ?_, ?_⟩
  · simp only [Bullet.isExpired, decide_eq_true_eq]
  · norm_num [Bullet.new]
  · rw [hfilter]
    exact List.filter_sublist _
  · intro hb heq
    exact hmem.mpr ⟨hb, le_of_eq heq⟩
  · intro hgt hb
    exact absurd (hmem.mp hb).2 (not_le.mpr hgt)

/-- Witness of C12: of the container `[bulletPastLimit, bulletAtLimit]` the prune step keeps
`bulletAtLimit` (time alive `30000`) and drops `bulletPastLimit` (time alive `30001`). -/
theorem Bullet_expiry_prune_witness :
    bulletAtLimit ∈ pruneScenario.bullets ∧ bulletAtLimit.timeAlive = bulletAtLimit.lifetime ∧
      bulletAtLimit ∈ (removeExpired pruneScenario).bullets ∧
      bulletPastLimit ∈ pruneScenario.bullets ∧
      bulletPastLimit.timeAlive > bulletPastLimit.lifetime ∧
      bulletPastLimit ∉ (removeExpired pruneScenario).bullets := by
  have h1 : bulletAtLimit ∈ pruneScenario.bullets := by simp [pruneScenario]
  have h2 : bulletAtLimit.timeAlive = bulletAtLimit.lifetime := rfl
  have h3 : bulletPastLimit ∈ pruneScenario.bullets := by simp [pruneScenario]
  have h4 : bulletPastLimit.timeAlive > bulletPastLimit.lifetime := by
    norm_num [bulletPastLimit]
  exact ⟨h1, h2,
    (Bullet_expiry_prune bulletAtLimit ⟨0, 0⟩ ⟨0, 0⟩ 0 pruneScenario).2.2.2.2.2.2.2.2.1 h1 h2,
    h3, h4,
    (Bullet_expiry_prune bulletPastLimit ⟨0, 0⟩ ⟨0, 0⟩ 0 pruneScenario).2.2.2.2.2.2.2.2.2 h4⟩

end MassAndExpiry

/-! ## Projectile against body -/

section ProjectileLemmas

variable {F : Type} [LinearOrderedField F]

/-- A bullet that hits no asteroid comes out of its scan as it was, and so do the asteroids. -/
theorem scanAsteroids_no_hit (sqrt : F → F) (bullet : Bullet F) (asteroids : List (Asteroid F))
    (h : ∀ a ∈ asteroids, ¬bulletHits sqrt bullet a) :
    scanAsteroids sqrt bullet asteroids = (bullet, asteroids) := by
  induction asteroids with
  | nil => rfl
  | cons asteroid rest ih =>
    have h1 := h asteroid (List.mem_cons_self _ _)
    simp only [bulletHits] at h1
    have ih2 := ih (fun a ha => h a (List.mem_cons_of_mem _ ha))
    simp only [scanAsteroids]
    rw [if_neg h1, ih2]

/-- The scan of one bullet resolves the collision with the first asteroid it hits, and with
that one only. -/
theorem scanAsteroids_least_hit (sqrt : F → F) (bullet : Bullet F) :
    ∀ (asteroids : List (Asteroid F)) (k : Nat) (ak : Asteroid F),
      asteroids[k]? = some ak →
      (∀ i a, i < k → asteroids[i]? = some a → ¬bulletHits sqrt bullet a) →
      bulletHits sqrt bullet ak →
      scanAsteroids sqrt bullet asteroids =
        ({ bullet with toGameObject :=
            (elasticCollision sqrt bullet.toGameObject ak.toGameObject 0.1 ak.getMass).1 },
          asteroids.set k { ak with toGameObject :=
            (elasticCollision sqrt bullet.toGameObject ak.toGameObject 0.1 ak.getMass).2 }) := by
  intro asteroids
  induction asteroids with
  | nil =>
    intro k ak hk
    simp at hk
  | cons asteroid rest ih =>
    intro k ak hk hbefore hhit
    cases k with
    | zero =>
      simp only [List.getElem?_cons_zero, Option.some.injEq] at hk
      subst hk
      simp only [bulletHits] at hhit
      simp only [scanAsteroids]
      rw [if_pos hhit]
      rfl
    | succ n =>
      have h0 : ¬bulletHits sqrt bullet asteroid :=
        hbefore 0 asteroid (Nat.succ_pos n) (by simp)
      simp only [bulletHits] at h0
      simp only [List.getElem?_cons_succ] at hk
      have ih2 := ih n ak hk
        (fun i a hi ha => hbefore (i + 1) a (Nat.succ_lt_succ hi) (by simpa using ha)) hhit
      simp only [scanAsteroids]
      rw [if_neg h0, ih2]
      rfl

end ProjectileLemmas

section Projectile

variable {F : Type} [LinearOrderedField F]

/-- C14. A projectile collides with at most one body per tick, the first in container order:
for every projectile and every list of bodies, (1) if `k` is the least index with
`|projectile.pos - body_k.pos| < body_k.radius`, the scan of the projectile leaves the state
of the single call `elasticCollision(projectile, body_k, 0.1, mass_k)`: the projectile is the
first result, the body at `k` the second, and (2) every body at another index is left as it
was, inside the projectile or not; (3) if no body is hit nothing changes; (4) the phase scans
the projectiles one after the other, each once. -/
theorem scanAsteroids_first_body_only (sqrt : F → F) (bullet : Bullet F)
    (asteroids : List (Asteroid F)) (k : Nat) (ak : Asteroid F) (rest : List (Bullet F)) :
    (asteroids[k]? = some ak →
        (∀ i a, i < k → asteroids[i]? = some a → ¬bulletHits sqrt bullet a) →
        bulletHits sqrt bullet ak →
        scanAsteroids sqrt bullet asteroids =
            ({ bullet with toGameObject :=
                (elasticCollision sqrt bullet.toGameObject ak.toGameObject 0.1 ak.getMass).1 },
              asteroids.set k { ak with toGameObject :=
                (elasticCollision sqrt bullet.toGameObject ak.toGameObject 0.1
                  ak.getMass).2 }) ∧
          ∀ i, i ≠ k → (scanAsteroids sqrt bullet asteroids).2[i]? = asteroids[i]?) ∧
      ((∀ a ∈ asteroids, ¬bulletHits sqrt bullet a) →
        scanAsteroids sqrt bullet asteroids = (bullet, asteroids)) ∧
      bulletAsteroidPhase sqrt (bullet :: rest) asteroids =
        ((scanAsteroids sqrt bullet asteroids).1 ::
            (bulletAsteroidPhase sqrt rest (scanAsteroids sqrt bullet asteroids).2).1,
          (bulletAsteroidPhase sqrt rest (scanAsteroids sqrt bullet asteroids).2).2) := by
  refine ⟨?_, scanAsteroids_no_hit sqrt bullet asteroids, rfl⟩
  intro hk hbefore hhit
  have h := scanAsteroids_least_hit sqrt bullet asteroids k ak hk hbefore hhit
  refine ⟨h, ?_⟩
  intro i hi
  rw [h]
  exact List.getElem?_set_ne (Ne.symm hi)

/-- Witness of C14: `originBullet` against `[farBody, nearBody, otherNearBody]`.  It is
outside the first body and inside the other two; the least index hit is `1`, and the bodies
at `0` and `2` are left as they were. -/
theorem scanAsteroids_first_body_only_witness :
    [farBody, nearBody, otherNearBody][1]? = some nearBody ∧
      ¬bulletHits Rat.sqrt originBullet farBody ∧
      bulletHits Rat.sqrt originBullet nearBody ∧
      bulletHits Rat.sqrt originBullet otherNearBody ∧
      (scanAsteroids Rat.sqrt originBullet [farBody, nearBody, otherNearBody]).2[0]? =
        some farBody ∧
      (scanAsteroids Rat.sqrt originBullet [farBody, nearBody, otherNearBody]).2[2]? =
        some otherNearBody := by
  have e50 : ((0 : ℚ) - 30) * (0 - 30) + (0 - 40) * (0 - 40) = 50 * 50 := by norm_num
  have e5 : ((0 : ℚ) - 3) * (0 - 3) + (0 - 4) * (0 - 4) = 5 * 5 := by norm_num
  have e5b : ((0 : ℚ) - 4) * (0 - 4) + (0 - 3) * (0 - 3) = 5 * 5 := by norm_num
  have hfar : ¬bulletHits Rat.sqrt originBullet farBody := by
    simp only [bulletHits, originBullet, farBody, Asteroid.new, Asteroid.getRadius,
      GameObject.getPosition_eq, Vector2f.sub_x, Vector2f.sub_y, e50]
    rw [rat_sqrt_mul_self 50 (by norm_num)]
    norm_num
  have hnear : bulletHits Rat.sqrt originBullet nearBody := by
    simp only [bulletHits, originBullet, nearBody, Asteroid.new, Asteroid.getRadius,
      GameObject.getPosition_eq, Vector2f.sub_x, Vector2f.sub_y, e5]
    rw [rat_sqrt_mul_self 5 (by norm_num)]
    norm_num
  have hother : bulletHits Rat.sqrt originBullet otherNearBody := by
    simp only [bulletHits, originBullet, otherNearBody, Asteroid.new, Asteroid.getRadius,
      GameObject.getPosition_eq, Vector2f.sub_x, Vector2f.sub_y, e5b]
    rw [rat_sqrt_mul_self 5 (by norm_num)]
    norm_num
  have hbefore : ∀ i a, i < 1 → [farBody, nearBody, otherNearBody][i]? = some a →
      ¬bulletHits Rat.sqrt originBullet a := by
    intro i a hi ha
    have hi0 : i = 0 := Nat.lt_one_iff.mp hi
    subst hi0
    simp only [List.getElem?_cons_zero, Option.some.injEq] at ha
    rw [← ha]
    exact hfar
  have h := ((scanAsteroids_first_body_only Rat.sqrt originBullet
    [farBody, nearBody, otherNearBody] 1 nearBody []).1 rfl hbefore hnear).2
  exact ⟨rfl, hfar, hnear, hother, (h 0 (by decide)).trans rfl, (h 2 (by decide)).trans rfl⟩

end Projectile

section ScenarioLemmas

variable {F : Type} [LinearOrderedField F]

/-- An exact non-negative root of `y * y` with `0 ≤ y` is `y`. -/
theorem sqrt_eq_of_exactAt (sqrt : F → F) (v y : F) (hs : SqrtExactAt sqrt v)
    (hv : v = y * y) (hy : 0 ≤ y) : sqrt v = y := by
  have h : sqrt v * sqrt v = y * y := by rw [hs.2, hv]
  exact (mul_self_inj hs.1 hy).mp h

/-- With one asteroid the asteroid-asteroid phase makes no call. -/
theorem asteroidAsteroidPhase_singleton (sqrt : F → F) (a : Asteroid F) :
    asteroidAsteroidPhase sqrt [a] = [a] := by
  simp [asteroidAsteroidPhase, List.range_succ, List.range']

/-- The head-on collision of the scenario: a bullet at `(x, 500)`, `x < 900`, with velocity
`(50, 0)` against the body of `main` at rest. -/
theorem elasticCollision_scenario (sqrt : F → F) (x : F) (b : GameObject F) (hx : x < 900)
    (hp : b.position = ⟨x, 500⟩) (hv : b.velocity = ⟨50, 0⟩)
    (hs : SqrtExactAt sqrt ((900 - x) * (900 - x))) :
    (elasticCollision sqrt b (Asteroid.new ⟨900, 500⟩ ⟨0, 0⟩ 400).toGameObject 0.1
        (Asteroid.new (⟨900, 500⟩ : Vector2f F) ⟨0, 0⟩ 400).getMass).1.velocity =
      ⟨-7999950 / 160001, 0⟩ ∧
    (elasticCollision sqrt b (Asteroid.new ⟨900, 500⟩ ⟨0, 0⟩ 400).toGameObject 0.1
        (Asteroid.new (⟨900, 500⟩ : Vector2f F) ⟨0, 0⟩ 400).getMass).2.velocity =
      ⟨100 / 160001, 0⟩ := by
  have hpos : (0 : F) < 900 - x := by linarith
  have hsq : sqrt ((900 - x) * (900 - x) + (500 - 500) * (500 - 500)) = 900 - x := by
    have e : (900 - x) * (900 - x) + (500 - 500) * (500 - 500) = (900 - x) * (900 - x) := by
      ring
    rw [e]
    exact sqrt_eq_of_exactAt sqrt _ _ hs rfl hpos.le
  have hd : centerDistance sqrt b (Asteroid.new ⟨900, 500⟩ ⟨0, 0⟩ 400).toGameObject =
      900 - x := by
    simp only [centerDistance, Asteroid.new, GameObject.getPosition_eq, Vector2f.sub_x,
      Vector2f.sub_y, hp, hsq]
  have hn : collisionNormal sqrt b (Asteroid.new ⟨900, 500⟩ ⟨0, 0⟩ 400).toGameObject =
      ⟨1, 0⟩ := by
    rw [collisionNormal, hd]
    apply Vector2f.ext
    · simp only [Asteroid.new, GameObject.getPosition_eq, Vector2f.div_x, Vector2f.sub_x, hp]
      exact div_self hpos.ne'
    · simp only [Asteroid.new, GameObject.getPosition_eq, Vector2f.div_y, Vector2f.sub_y, hp,
        sub_self, zero_div]
  have hvan : velocityAlongNormal sqrt b (Asteroid.new ⟨900, 500⟩ ⟨0, 0⟩ 400).toGameObject =
      -50 := by
    have h1 : velocityAlongNormal sqrt b (Asteroid.new ⟨900, 500⟩ ⟨0, 0⟩ 400).toGameObject =
        ((Asteroid.new (⟨900, 500⟩ : Vector2f F) ⟨0, 0⟩ 400).velocity.x - b.velocity.x) *
            (collisionNormal sqrt b (Asteroid.new ⟨900, 500⟩ ⟨0, 0⟩ 400).toGameObject).x +
          ((Asteroid.new (⟨900, 500⟩ : Vector2f F) ⟨0, 0⟩ 400).velocity.y - b.velocity.y) *
            (collisionNormal sqrt b (Asteroid.new ⟨900, 500⟩ ⟨0, 0⟩ 400).toGameObject).y := rfl
    rw [h1, hn, hv]
    norm_num [Asteroid.new]
  have hi : collisionImpulse sqrt b (Asteroid.new ⟨900, 500⟩ ⟨0, 0⟩ 400).toGameObject 0.1
      (Asteroid.new (⟨900, 500⟩ : Vector2f F) ⟨0, 0⟩ 400).getMass = 1600000 / 160001 := by
    rw [collisionImpulse, hvan]
    norm_num [Asteroid.new, Asteroid.getMass]
  rw [elasticCollision_eq, if_neg (by rw [hd]; exact hpos.ne'),
    if_neg (by rw [hvan]; norm_num), hi, hn]
  constructor
  · apply Vector2f.ext
    · simp only [GameObject.setVelocity_velocity, Vector2f.sub_x, Vector2f.div_x,
        Vector2f.smul_x, hv]
      norm_num
    · simp only [GameObject.setVelocity_velocity, Vector2f.sub_y, Vector2f.div_y,
        Vector2f.smul_y, hv]
      norm_num
  · apply Vector2f.ext
    · simp only [GameObject.setVelocity_velocity, Vector2f.add_x, Vector2f.div_x,
        Vector2f.smul_x]
      norm_num [Asteroid.new, Asteroid.getMass]
    · simp only [GameObject.setVelocity_velocity, Vector2f.add_y, Vector2f.div_y,
        Vector2f.smul_y]
      norm_num [Asteroid.new, Asteroid.getMass]

end ScenarioLemmas

section Scenario

variable {F : Type} [LinearOrderedField F]

/-- C13. Projectile-versus-body scenario: one body at `(900, 500)` with radius `400` (mass
`16000`) and velocity `(0, 0)`, the craft out of contact range, and one projectile at
`(x, 500)` with `500 < x < 900` and velocity `(50, 0)`; `std::sqrt` exact at the squared
distance `(900 - x)^2`.  Then `handleCollisions` leaves one projectile and one body, the
projectile with `velocity.x < 0` and `velocity.y = 0`, the body with `velocity.x > 0` and
`velocity.y = 0`, and `0.1 * 50 = 0.1 * v1'.x + 16000 * v2'.x`; the velocities are
`(-7999950/160001, 0)` and `(100/160001, 0)`. -/
theorem handleCollisions_projectile_body_scenario (sqrt : F → F) (x : F) (rocket : Rocket F)
    (bullet : Bullet F) (hx1 : 500 < x) (hx2 : x < 900) (hp : bullet.position = ⟨x, 500⟩)
    (hv : bullet.velocity = ⟨50, 0⟩) (hs : SqrtExactAt sqrt ((900 - x) * (900 - x)))
    (hfar : ¬rocketTouches sqrt rocket (Asteroid.new ⟨900, 500⟩ ⟨0, 0⟩ 400)) :
    ∃ b1 a1,
      (handleCollisions sqrt
        { rocket := rocket, asteroids := [Asteroid.new ⟨900, 500⟩ ⟨0, 0⟩ 400],
          bullets := [bullet] }).bullets = [b1] ∧
      (handleCollisions sqrt
        { rocket := rocket, asteroids := [Asteroid.new ⟨900, 500⟩ ⟨0, 0⟩ 400],
          bullets := [bullet] }).asteroids = [a1] ∧
      a1.mass = 16000 ∧
      b1.velocity.x < 0 ∧ b1.velocity.y = 0 ∧ a1.velocity.x > 0 ∧ a1.velocity.y = 0 ∧
      0.1 * 50 = 0.1 * b1.velocity.x + 16000 * a1.velocity.x ∧
      b1.velocity = ⟨-7999950 / 160001, 0⟩ ∧ a1.velocity = ⟨100 / 160001, 0⟩ := by
  have hpos : (0 : F) < 900 - x := by linarith
  have hE := elasticCollision_scenario sqrt x bullet.toGameObject hx2 hp hv hs
  have hhit : bulletHits sqrt bullet (Asteroid.new ⟨900, 500⟩ ⟨0, 0⟩ 400) := by
    have e : (x - 900) * (x - 900) + (500 - 500) * (500 - 500) = (900 - x) * (900 - x) := by
      ring
    simp only [bulletHits, Asteroid.new, Asteroid.getRadius, GameObject.getPosition_eq,
      Vector2f.sub_x, Vector2f.sub_y, hp, e]
    rw [sqrt_eq_of_exactAt sqrt _ _ hs rfl hpos.le]
    linarith
  have hscan := scanAsteroids_least_hit sqrt bullet [Asteroid.new ⟨900, 500⟩ ⟨0, 0⟩ 400] 0
    (Asteroid.new ⟨900, 500⟩ ⟨0, 0⟩ 400) rfl (fun i a hi _ => absurd hi (Nat.not_lt_zero i))
    hhit
  have hfar2 : ∀ a ∈ [({ Asteroid.new (⟨900, 500⟩ : Vector2f F) ⟨0, 0⟩ 400 with
      toGameObject := (elasticCollision sqrt bullet.toGameObject
        (Asteroid.new ⟨900, 500⟩ ⟨0, 0⟩ 400).toGameObject 0.1
        (Asteroid.new (⟨900, 500⟩ : Vector2f F) ⟨0, 0⟩ 400).getMass).2 } : Asteroid F)],
      ¬rocketTouches sqrt rocket a := by
    intro a ha
    rw [List.mem_singleton] at ha
    have hpa : a.position = (Asteroid.new (⟨900, 500⟩ : Vector2f F) ⟨0, 0⟩ 400).position := by
      rw [ha]
      exact elasticCollision_snd_position _ _ _ _ _
    have hra : a.radius = (Asteroid.new (⟨900, 500⟩ : Vector2f F) ⟨0, 0⟩ 400).radius := by
      rw [ha]
    exact fun ht => hfar ((rocketTouches_congr sqrt rocket a _ hpa hra).mp ht)
  refine ⟨{ bullet with toGameObject := (elasticCollision sqrt bullet.toGameObject
        (Asteroid.new ⟨900, 500⟩ ⟨0, 0⟩ 400).toGameObject 0.1
        (Asteroid.new (⟨900, 500⟩ : Vector2f F) ⟨0, 0⟩ 400).getMass).1 },
    { Asteroid.new (⟨900, 500⟩ : Vector2f F) ⟨0, 0⟩ 400 with
      toGameObject := (elasticCollision sqrt bullet.toGameObject
        (Asteroid.new ⟨900, 500⟩ ⟨0, 0⟩ 400).toGameObject 0.1
        (Asteroid.new (⟨900, 500⟩ : Vector2f F) ⟨0, 0⟩ 400).getMass).2 },
    ?_, ?_, ?_, ?_, ?_, ?_, ?_, ?_, hE.1, hE.2⟩
  · simp only [handleCollisions, bulletAsteroidPhase, hscan]
  · simp only [handleCollisions, bulletAsteroidPhase, hscan, List.set_cons_zero]
    rw [rocketAsteroidPhase_far sqrt rocket _ hfar2, asteroidAsteroidPhase_singleton]
  · norm_num [Asteroid.new]
  · rw [hE.1]
    norm_num
  · rw [hE.1]
  · rw [hE.2]
    norm_num
  · rw [hE.2]
  · rw [hE.1, hE.2]
    norm_num

/-- Witness of C13: the projectile at `(600, 500)`, the craft at `(1500, 500)`. -/
theorem handleCollisions_projectile_body_scenario_witness :
    (500 : ℚ) < 600 ∧ (600 : ℚ) < 900 ∧ SqrtExactAt Rat.sqrt ((900 - 600) * (900 - 600)) ∧
      ¬rocketTouches Rat.sqrt distantRocket (Asteroid.new ⟨900, 500⟩ ⟨0, 0⟩ 400) ∧
      ∃ b1 a1,
        (handleCollisions Rat.sqrt
          { rocket := distantRocket, asteroids := [Asteroid.new ⟨900, 500⟩ ⟨0, 0⟩ 400],
            bullets := [scenarioBullet] }).bullets = [b1] ∧
        (handleCollisions Rat.sqrt
          { rocket := distantRocket, asteroids := [Asteroid.new ⟨900, 500⟩ ⟨0, 0⟩ 400],
            bullets := [scenarioBullet] }).asteroids = [a1] ∧
        a1.mass = 16000 ∧
        b1.velocity.x < 0 ∧ b1.velocity.y = 0 ∧ a1.velocity.x > 0 ∧ a1.velocity.y = 0 ∧
        0.1 * 50 = 0.1 * b1.velocity.x + 16000 * a1.velocity.x ∧
        b1.velocity = ⟨-7999950 / 160001, 0⟩ ∧ a1.velocity = ⟨100 / 160001, 0⟩ := by
  have hs : SqrtExactAt Rat.sqrt (((900 : ℚ) - 600) * (900 - 600)) := by
    have h := rat_sqrt_mul_self (900 - 600) (by norm_num)
    rw [SqrtExactAt, h]
    norm_num
  have hfar : ¬rocketTouches Rat.sqrt distantRocket (Asteroid.new ⟨900, 500⟩ ⟨0, 0⟩ 400) := by
    apply wrapScenario_far
    · rfl
    · norm_num [distantRocket, Rocket.new]
  exact ⟨by norm_num, by norm_num, hs, hfar,
    handleCollisions_projectile_body_scenario Rat.sqrt 600 distantRocket scenarioBullet
      (by norm_num) (by norm_num) rfl rfl hs hfar⟩

end Scenario

/-! ## Body against body -/

section BodyLemmas

variable {F : Type} [LinearOrderedField F]

/-- With two asteroids the asteroid-asteroid phase makes the one call for `(0, 1)`. -/
theorem asteroidAsteroidPhase_pair (sqrt : F → F) (a b : Asteroid F) :
    asteroidAsteroidPhase sqrt [a, b] =
      [{ a with toGameObject :=
          (elasticCollision sqrt a.toGameObject b.toGameObject a.getMass b.getMass).1 },
        { b with toGameObject :=
          (elasticCollision sqrt a.toGameObject b.toGameObject a.getMass b.getMass).2 }] := by
  simp [asteroidAsteroidPhase, List.range_succ, List.range', collidePair]

/-- The local `velocityAlongNormal`, with the local `distance` named. -/
theorem velocityAlongNormal_eq (sqrt : F → F) (a b : GameObject F) :
    velocityAlongNormal sqrt a b =
      (b.velocity.x - a.velocity.x) * ((b.position.x - a.position.x) / centerDistance sqrt a b) +
        (b.velocity.y - a.velocity.y) *
          ((b.position.y - a.position.y) / centerDistance sqrt a b) := rfl

/-- An approaching pair has a non-zero computed distance. -/
theorem centerDistance_ne_zero_of_approaching (sqrt : F → F) (a b : GameObject F)
    (hv : velocityAlongNormal sqrt a b < 0) : centerDistance sqrt a b ≠ 0 := by
  intro h0
  have h1 : velocityAlongNormal sqrt a b =
      (b.velocity.x - a.velocity.x) * ((b.position.x - a.position.x) / centerDistance sqrt a b) +
        (b.velocity.y - a.velocity.y) *
          ((b.position.y - a.position.y) / centerDistance sqrt a b) := rfl
  rw [h1, h0, div_zero, div_zero, mul_zero, mul_zero, add_zero] at hv
  exact lt_irrefl 0 hv

/-- With positive masses, the call on an approaching pair changes both velocities. -/
theorem elasticCollision_changes_approaching (sqrt : F → F) (a b : GameObject F)
    (massA massB : F) (hA : 0 < massA) (hB : 0 < massB)
    (hv : velocityAlongNormal sqrt a b < 0) :
    (elasticCollision sqrt a b massA massB).1.velocity ≠ a.velocity ∧
      (elasticCollision sqrt a b massA massB).2.velocity ≠ b.velocity := by
  have hd := centerDistance_ne_zero_of_approaching sqrt a b hv
  have hS := inv_mass_sum_ne_zero massA massB hA hB
  have hj : collisionImpulse sqrt a b massA massB ≠ 0 := by
    intro h0
    have h2 := collisionImpulse_mul sqrt a b massA massB hA hB
    rw [h0, zero_mul] at h2
    linarith
  have hvn : velocityAlongNormal sqrt a b =
      (b.velocity.x - a.velocity.x) * (collisionNormal sqrt a b).x +
        (b.velocity.y - a.velocity.y) * (collisionNormal sqrt a b).y := rfl
  have hn : (collisionNormal sqrt a b).x ≠ 0 ∨ (collisionNormal sqrt a b).y ≠ 0 := by
    by_contra hc
    push_neg at hc
    rw [hvn, hc.1, hc.2, mul_zero, mul_zero, add_zero] at hv
    exact lt_irrefl 0 hv
  rw [elasticCollision_eq, if_neg hd, if_neg (not_lt.mpr hv.le)]
  constructor
  · intro h
    simp only [GameObject.setVelocity_velocity] at h
    have hx := congrArg Vector2f.x h
    have hy := congrArg Vector2f.y h
    simp only [Vector2f.sub_x, Vector2f.sub_y, Vector2f.div_x, Vector2f.div_y, Vector2f.smul_x,
      Vector2f.smul_y, sub_eq_self, div_eq_zero_iff, mul_eq_zero] at hx hy
    rcases hn with h1 | h1
    · rcases hx with (h2 | h2) | h2
      · exact h1 h2
      · exact hj h2
      · exact hA.ne' h2
    · rcases hy with (h2 | h2) | h2
      · exact h1 h2
      · exact hj h2
      · exact hA.ne' h2
  · intro h
    simp only [GameObject.setVelocity_velocity] at h
    have hx := congrArg Vector2f.x h
    have hy := congrArg Vector2f.y h
    simp only [Vector2f.add_x, Vector2f.add_y, Vector2f.div_x, Vector2f.div_y, Vector2f.smul_x,
      Vector2f.smul_y, add_right_eq_self, div_eq_zero_iff, mul_eq_zero] at hx hy
    rcases hn with h1 | h1
    · rcases hx with (h2 | h2) | h2
      · exact h1 h2
      · exact hj h2
      · exact hB.ne' h2
    · rcases hy with (h2 | h2) | h2
      · exact h1 h2
      · exact hj h2
      · exact hB.ne' h2

/-- On a horizontal line with the rocket to the right, the contact test of the rocket over
`ℚ` compares the difference of the `x` coordinates. -/
theorem rocketTouches_horizontal (rocket : Rocket ℚ) (a : Asteroid ℚ)
    (hy : rocket.position.y = a.position.y) (hx : a.position.x ≤ rocket.position.x) :
    rocketTouches Rat.sqrt rocket a ↔ rocket.position.x - a.position.x < a.radius + 10 := by
  have hsq : (rocket.position.x - a.position.x) * (rocket.position.x - a.position.x) +
      (a.position.y - a.position.y) * (a.position.y - a.position.y) =
      (rocket.position.x - a.position.x) * (rocket.position.x - a.position.x) := by ring
  simp only [rocketTouches, Asteroid.getRadius, GameObject.getPosition_eq, Vector2f.sub_x,
    Vector2f.sub_y, hy, hsq]
  rw [rat_sqrt_mul_self _ (by linarith)]
  norm_num

end BodyLemmas

section Bodies

variable {F : Type} [LinearOrderedField F]

/-- C15. Body-body resolution has no contact gate: for every container of exactly two bodies
with positive masses, no projectiles and the craft out of contact range of both,
`handleCollisions` leaves the two bodies in exactly the state produced by
`elasticCollision(body0, body1, mass0, mass1)`, whatever the distance between them (and leaves
the craft as it was); in particular two bodies whose circles do not overlap
(`distance > radius0 + radius1`) and that approach each other (`velocityAlongNormal < 0`) have
both their velocities changed. -/
theorem handleCollisions_two_bodies_ungated (sqrt : F → F) (rocket : Rocket F)
    (a b : Asteroid F) (ha : 0 < a.mass) (hb : 0 < b.mass)
    (hfa : ¬rocketTouches sqrt rocket a) (hfb : ¬rocketTouches sqrt rocket b) :
    (handleCollisions sqrt { rocket := rocket, asteroids := [a, b], bullets := [] }).asteroids =
        [{ a with toGameObject :=
            (elasticCollision sqrt a.toGameObject b.toGameObject a.getMass b.getMass).1 },
          { b with toGameObject :=
            (elasticCollision sqrt a.toGameObject b.toGameObject a.getMass b.getMass).2 }] ∧
      (handleCollisions sqrt { rocket := rocket, asteroids := [a, b], bullets := [] }).rocket =
        rocket ∧
      (handleCollisions sqrt { rocket := rocket, asteroids := [a, b], bullets := [] }).bullets =
        [] ∧
      (centerDistance sqrt a.toGameObject b.toGameObject > a.radius + b.radius →
        velocityAlongNormal sqrt a.toGameObject b.toGameObject < 0 →
        (elasticCollision sqrt a.toGameObject b.toGameObject a.getMass b.getMass).1.velocity ≠
            a.velocity ∧
          (elasticCollision sqrt a.toGameObject b.toGameObject a.getMass b.getMass).2.velocity ≠
            b.velocity) := by
  have hfar : ∀ x ∈ [a, b], ¬rocketTouches sqrt rocket x := by
    intro x hx
    simp only [List.mem_cons, List.mem_singleton, List.not_mem_nil, or_false] at hx
    rcases hx with rfl | rfl
    · exact hfa
    · exact hfb
  refine ⟨?_, ?_, rfl, ?_⟩
  · simp only [handleCollisions, bulletAsteroidPhase]
    rw [rocketAsteroidPhase_far sqrt rocket _ hfar, asteroidAsteroidPhase_pair]
  · simp only [handleCollisions, bulletAsteroidPhase]
    rw [rocketAsteroidPhase_far sqrt rocket _ hfar]
  · intro _ hv
    exact elasticCollision_changes_approaching sqrt _ _ _ _ ha hb hv

/-- Witness of C15: `leftBody` and `rightBody`, of radius `10`, are `50` apart and approach
each other; the craft is at `(1500, 500)`. -/
theorem handleCollisions_two_bodies_ungated_witness :
    0 < leftBody.mass ∧ 0 < rightBody.mass ∧ ¬rocketTouches Rat.sqrt distantRocket leftBody ∧
      ¬rocketTouches Rat.sqrt distantRocket rightBody ∧
      centerDistance Rat.sqrt leftBody.toGameObject rightBody.toGameObject >
        leftBody.radius + rightBody.radius ∧
      velocityAlongNormal Rat.sqrt leftBody.toGameObject rightBody.toGameObject < 0 ∧
      (elasticCollision Rat.sqrt leftBody.toGameObject rightBody.toGameObject leftBody.getMass
          rightBody.getMass).1.velocity ≠ leftBody.velocity ∧
      (elasticCollision Rat.sqrt leftBody.toGameObject rightBody.toGameObject leftBody.getMass
          rightBody.getMass).2.velocity ≠ rightBody.velocity := by
  have hma : 0 < leftBody.mass := by norm_num [leftBody, Asteroid.new]
  have hmb : 0 < rightBody.mass := by norm_num [rightBody, Asteroid.new]
  have hfa : ¬rocketTouches Rat.sqrt distantRocket leftBody := by
    rw [rocketTouches_horizontal _ _ rfl (by norm_num [distantRocket, leftBody, Rocket.new,
      Asteroid.new])]
    norm_num [distantRocket, leftBody, Rocket.new, Asteroid.new]
  have hfb : ¬rocketTouches Rat.sqrt distantRocket rightBody := by
    rw [rocketTouches_horizontal _ _ rfl (by norm_num [distantRocket, rightBody, Rocket.new,
      Asteroid.new])]
    norm_num [distantRocket, rightBody, Rocket.new, Asteroid.new]
  have e50 : ((950 : ℚ) - 900) * (950 - 900) + (500 - 500) * (500 - 500) = 50 * 50 := by
    norm_num
  have hd : centerDistance Rat.sqrt leftBody.toGameObject rightBody.toGameObject = 50 := by
    simp only [centerDistance, leftBody, rightBody, Asteroid.new, GameObject.getPosition_eq,
      Vector2f.sub_x, Vector2f.sub_y, e50]
    exact rat_sqrt_mul_self 50 (by norm_num)
  have hgt : centerDistance Rat.sqrt leftBody.toGameObject rightBody.toGameObject >
      leftBody.radius + rightBody.radius := by
    rw [hd]
    norm_num [leftBody, rightBody, Asteroid.new]
  have hv : velocityAlongNormal Rat.sqrt leftBody.toGameObject rightBody.toGameObject < 0 := by
    rw [velocityAlongNormal_eq, hd]
    norm_num [leftBody, rightBody, Asteroid.new]
  exact ⟨hma, hmb, hfa, hfb, hgt, hv,
    (handleCollisions_two_bodies_ungated Rat.sqrt distantRocket leftBody rightBody hma hmb
      hfa hfb).2.2.2 hgt hv⟩

end Bodies

/-! ## Contact gates -/

section GateLemmas

variable {F : Type} [LinearOrderedField F]

/-- The hit test of a bullet reads position and radius of the asteroid only. -/
theorem bulletHits_congr (sqrt : F → F) (bullet : Bullet F) (a b : Asteroid F)
    (hp : a.position = b.position) (hr : a.radius = b.radius) :
    bulletHits sqrt bullet a ↔ bulletHits sqrt bullet b := by
  simp only [bulletHits, GameObject.getPosition_eq, Asteroid.getRadius, hp, hr]

/-- The contact test of the rocket reads the position of the rocket only. -/
theorem rocketTouches_congr_rocket (sqrt : F → F) (r1 r2 : Rocket F) (a : Asteroid F)
    (hp : r1.position = r2.position) :
    rocketTouches sqrt r1 a ↔ rocketTouches sqrt r2 a := by
  simp only [rocketTouches, GameObject.getPosition_eq, hp]

/-- A bullet that hits none of the asteroids of one container hits none of a container with
the same positions and radii. -/
theorem no_hit_of_fixedData (sqrt : F → F) (bullet : Bullet F) (l1 l2 : List (Asteroid F))
    (h : l1.map Asteroid.fixedData = l2.map Asteroid.fixedData)
    (hno : ∀ a ∈ l2, ¬bulletHits sqrt bullet a) : ∀ a ∈ l1, ¬bulletHits sqrt bullet a := by
  intro a ha
  have hkey : a.fixedData ∈ l1.map Asteroid.fixedData := List.mem_map.mpr ⟨a, ha, rfl⟩
  rw [h] at hkey
  obtain ⟨a2, ha2, hk⟩ := List.mem_map.mp hkey
  have hp : a2.position = a.position := congrArg Prod.fst hk
  have hr : a2.radius = a.radius := congrArg (fun d : Vector2f F × F × F => d.2.1) hk
  exact fun ht => hno a2 ha2 ((bulletHits_congr sqrt bullet _ _ hp hr).mpr ht)

/-- A bullet that hits no asteroid comes out of the bullet-asteroid phase as it was. -/
theorem bulletAsteroidPhase_unhit (sqrt : F → F) (bullets : List (Bullet F)) :
    ∀ (asteroids : List (Asteroid F)) (i : Nat) (b : Bullet F), bullets[i]? = some b →
      (∀ a ∈ asteroids, ¬bulletHits sqrt b a) →
      (bulletAsteroidPhase sqrt bullets asteroids).1[i]? = some b := by
  induction bullets with
  | nil =>
    intro asteroids i b hb
    simp at hb
  | cons bullet rest ih =>
    intro asteroids i b hb hno
    simp only [bulletAsteroidPhase]
    cases i with
    | zero =>
      simp only [List.getElem?_cons_zero, Option.some.injEq] at hb
      subst hb
      rw [scanAsteroids_no_hit sqrt bullet asteroids hno]
      simp only [List.getElem?_cons_zero]
    | succ n =>
      simp only [List.getElem?_cons_succ] at hb ⊢
      apply ih _ n b hb
      exact no_hit_of_fixedData sqrt b _ _ (scanAsteroids_fixedData sqrt bullet asteroids) hno

/-- The bullet-asteroid phase keeps the number of bullets. -/
theorem bulletAsteroidPhase_length (sqrt : F → F) (bullets : List (Bullet F)) :
    ∀ asteroids : List (Asteroid F),
      (bulletAsteroidPhase sqrt bullets asteroids).1.length = bullets.length := by
  induction bullets with
  | nil => intro asteroids; rfl
  | cons bullet rest ih =>
    intro asteroids
    simp only [bulletAsteroidPhase, List.length_cons, ih]

/-- The rocket-asteroid phase applies `elasticCollision(rocket, asteroid, 1.0f, mass)` for
each asteroid in contact, in container order. -/
theorem rocketAsteroidPhase_fold (sqrt : F → F) (r0 : Rocket F) :
    ∀ (asteroids : List (Asteroid F)) (rocket : Rocket F), rocket.position = r0.position →
      (rocketAsteroidPhase sqrt rocket asteroids).1 =
        asteroids.foldl
          (fun r a =>
            if rocketTouches sqrt r0 a then
              { r with toGameObject :=
                (elasticCollision sqrt r.toGameObject a.toGameObject 1.0 a.getMass).1 }
            else r)
          rocket := by
  intro asteroids
  induction asteroids with
  | nil => intro rocket _; rfl
  | cons asteroid rest ih =>
    intro rocket hpos
    have hiff := rocketTouches_congr_rocket sqrt rocket r0 asteroid hpos
    simp only [rocketAsteroidPhase, List.foldl_cons]
    by_cases ht : rocketTouches sqrt r0 asteroid
    · have ht2 := hiff.mpr ht
      simp only [rocketTouches] at ht2
      rw [if_pos ht2, if_pos ht]
      apply ih
      rw [← hpos]
      exact elasticCollision_fst_position _ _ _ _ _
    · have ht2 := fun h => ht (hiff.mp h)
      simp only [rocketTouches] at ht2
      rw [if_neg ht2, if_neg ht]
      exact ih rocket hpos

/-- On a horizontal line the hit test of a bullet over `ℚ` compares the absolute difference
of the `x` coordinates. -/
theorem bulletHits_horizontal (bullet : Bullet ℚ) (a : Asteroid ℚ)
    (hy : bullet.position.y = a.position.y) :
    bulletHits Rat.sqrt bullet a ↔ |bullet.position.x - a.position.x| < a.radius := by
  have hsq : (bullet.position.x - a.position.x) * (bullet.position.x - a.position.x) +
      (a.position.y - a.position.y) * (a.position.y - a.position.y) =
      (bullet.position.x - a.position.x) * (bullet.position.x - a.position.x) := by ring
  simp only [bulletHits, Asteroid.getRadius, GameObject.getPosition_eq, Vector2f.sub_x,
    Vector2f.sub_y, hy, hsq, Rat.sqrt_eq]

end GateLemmas

section IEEELemmas

variable {F : Type} [LinearOrderedField F]

theorem IEEE.add_def (x y : IEEE F) : x + y = IEEE.add x y := rfl
theorem IEEE.sub_def (x y : IEEE F) : x - y = IEEE.add x (IEEE.neg y) := rfl
theorem IEEE.mul_def (x y : IEEE F) : x * y = IEEE.mul x y := rfl
theorem IEEE.div_def (x y : IEEE F) : x / y = IEEE.div x y := rfl
theorem IEEE.neg_def (x : IEEE F) : -x = IEEE.neg x := rfl

/-- On numbers the IEEE sum is the sum of the field. -/
theorem IEEE.num_add_num (x y : F) : IEEE.num x + IEEE.num y = IEEE.num (x + y) := rfl

/-- On numbers the IEEE difference is the difference of the field. -/
theorem IEEE.num_sub_num (x y : F) : IEEE.num x - IEEE.num y = IEEE.num (x - y) := by
  rw [IEEE.sub_def, IEEE.neg, IEEE.add, sub_eq_add_neg]

/-- On numbers the IEEE product is the product of the field. -/
theorem IEEE.num_mul_num (x y : F) : IEEE.num x * IEEE.num y = IEEE.num (x * y) := rfl

/-- On numbers the IEEE negation is the negation of the field. -/
theorem IEEE.neg_num (x : F) : -IEEE.num x = IEEE.num (-x) := rfl

/-- On numbers with a non-zero divisor the IEEE quotient is the quotient of the field. -/
theorem IEEE.num_div_num (x y : F) (h : y ≠ 0) : IEEE.num x / IEEE.num y = IEEE.num (x / y) := by
  rw [IEEE.div_def, IEEE.div, if_neg h]

/-- On a non-negative number the IEEE root is the root of the number. -/
theorem IEEE.sqrt_num (sqrt : F → F) (x : F) (h : 0 ≤ x) :
    IEEE.sqrt sqrt (IEEE.num x) = IEEE.num (sqrt x) := by
  rw [IEEE.sqrt, if_neg (not_lt.mpr h)]

/-- With non-zero masses and a non-zero sum of their reciprocals, every division that
`elasticCollision` evaluates has a non-zero divisor, whatever the objects. -/
theorem elasticCollisionTraced_divisors_ne_zero_of_ne (sqrt : F → F) (a b : GameObject F)
    (massA massB : F) (hA : massA ≠ 0) (hB : massB ≠ 0) (hS : 1 / massA + 1 / massB ≠ 0) :
    ∀ d ∈ (elasticCollisionTraced sqrt a b massA massB).2, d ≠ 0 := by
  rw [elasticCollisionTraced_eq]
  split_ifs with h1 h2
  · simp
  · intro d hd
    simp only [List.mem_cons, List.mem_singleton, List.not_mem_nil, or_false] at hd
    rcases hd with rfl | rfl <;> assumption
  · intro d hd
    simp only [List.mem_cons, List.mem_singleton, List.not_mem_nil, or_false] at hd
    rcases hd with rfl | rfl | rfl | rfl | rfl | rfl | rfl | rfl | rfl <;> assumption

/-- The divisors of a second call of `elasticCollision` on the state left by a first call
that divided by no zero are not zero either. -/
theorem elasticCollisionTraced_divisors_ne_zero_twice (sqrt : F → F) (a b : GameObject F)
    (massA massB : F)
    (hdiv : ∀ d ∈ (elasticCollisionTraced sqrt a b massA massB).2, d ≠ 0) :
    ∀ d ∈ (elasticCollisionTraced sqrt (elasticCollision sqrt a b massA massB).1
      (elasticCollision sqrt a b massA massB).2 massA massB).2, d ≠ 0 := by
  by_cases hd : centerDistance sqrt a b = 0
  · have hE : elasticCollision sqrt a b massA massB = (a, b) := by
      rw [elasticCollision_eq, if_pos hd]
    rw [hE]
    exact hdiv
  · by_cases hv : velocityAlongNormal sqrt a b > 0
    · have hE : elasticCollision sqrt a b massA massB = (a, b) := by
        rw [elasticCollision_eq, if_neg hd, if_pos hv]
      rw [hE]
      exact hdiv
    · rw [elasticCollisionTraced_eq, if_neg hd, if_neg hv] at hdiv
      exact elasticCollisionTraced_divisors_ne_zero_of_ne sqrt _ _ massA massB
        (hdiv _ (by simp)) (hdiv _ (by simp)) (hdiv _ (by simp))

/-- Where the call divides by no zero, `elasticCollision` on `float`s with special values
returns the numbers that the field model returns. -/
theorem elasticCollisionIEEE_toIEEE (sqrt : F → F) (a b : GameObject F) (massA massB : F)
    (hdiv : ∀ d ∈ (elasticCollisionTraced sqrt a b massA massB).2, d ≠ 0) :
    elasticCollisionIEEE sqrt a.toIEEE b.toIEEE (IEEE.num massA) (IEEE.num massB) =
      ((elasticCollision sqrt a b massA massB).1.toIEEE,
        (elasticCollision sqrt a b massA massB).2.toIEEE) := by
  have hsq : (0 : F) ≤ (b.position.x - a.position.x) * (b.position.x - a.position.x) +
      (b.position.y - a.position.y) * (b.position.y - a.position.y) :=
    add_nonneg (mul_self_nonneg _) (mul_self_nonneg _)
  have hdist : IEEE.sqrt sqrt
      (IEEE.num ((b.position.x - a.position.x) * (b.position.x - a.position.x) +
        (b.position.y - a.position.y) * (b.position.y - a.position.y))) =
      IEEE.num (centerDistance sqrt a b) := IEEE.sqrt_num sqrt _ hsq
  rw [elasticCollisionTraced_eq] at hdiv
  rw [elasticCollision_eq]
  simp only [elasticCollisionIEEE, GameObject.toIEEE, GameObject.getPosition_eq,
    GameObject.getVelocity_eq, IEEE.num_sub_num, IEEE.num_mul_num, IEEE.num_add_num, hdist,
    IEEE.eqZero]
  by_cases hd : centerDistance sqrt a b = 0
  · simp only [hd, decide_True, if_true]
  · have hn : ∀ x : F, IEEE.num x / IEEE.num (centerDistance sqrt a b) =
        IEEE.num (x / centerDistance sqrt a b) := fun x => IEEE.num_div_num x _ hd
    have hvan : (b.velocity.x - a.velocity.x) * ((b.position.x - a.position.x) /
        centerDistance sqrt a b) + (b.velocity.y - a.velocity.y) *
          ((b.position.y - a.position.y) / centerDistance sqrt a b) =
        velocityAlongNormal sqrt a b := rfl
    simp only [hd, decide_False, if_false, hn, IEEE.num_mul_num, IEEE.num_add_num, hvan,
      IEEE.gtZero, Bool.false_eq_true]
    by_cases hv : velocityAlongNormal sqrt a b > 0
    · have hv2 : 0 < velocityAlongNormal sqrt a b := hv
      simp only [hv, hv2, decide_True, if_true]
    · have hv2 : ¬ 0 < velocityAlongNormal sqrt a b := hv
      rw [if_neg hd, if_neg hv] at hdiv
      have hA : massA ≠ 0 := hdiv _ (by simp)
      have hB : massB ≠ 0 := hdiv _ (by simp)
      have hS : 1 / massA + 1 / massB ≠ 0 := hdiv _ (by simp)
      simp only [hv, hv2, decide_False, if_false, IEEE.num_mul_num, IEEE.neg_num,
        IEEE.num_div_num _ _ hA, IEEE.num_div_num _ _ hB, IEEE.num_div_num _ _ hS,
        IEEE.num_sub_num, IEEE.num_add_num, Bool.false_eq_true]
      rfl

/-- The squared center distance of `movingAtOrigin` and `restingAt34` is `25`, at which
`Rat.sqrt` is exact. -/
theorem sqrtExactAt_origin_34 :
    SqrtExactAt Rat.sqrt (centerDistanceSq movingAtOrigin restingAt34) := by
  have h25 : centerDistanceSq movingAtOrigin restingAt34 = 25 := by
    norm_num [centerDistanceSq, movingAtOrigin, restingAt34]
  rw [h25, SqrtExactAt, rat_sqrt_25]
  norm_num

/-- The center distance of `movingAtOrigin` and `restingAt34` is `5`. -/
theorem centerDistance_origin_34 : centerDistance Rat.sqrt movingAtOrigin restingAt34 = 5 := by
  have h25 : ((3 : ℚ) - 0) * (3 - 0) + (4 - 0) * (4 - 0) = 25 := by norm_num
  simp only [centerDistance, movingAtOrigin, restingAt34, GameObject.getPosition_eq,
    Vector2f.sub_x, Vector2f.sub_y, h25, rat_sqrt_25]

/-- The objects `movingAtOrigin` and `restingAt34` approach with
`velocityAlongNormal = -3/5`. -/
theorem velocityAlongNormal_origin_34 :
    velocityAlongNormal Rat.sqrt movingAtOrigin restingAt34 = -3 / 5 := by
  have h25 : ((3 : ℚ) - 0) * (3 - 0) + (4 - 0) * (4 - 0) = 25 := by norm_num
  simp only [velocityAlongNormal, movingAtOrigin, restingAt34, GameObject.getPosition_eq,
    GameObject.getVelocity_eq, Vector2f.sub_x, Vector2f.sub_y, Vector2f.div_x,
    Vector2f.div_y, h25, rat_sqrt_25]
  norm_num

/-- With masses `1` and `0` the call on `movingAtOrigin` and `restingAt34`, on `float`s with
special values, leaves the first object as it was and the second with a NaN velocity:
`1 / massB` is the positive infinity, the impulse `(6/5) / inf` is `0`, and
`impulseVec / massB` is `0 / 0`. -/
theorem elasticCollisionIEEE_origin_34_once :
    elasticCollisionIEEE Rat.sqrt movingAtOrigin.toIEEE restingAt34.toIEEE (IEEE.num 1)
        (IEEE.num 0) =
      (movingAtOrigin.toIEEE, restingAt34.toIEEE.setVelocity ⟨IEEE.nan, IEEE.nan⟩) := by
  have h25 : ((3 : ℚ) - 0) * (3 - 0) + (4 - 0) * (4 - 0) = 25 := by norm_num
  simp only [elasticCollisionIEEE, GameObject.toIEEE, movingAtOrigin, restingAt34,
    GameObject.getPosition_eq, GameObject.getVelocity_eq, GameObject.setVelocity,
    IEEE.num_sub_num, IEEE.num_mul_num, IEEE.num_add_num, h25]
  rw [IEEE.sqrt_num _ _ (by norm_num), rat_sqrt_25]
  norm_num [IEEE.eqZero, IEEE.gtZero, IEEE.add_def, IEEE.sub_def, IEEE.mul_def, IEEE.div_def,
    IEEE.neg_def, IEEE.add, IEEE.neg, IEEE.mul, IEEE.div]

/-- A second call with the same masses then leaves the first object with a NaN velocity as
well: `velocityAlongNormal` is a NaN, which is not `> 0`, and so is the impulse. -/
theorem elasticCollisionIEEE_origin_34_twice :
    elasticCollisionIEEE Rat.sqrt movingAtOrigin.toIEEE
        (restingAt34.toIEEE.setVelocity ⟨IEEE.nan, IEEE.nan⟩) (IEEE.num 1) (IEEE.num 0) =
      (movingAtOrigin.toIEEE.setVelocity ⟨IEEE.nan, IEEE.nan⟩,
        restingAt34.toIEEE.setVelocity ⟨IEEE.nan, IEEE.nan⟩) := by
  have h25 : ((3 : ℚ) - 0) * (3 - 0) + (4 - 0) * (4 - 0) = 25 := by norm_num
  simp only [elasticCollisionIEEE, GameObject.toIEEE, movingAtOrigin, restingAt34,
    GameObject.getPosition_eq, GameObject.getVelocity_eq, GameObject.setVelocity,
    IEEE.num_sub_num, IEEE.num_mul_num, IEEE.num_add_num, h25]
  rw [IEEE.sqrt_num _ _ (by norm_num), rat_sqrt_25]
  norm_num [IEEE.eqZero, IEEE.gtZero, IEEE.add_def, IEEE.sub_def, IEEE.mul_def, IEEE.div_def,
    IEEE.neg_def, IEEE.add, IEEE.neg, IEEE.mul, IEEE.div]

end IEEELemmas

section ContactLemmas

variable {F : Type} [LinearOrderedField F]

/-- The rocket-asteroid phase is the left fold of `craftGateStep` over the asteroids: it
returns the rocket and, after the asteroids already visited, the asteroids it leaves. -/
theorem rocketAsteroidPhase_fold_pair (sqrt : F → F) (r0 : Rocket F) :
    ∀ (asteroids : List (Asteroid F)) (rocket : Rocket F) (visited : List (Asteroid F)),
      rocket.position = r0.position →
      ((rocketAsteroidPhase sqrt rocket asteroids).1,
          visited ++ (rocketAsteroidPhase sqrt rocket asteroids).2) =
        asteroids.foldl (craftGateStep sqrt r0) (rocket, visited) := by
  intro asteroids
  induction asteroids with
  | nil =>
    intro rocket visited _
    simp only [rocketAsteroidPhase, List.append_nil, List.foldl_nil]
  | cons asteroid rest ih =>
    intro rocket visited hpos
    have hiff := rocketTouches_congr_rocket sqrt rocket r0 asteroid hpos
    simp only [rocketAsteroidPhase, List.foldl_cons, craftGateStep]
    by_cases ht : rocketTouches sqrt r0 asteroid
    · have ht2 := hiff.mpr ht
      simp only [rocketTouches] at ht2
      rw [if_pos ht2, if_pos ht]
      have hpos2 : ({ rocket with toGameObject :=
          (elasticCollision sqrt rocket.toGameObject asteroid.toGameObject 1.0
            asteroid.getMass).1 } : Rocket F).position = r0.position := by
        rw [← hpos]
        exact elasticCollision_fst_position _ _ _ _ _
      rw [← ih _ _ hpos2]
      simp only [List.append_assoc, List.singleton_append]
    · have ht2 := fun h => ht (hiff.mp h)
      simp only [rocketTouches] at ht2
      rw [if_neg ht2, if_neg ht, ← ih _ _ hpos]
      simp only [List.append_assoc, List.singleton_append]

/-- The collision of the craft of `contactScenario` with `leftBody`: a craft at rest at
`(905, 500)` of mass `1.0` against a body at `(900, 500)` of mass `10` with velocity `(1, 0)`,
where `std::sqrt` returns `5` for the squared distance `25`. -/
theorem elasticCollision_contact (sqrt : F → F) (a b : GameObject F) (massB : F)
    (hpa : a.position = ⟨905, 500⟩) (hva : a.velocity = ⟨0, 0⟩)
    (hpb : b.position = ⟨900, 500⟩) (hvb : b.velocity = ⟨1, 0⟩) (hm : massB = 10)
    (hs : sqrt ((900 - 905) * (900 - 905) + (500 - 500) * (500 - 500)) = 5) :
    (elasticCollision sqrt a b 1.0 massB).1.velocity = ⟨20 / 11, 0⟩ ∧
      (elasticCollision sqrt a b 1.0 massB).2.velocity = ⟨9 / 11, 0⟩ := by
  have hd : centerDistance sqrt a b = 5 := by
    simp only [centerDistance, GameObject.getPosition_eq, Vector2f.sub_x, Vector2f.sub_y, hpa,
      hpb, hs]
  have hn : collisionNormal sqrt a b = ⟨-1, 0⟩ := by
    rw [collisionNormal, hd]
    apply Vector2f.ext
    · simp only [GameObject.getPosition_eq, Vector2f.div_x, Vector2f.sub_x, hpa, hpb]
      norm_num
    · simp only [GameObject.getPosition_eq, Vector2f.div_y, Vector2f.sub_y, hpa, hpb]
      norm_num
  have hvan : velocityAlongNormal sqrt a b = -1 := by
    have h1 : velocityAlongNormal sqrt a b =
        (b.velocity.x - a.velocity.x) * (collisionNormal sqrt a b).x +
          (b.velocity.y - a.velocity.y) * (collisionNormal sqrt a b).y := rfl
    rw [h1, hn, hva, hvb]
    norm_num
  have hi : collisionImpulse sqrt a b 1.0 massB = 20 / 11 := by
    rw [collisionImpulse, hvan, hm]
    norm_num
  rw [elasticCollision_eq, if_neg (by rw [hd]; norm_num), if_neg (by rw [hvan]; norm_num), hi,
    hn, hm]
  constructor
  · apply Vector2f.ext
    · simp only [GameObject.setVelocity_velocity, Vector2f.sub_x, Vector2f.div_x,
        Vector2f.smul_x, hva]
      norm_num
    · simp only [GameObject.setVelocity_velocity, Vector2f.sub_y, Vector2f.div_y,
        Vector2f.smul_y, hva]
      norm_num
  · apply Vector2f.ext
    · simp only [GameObject.setVelocity_velocity, Vector2f.add_x, Vector2f.div_x,
        Vector2f.smul_x, hvb]
      norm_num
    · simp only [GameObject.setVelocity_velocity, Vector2f.add_y, Vector2f.div_y,
        Vector2f.smul_y, hvb]
      norm_num

end ContactLemmas

section Gates

variable {F : Type} [LinearOrderedField F]

/-- C16. Contact gates of the dispatcher, for every state.  (1) `handleCollisions` keeps the
number of projectiles and returns unchanged (velocity included) every projectile for which no
body has `|projectile.pos - body.pos| < body.radius`.  (2) It returns the craft unchanged
(velocity included) when no body has `|craft.pos - body.pos| < body.radius + 10`.  (3) In
general the craft it returns is the result of applying
`elasticCollision(craft, body, 1.0, body.mass)` for each body that satisfies the craft gate
and for no other, in container order, the bodies being in the state in which the projectile
phase left them.  (4) The call is applied to both of its arguments: the whole state that
`handleCollisions` returns is the craft and the bodies left by the fold of `craftGateStep`,
which writes the first result of the call into the craft and the second into the body, the
bodies then passing through the body-body phase.  (5) With no projectile and a single body
`a` that passes the craft gate, the craft is left with the first and the body with the second
result of `elasticCollision(craft, a, 1.0, a.mass)`.  (6) Against a body of positive mass the
call divides by no zero, whatever the craft, and its result is the one the call has on
`float`s with the special values of IEEE 754 (against a body of mass `0` the call divides by
zero, and the field division, which returns `0` there, is not the value the program
computes). -/
theorem handleCollisions_contact_gates (sqrt : F → F) (g : Game F) (i : Nat) (b : Bullet F)
    (a : Asteroid F) (craft : GameObject F) :
    (handleCollisions sqrt g).bullets.length = g.bullets.length ∧
      (g.bullets[i]? = some b → (∀ a ∈ g.asteroids, ¬bulletHits sqrt b a) →
        (handleCollisions sqrt g).bullets[i]? = some b) ∧
      ((∀ a ∈ g.asteroids, ¬rocketTouches sqrt g.rocket a) →
        (handleCollisions sqrt g).rocket = g.rocket) ∧
      (handleCollisions sqrt g).rocket =
        (bulletAsteroidPhase sqrt g.bullets g.asteroids).2.foldl
          (fun r a =>
            if rocketTouches sqrt g.rocket a then
              { r with toGameObject :=
                (elasticCollision sqrt r.toGameObject a.toGameObject 1.0 a.getMass).1 }
            else r)
          g.rocket ∧
      handleCollisions sqrt g =
        { rocket :=
            ((bulletAsteroidPhase sqrt g.bullets g.asteroids).2.foldl
              (craftGateStep sqrt g.rocket) (g.rocket, [])).1
          asteroids :=
            asteroidAsteroidPhase sqrt
              ((bulletAsteroidPhase sqrt g.bullets g.asteroids).2.foldl
                (craftGateStep sqrt g.rocket) (g.rocket, [])).2
          bullets := (bulletAsteroidPhase sqrt g.bullets g.asteroids).1 } ∧
      (g.bullets = [] → g.asteroids = [a] → rocketTouches sqrt g.rocket a →
        (handleCollisions sqrt g).rocket =
            { g.rocket with toGameObject :=
              (elasticCollision sqrt g.rocket.toGameObject a.toGameObject 1.0 a.getMass).1 } ∧
          (handleCollisions sqrt g).asteroids =
            [{ a with toGameObject :=
              (elasticCollision sqrt g.rocket.toGameObject a.toGameObject 1.0 a.getMass).2 }]) ∧
      (0 < a.mass →
        (∀ d ∈ (elasticCollisionTraced sqrt craft a.toGameObject 1.0 a.getMass).2, d ≠ 0) ∧
          elasticCollisionIEEE sqrt craft.toIEEE a.toGameObject.toIEEE (IEEE.num 1.0)
              (IEEE.num a.getMass) =
            ((elasticCollision sqrt craft a.toGameObject 1.0 a.getMass).1.toIEEE,
              (elasticCollision sqrt craft a.toGameObject 1.0 a.getMass).2.toIEEE)) := by
  have hfold := rocketAsteroidPhase_fold_pair sqrt g.rocket
    (bulletAsteroidPhase sqrt g.bullets g.asteroids).2 g.rocket [] rfl
  rw [List.nil_append] at hfold
  refine ⟨?_, ?_, handleCollisions_rocket_far sqrt g, ?_, ?_, ?_, ?_⟩
  · exact bulletAsteroidPhase_length sqrt g.bullets g.asteroids
  · intro hb hno
    exact bulletAsteroidPhase_unhit sqrt g.bullets g.asteroids i b hb hno
  · rw [handleCollisions_rocket]
    exact rocketAsteroidPhase_fold sqrt g.rocket _ g.rocket rfl
  · rw [← hfold]
    rfl
  · intro hb ha ht
    have ht2 := ht
    simp only [rocketTouches] at ht2
    simp only [handleCollisions, hb, ha, bulletAsteroidPhase, rocketAsteroidPhase]
    rw [if_pos ht2]
    exact ⟨rfl, asteroidAsteroidPhase_singleton sqrt _⟩
  · intro hm
    have hdiv := elasticCollisionTraced_divisors_ne_zero sqrt craft a.toGameObject 1.0
      a.getMass (by norm_num) hm
    exact ⟨hdiv,
      elasticCollisionIEEE_toIEEE sqrt craft a.toGameObject 1.0 a.getMass hdiv⟩

/-- Witness of C16.  Closed gates: in `gateScenario` the bullet is `800` and the craft `600`
away from the one body of radius `10`; both come out of `handleCollisions` as they were.
Open gate: in `contactScenario` the craft, at rest, is `5` away from the center of the body
of radius `10` and mass `10` that moves towards it with velocity `(1, 0)`; the craft is left
with velocity `(20/11, 0)` and the body with `(9/11, 0)`, and the call divides by no zero. -/
theorem handleCollisions_contact_gates_witness :
    gateScenario.bullets[0]? = some distantBullet ∧
      (∀ a ∈ gateScenario.asteroids, ¬bulletHits Rat.sqrt distantBullet a) ∧
      (∀ a ∈ gateScenario.asteroids, ¬rocketTouches Rat.sqrt gateScenario.rocket a) ∧
      (handleCollisions Rat.sqrt gateScenario).bullets[0]? = some distantBullet ∧
      (handleCollisions Rat.sqrt gateScenario).rocket = gateScenario.rocket ∧
      contactScenario.bullets = [] ∧ contactScenario.asteroids = [leftBody] ∧
      rocketTouches Rat.sqrt contactScenario.rocket leftBody ∧ 0 < leftBody.mass ∧
      (handleCollisions Rat.sqrt contactScenario).rocket.velocity = ⟨20 / 11, 0⟩ ∧
      (handleCollisions Rat.sqrt contactScenario).asteroids.map (fun a => a.velocity) =
        [⟨9 / 11, 0⟩] ∧
      (∀ d ∈ (elasticCollisionTraced Rat.sqrt contactScenario.rocket.toGameObject
        leftBody.toGameObject 1.0 leftBody.getMass).2, d ≠ 0) := by
  have hb : ∀ a ∈ gateScenario.asteroids, ¬bulletHits Rat.sqrt distantBullet a := by
    intro a ha
    simp only [gateScenario, List.mem_singleton] at ha
    rw [ha, bulletHits_horizontal _ _ rfl]
    norm_num [distantBullet, leftBody, Asteroid.new, abs_lt]
  have hr : ∀ a ∈ gateScenario.asteroids, ¬rocketTouches Rat.sqrt gateScenario.rocket a := by
    intro a ha
    simp only [gateScenario, List.mem_singleton] at ha
    rw [ha, rocketTouches_horizontal _ _ rfl (by norm_num [gateScenario, distantRocket,
      leftBody, Rocket.new, Asteroid.new])]
    norm_num [gateScenario, distantRocket, leftBody, Rocket.new, Asteroid.new]
  have h := handleCollisions_contact_gates Rat.sqrt gateScenario 0 distantBullet leftBody
    leftBody.toGameObject
  have ht : rocketTouches Rat.sqrt contactScenario.rocket leftBody := by
    rw [rocketTouches_horizontal _ _ rfl (by norm_num [contactScenario, contactRocket,
      leftBody, Rocket.new, Asteroid.new])]
    norm_num [contactScenario, contactRocket, leftBody, Rocket.new, Asteroid.new]
  have hmass : leftBody.getMass = 10 := by
    norm_num [leftBody, Asteroid.new, Asteroid.getMass]
  have hpos : (0 : ℚ) < leftBody.mass := by norm_num [leftBody, Asteroid.new]
  have hs : Rat.sqrt (((900 : ℚ) - 905) * (900 - 905) + (500 - 500) * (500 - 500)) = 5 := by
    rw [show ((900 : ℚ) - 905) * (900 - 905) + (500 - 500) * (500 - 500) = 25 by norm_num]
    exact rat_sqrt_25
  have hE := elasticCollision_contact Rat.sqrt contactScenario.rocket.toGameObject
    leftBody.toGameObject leftBody.getMass rfl rfl rfl rfl hmass hs
  have h2 := handleCollisions_contact_gates Rat.sqrt contactScenario 0 distantBullet leftBody
    contactScenario.rocket.toGameObject
  have hc := h2.2.2.2.2.2.1 rfl rfl ht
  refine ⟨rfl, hb, hr, h.2.1 rfl hb, h.2.2.1 hr, rfl, rfl, ht, hpos, ?_, ?_,
    (h2.2.2.2.2.2.2 hpos).1⟩
  · rw [hc.1]
    exact hE.1
  · rw [hc.2, List.map_cons, List.map_nil]
    exact congrArg (fun v => [v]) hE.2

end Gates

/-! ## Repeated wall reflection -/

section SoftWallLemmas

variable {F : Type} [LinearOrderedField F]

/-- A value already in `[lo, hi]` is its own clamp. -/
theorem clamp_of_mem (w lo hi : F) (h1 : lo ≤ w) (h2 : w ≤ hi) : clamp w lo hi = w := by
  unfold clamp
  rw [if_neg (not_lt.mpr h1), if_neg (not_lt.mpr h2)]

/-- With `lo ≤ hi`, a value at or below `lo` is clamped to `lo`. -/
theorem clamp_of_le (v lo hi : F) (h : lo ≤ hi) (hv : v ≤ lo) : clamp v lo hi = lo := by
  unfold clamp
  split_ifs with h1 h2
  · rfl
  · exact absurd (lt_of_le_of_lt h h2) (not_lt.mpr hv)
  · exact le_antisymm hv (not_lt.mp h1)

/-- With `lo ≤ hi`, a value at or above `hi` is clamped to `hi`. -/
theorem clamp_of_ge (v lo hi : F) (h : lo ≤ hi) (hv : hi ≤ v) : clamp v lo hi = hi := by
  unfold clamp
  split_ifs with h1 h2
  · exact absurd (lt_of_le_of_lt (le_trans h hv) h1) (lt_irrefl _)
  · rfl
  · exact le_antisymm (not_lt.mp h2) hv

/-- One axis of `handleWallCollisions`, applied twice: if the condition fires it fires again
on the result, the coordinate stays and the velocity component is reflected twice. -/
theorem wall_axis_twice (p r w : F) (hr : 2 * r ≤ w) (c : p - r ≤ 0 ∨ p + r ≥ w) :
    (clamp p r (w - r) - r ≤ 0 ∨ clamp p r (w - r) + r ≥ w) ∧
      clamp (clamp p r (w - r)) r (w - r) = clamp p r (w - r) := by
  have hlo : r ≤ w - r := by linarith
  have hm := clamp_mem p r (w - r) hlo
  refine ⟨?_, clamp_of_mem _ _ _ hm.1 hm.2⟩
  rcases c with c | c
  · left
    rw [clamp_of_le p r (w - r) hlo (by linarith)]
    linarith
  · right
    rw [clamp_of_ge p r (w - r) hlo (by linarith)]
    linarith

end SoftWallLemmas

section SoftWall

variable {F : Type} [LinearOrderedField F]

/-- C17. Soft wall, repeated reflection.  For every object and radius with
`0 ≤ 2 * radius ≤ 1800` for which the `x` condition of `handleWallCollisions` fires
(`pos.x - radius ≤ 0` or `pos.x + radius ≥ 1800`), the condition fires again on the result;
the `x` position after two applications equals the one after one, and `vel.x` after two
applications is `0.95 * 0.95` times the original `vel.x` (after one it is `-0.95` times it).
The same holds for `y` with `2 * radius ≤ 1000`.  With `2 * radius ≤ 1000` the whole
position after two applications equals the position after one, for every object. -/
theorem handleWallCollisions_twice (obj : GameObject F) (radius : F) :
    (0 ≤ 2 * radius → 2 * radius ≤ 1800 →
        (obj.position.x - radius ≤ 0 ∨ obj.position.x + radius ≥ 1800) →
        ((handleWallCollisions obj radius).position.x - radius ≤ 0 ∨
            (handleWallCollisions obj radius).position.x + radius ≥ 1800) ∧
          (handleWallCollisions (handleWallCollisions obj radius) radius).position.x =
            (handleWallCollisions obj radius).position.x ∧
          (handleWallCollisions obj radius).velocity.x = -0.95 * obj.velocity.x ∧
          (handleWallCollisions (handleWallCollisions obj radius) radius).velocity.x =
            0.95 * 0.95 * obj.velocity.x) ∧
      (0 ≤ 2 * radius → 2 * radius ≤ 1000 →
        (obj.position.y - radius ≤ 0 ∨ obj.position.y + radius ≥ 1000) →
        ((handleWallCollisions obj radius).position.y - radius ≤ 0 ∨
            (handleWallCollisions obj radius).position.y + radius ≥ 1000) ∧
          (handleWallCollisions (handleWallCollisions obj radius) radius).position.y =
            (handleWallCollisions obj radius).position.y ∧
          (handleWallCollisions obj radius).velocity.y = -0.95 * obj.velocity.y ∧
          (handleWallCollisions (handleWallCollisions obj radius) radius).velocity.y =
            0.95 * 0.95 * obj.velocity.y) ∧
      (0 ≤ 2 * radius → 2 * radius ≤ 1000 →
        (handleWallCollisions (handleWallCollisions obj radius) radius).position =
          (handleWallCollisions obj radius).position) := by
  have hX : 2 * radius ≤ 1800 →
      (obj.position.x - radius ≤ 0 ∨ obj.position.x + radius ≥ 1800) →
      ((handleWallCollisions obj radius).position.x - radius ≤ 0 ∨
          (handleWallCollisions obj radius).position.x + radius ≥ 1800) ∧
        (handleWallCollisions (handleWallCollisions obj radius) radius).position.x =
          (handleWallCollisions obj radius).position.x ∧
        (handleWallCollisions obj radius).velocity.x = -0.95 * obj.velocity.x ∧
        (handleWallCollisions (handleWallCollisions obj radius) radius).velocity.x =
          0.95 * 0.95 * obj.velocity.x := by
    intro hr c
    have h1p : (handleWallCollisions obj radius).position.x =
        clamp obj.position.x radius (1800 - radius) := by
      rw [handleWallCollisions_position_x, if_pos c]
    have h1v : (handleWallCollisions obj radius).velocity.x = -0.95 * obj.velocity.x := by
      rw [handleWallCollisions_velocity_x, if_pos c]
    have hw := wall_axis_twice obj.position.x radius 1800 hr c
    rw [← h1p] at hw
    refine ⟨hw.1, ?_, h1v, ?_⟩
    · rw [handleWallCollisions_position_x, if_pos hw.1]
      exact hw.2
    · rw [handleWallCollisions_velocity_x, if_pos hw.1, h1v]
      ring
  have hY : 2 * radius ≤ 1000 →
      (obj.position.y - radius ≤ 0 ∨ obj.position.y + radius ≥ 1000) →
      ((handleWallCollisions obj radius).position.y - radius ≤ 0 ∨
          (handleWallCollisions obj radius).position.y + radius ≥ 1000) ∧
        (handleWallCollisions (handleWallCollisions obj radius) radius).position.y =
          (handleWallCollisions obj radius).position.y ∧
        (handleWallCollisions obj radius).velocity.y = -0.95 * obj.velocity.y ∧
        (handleWallCollisions (handleWallCollisions obj radius) radius).velocity.y =
          0.95 * 0.95 * obj.velocity.y := by
    intro hr c
    have h1p : (handleWallCollisions obj radius).position.y =
        clamp obj.position.y radius (1000 - radius) := by
      rw [handleWallCollisions_position_y, if_pos c]
    have h1v : (handleWallCollisions obj radius).velocity.y = -0.95 * obj.velocity.y := by
      rw [handleWallCollisions_velocity_y, if_pos c]
    have hw := wall_axis_twice obj.position.y radius 1000 hr c
    rw [← h1p] at hw
    refine ⟨hw.1, ?_, h1v, ?_⟩
    · rw [handleWallCollisions_position_y, if_pos hw.1]
      exact hw.2
    · rw [handleWallCollisions_velocity_y, if_pos hw.1, h1v]
      ring
  refine ⟨fun _ hr c => hX hr c, fun _ hr c => hY hr c, ?_⟩
  intro _ hr
  apply Vector2f.ext
  · by_cases c : obj.position.x - radius ≤ 0 ∨ obj.position.x + radius ≥ 1800
    · exact (hX (by linarith) c).2.1
    · have h1 : (handleWallCollisions obj radius).position.x = obj.position.x := by
        rw [handleWallCollisions_position_x, if_neg c]
      rw [handleWallCollisions_position_x, h1, if_neg c]
  · by_cases c : obj.position.y - radius ≤ 0 ∨ obj.position.y + radius ≥ 1000
    · exact (hY hr c).2.1
    · have h1 : (handleWallCollisions obj radius).position.y = obj.position.y := by
        rw [handleWallCollisions_position_y, if_neg c]
      rw [handleWallCollisions_position_y, h1, if_neg c]

/-- Witness of C17: radius `10` and `nearLeftWall` at `x = 5` with `vel.x = -20`: after one
application `x = 10` and `vel.x = 19`, after two `x = 10` and `vel.x = -18.05`. -/
theorem handleWallCollisions_twice_witness :
    (0 : ℚ) ≤ 2 * 10 ∧ (2 : ℚ) * 10 ≤ 1800 ∧
      (nearLeftWall.position.x - 10 ≤ 0 ∨ nearLeftWall.position.x + 10 ≥ 1800) ∧
      ((handleWallCollisions nearLeftWall 10).position.x - 10 ≤ 0 ∨
        (handleWallCollisions nearLeftWall 10).position.x + 10 ≥ 1800) ∧
      (handleWallCollisions (handleWallCollisions nearLeftWall 10) 10).position.x =
        (handleWallCollisions nearLeftWall 10).position.x ∧
      (handleWallCollisions nearLeftWall 10).velocity.x = -0.95 * nearLeftWall.velocity.x ∧
      (handleWallCollisions (handleWallCollisions nearLeftWall 10) 10).velocity.x =
        0.95 * 0.95 * nearLeftWall.velocity.x := by
  have c : nearLeftWall.position.x - 10 ≤ 0 ∨ nearLeftWall.position.x + 10 ≥ 1800 := by
    left
    norm_num [nearLeftWall]
  exact ⟨by norm_num, by norm_num, c,
    (handleWallCollisions_twice nearLeftWall 10).1 (by norm_num) (by norm_num) c⟩

end SoftWall

/-! ## Reversal of the normal velocity and idempotence -/

section ReversalLemmas

variable {F : Type} [LinearOrderedField F]

/-- The impulse times the sum of the inverse masses, when that sum is not zero. -/
theorem collisionImpulse_mul_of_ne (sqrt : F → F) (a b : GameObject F) (massA massB : F)
    (hS : 1 / massA + 1 / massB ≠ 0) :
    collisionImpulse sqrt a b massA massB * (1 / massA + 1 / massB) =
      -2 * velocityAlongNormal sqrt a b := by
  unfold collisionImpulse
  rw [div_mul_cancel₀ _ hS]
  norm_num

/-- Objects with distinct centers have a non-zero squared center distance. -/
theorem centerDistanceSq_ne_zero (a b : GameObject F) (hab : a.position ≠ b.position) :
    centerDistanceSq a b ≠ 0 := by
  intro h0
  apply hab
  simp only [centerDistanceSq, GameObject.getPosition_eq, Vector2f.sub_x, Vector2f.sub_y] at h0
  have hx : (b.position.x - a.position.x) * (b.position.x - a.position.x) = 0 := by
    nlinarith [mul_self_nonneg (b.position.x - a.position.x),
      mul_self_nonneg (b.position.y - a.position.y)]
  have hy : (b.position.y - a.position.y) * (b.position.y - a.position.y) = 0 := by
    nlinarith [mul_self_nonneg (b.position.x - a.position.x),
      mul_self_nonneg (b.position.y - a.position.y)]
  apply Vector2f.ext
  · have := mul_self_eq_zero.mp hx
    linarith
  · have := mul_self_eq_zero.mp hy
    linarith

/-- Where `std::sqrt` is exact, objects with distinct centers have a non-zero distance. -/
theorem centerDistance_ne_zero_of_exact (sqrt : F → F) (a b : GameObject F)
    (hab : a.position ≠ b.position) (hs : SqrtExactAt sqrt (centerDistanceSq a b)) :
    centerDistance sqrt a b ≠ 0 := by
  intro h0
  have h2 : centerDistance sqrt a b * centerDistance sqrt a b = centerDistanceSq a b := hs.2
  rw [h0, mul_zero] at h2
  exact centerDistanceSq_ne_zero a b hab h2.symm

/-- The impulse of `elasticCollision` along a unit normal reverses the relative velocity
along the normal. -/
theorem velocityAlongNormal_after_impulse (sqrt : F → F) (a b : GameObject F)
    (massA massB : F) (hS : 1 / massA + 1 / massB ≠ 0)
    (hn : (collisionNormal sqrt a b).x * (collisionNormal sqrt a b).x +
      (collisionNormal sqrt a b).y * (collisionNormal sqrt a b).y = 1) :
    velocityAlongNormal sqrt
        (a.setVelocity
          (a.velocity -
            (collisionImpulse sqrt a b massA massB * collisionNormal sqrt a b) / massA))
        (b.setVelocity
          (b.velocity +
            (collisionImpulse sqrt a b massA massB * collisionNormal sqrt a b) / massB)) =
      -velocityAlongNormal sqrt a b := by
  have hj := collisionImpulse_mul_of_ne sqrt a b massA massB hS
  have hv : velocityAlongNormal sqrt a b =
      (b.velocity.x - a.velocity.x) * (collisionNormal sqrt a b).x +
        (b.velocity.y - a.velocity.y) * (collisionNormal sqrt a b).y := rfl
  have key : velocityAlongNormal sqrt
        (a.setVelocity
          (a.velocity -
            (collisionImpulse sqrt a b massA massB * collisionNormal sqrt a b) / massA))
        (b.setVelocity
          (b.velocity +
            (collisionImpulse sqrt a b massA massB * collisionNormal sqrt a b) / massB)) =
      ((b.velocity.x +
            (collisionNormal sqrt a b).x * collisionImpulse sqrt a b massA massB / massB) -
          (a.velocity.x -
            (collisionNormal sqrt a b).x * collisionImpulse sqrt a b massA massB / massA)) *
          (collisionNormal sqrt a b).x +
        ((b.velocity.y +
            (collisionNormal sqrt a b).y * collisionImpulse sqrt a b massA massB / massB) -
          (a.velocity.y -
            (collisionNormal sqrt a b).y * collisionImpulse sqrt a b massA massB / massA)) *
          (collisionNormal sqrt a b).y := rfl
  rw [key]
  simp only [div_eq_mul_inv, one_mul] at hj ⊢
  linear_combination
    ((collisionNormal sqrt a b).x * (collisionNormal sqrt a b).x +
        (collisionNormal sqrt a b).y * (collisionNormal sqrt a b).y) * hj +
      (-2 * velocityAlongNormal sqrt a b) * hn - hv

end ReversalLemmas

section Reversal

variable {F : Type} [LinearOrderedField F]

/-- Counterexample to C18 as stated ("for every input").  The objects `movingAtOrigin` and
`restingAt34` have distinct centers, `std::sqrt` is exact at their squared distance `25` and
they approach (`velocityAlongNormal = -3/5`); with `massA = 1` and `massB = 0` the call
divides by zero.  On `float`s with the special values of IEEE 754 the first call leaves the
first object with its velocity `(1, 0)` and the second with a NaN velocity; the second call
turns the velocity of the first object into a NaN too, so that calling twice does not yield
the state of calling once. -/
theorem elasticCollision_idempotent_counterexample :
    SqrtExactAt Rat.sqrt (centerDistanceSq movingAtOrigin restingAt34) ∧
      movingAtOrigin.position ≠ restingAt34.position ∧
      velocityAlongNormal Rat.sqrt movingAtOrigin restingAt34 ≤ 0 ∧
      (0 : ℚ) ∈ (elasticCollisionTraced Rat.sqrt movingAtOrigin restingAt34 1 0).2 ∧
      (elasticCollisionIEEE Rat.sqrt movingAtOrigin.toIEEE restingAt34.toIEEE (IEEE.num 1)
          (IEEE.num 0)).1.velocity = ⟨IEEE.num 1, IEEE.num 0⟩ ∧
      (elasticCollisionIEEE Rat.sqrt movingAtOrigin.toIEEE restingAt34.toIEEE (IEEE.num 1)
          (IEEE.num 0)).2.velocity = ⟨IEEE.nan, IEEE.nan⟩ ∧
      (elasticCollisionIEEE Rat.sqrt
          (elasticCollisionIEEE Rat.sqrt movingAtOrigin.toIEEE restingAt34.toIEEE (IEEE.num 1)
            (IEEE.num 0)).1
          (elasticCollisionIEEE Rat.sqrt movingAtOrigin.toIEEE restingAt34.toIEEE (IEEE.num 1)
            (IEEE.num 0)).2 (IEEE.num 1) (IEEE.num 0)).1.velocity = ⟨IEEE.nan, IEEE.nan⟩ ∧
      elasticCollisionIEEE Rat.sqrt
          (elasticCollisionIEEE Rat.sqrt movingAtOrigin.toIEEE restingAt34.toIEEE (IEEE.num 1)
            (IEEE.num 0)).1
          (elasticCollisionIEEE Rat.sqrt movingAtOrigin.toIEEE restingAt34.toIEEE (IEEE.num 1)
            (IEEE.num 0)).2 (IEEE.num 1) (IEEE.num 0) ≠
        elasticCollisionIEEE Rat.sqrt movingAtOrigin.toIEEE restingAt34.toIEEE (IEEE.num 1)
          (IEEE.num 0) := by
  have hne : movingAtOrigin.position ≠ restingAt34.position := by
    simp [movingAtOrigin, restingAt34]
  have hv : velocityAlongNormal Rat.sqrt movingAtOrigin restingAt34 ≤ 0 := by
    rw [velocityAlongNormal_origin_34]
    norm_num
  have hmem : (0 : ℚ) ∈ (elasticCollisionTraced Rat.sqrt movingAtOrigin restingAt34 1 0).2 := by
    rw [elasticCollisionTraced_eq, if_neg (by rw [centerDistance_origin_34]; norm_num),
      if_neg (not_lt.mpr hv)]
    simp
  rw [elasticCollisionIEEE_origin_34_once, elasticCollisionIEEE_origin_34_twice]
  refine ⟨sqrtExactAt_origin_34, hne, hv, hmem, rfl, rfl, rfl, ?_⟩
  intro h
  have hx := congrArg (fun p => p.1.velocity.x) h
  simp [GameObject.toIEEE, GameObject.setVelocity] at hx

/-- C18 (amended). In exact arithmetic, where `std::sqrt` is exact at the squared center
distance, `elasticCollision` reverses the normal relative velocity and is idempotent on the
inputs on which it divides by no zero.  (1) For objects with distinct centers and masses
`massA > 0`, `massB > 0` with `velocityAlongNormal ≤ 0`, the `velocityAlongNormal` of the
state after the call is the negation of the old one.  (2) Consequently, on every input on
which the call divides by no zero, calling `elasticCollision` twice in a row with the same
arguments yields the same state as calling it once; (3) that covers every pair of objects
(coincident, separating or approaching) with positive masses.  (4) On those inputs the call
on `float`s with the special values of IEEE 754 returns the same numbers, no infinity and no
NaN, the first time and the second time.  An input on which the call divides by zero (a mass
`0` on the impulse path) is not covered. -/
theorem elasticCollision_reverses_and_idempotent (sqrt : F → F) (a b : GameObject F)
    (massA massB : F) (hs : SqrtExactAt sqrt (centerDistanceSq a b)) :
    (a.position ≠ b.position → 0 < massA → 0 < massB → velocityAlongNormal sqrt a b ≤ 0 →
        velocityAlongNormal sqrt (elasticCollision sqrt a b massA massB).1
          (elasticCollision sqrt a b massA massB).2 = -velocityAlongNormal sqrt a b) ∧
      ((∀ d ∈ (elasticCollisionTraced sqrt a b massA massB).2, d ≠ 0) →
        elasticCollision sqrt (elasticCollision sqrt a b massA massB).1
          (elasticCollision sqrt a b massA massB).2 massA massB =
          elasticCollision sqrt a b massA massB) ∧
      (0 < massA → 0 < massB →
        elasticCollision sqrt (elasticCollision sqrt a b massA massB).1
          (elasticCollision sqrt a b massA massB).2 massA massB =
          elasticCollision sqrt a b massA massB) ∧
      ((∀ d ∈ (elasticCollisionTraced sqrt a b massA massB).2, d ≠ 0) →
        elasticCollisionIEEE sqrt a.toIEEE b.toIEEE (IEEE.num massA) (IEEE.num massB) =
            ((elasticCollision sqrt a b massA massB).1.toIEEE,
              (elasticCollision sqrt a b massA massB).2.toIEEE) ∧
          elasticCollisionIEEE sqrt (elasticCollision sqrt a b massA massB).1.toIEEE
              (elasticCollision sqrt a b massA massB).2.toIEEE (IEEE.num massA)
              (IEEE.num massB) =
            ((elasticCollision sqrt a b massA massB).1.toIEEE,
              (elasticCollision sqrt a b massA massB).2.toIEEE)) := by
  have hidem : (∀ d ∈ (elasticCollisionTraced sqrt a b massA massB).2, d ≠ 0) →
      elasticCollision sqrt (elasticCollision sqrt a b massA massB).1
        (elasticCollision sqrt a b massA massB).2 massA massB =
        elasticCollision sqrt a b massA massB := by
    intro hdiv
    by_cases hd : centerDistance sqrt a b = 0
    · have hE : elasticCollision sqrt a b massA massB = (a, b) := by
        rw [elasticCollision_eq, if_pos hd]
      rw [hE]
      exact hE
    · by_cases hv : velocityAlongNormal sqrt a b > 0
      · have hE : elasticCollision sqrt a b massA massB = (a, b) := by
          rw [elasticCollision_eq, if_neg hd, if_pos hv]
        rw [hE]
        exact hE
      · rw [elasticCollisionTraced_eq, if_neg hd, if_neg hv] at hdiv
        have hS : 1 / massA + 1 / massB ≠ 0 := hdiv _ (by simp)
        have hn := collisionNormal_unit sqrt a b hs hd
        have hrev := velocityAlongNormal_after_impulse sqrt a b massA massB hS hn
        have hE : elasticCollision sqrt a b massA massB =
            (a.setVelocity
                (a.velocity -
                  (collisionImpulse sqrt a b massA massB * collisionNormal sqrt a b) / massA),
              b.setVelocity
                (b.velocity +
                  (collisionImpulse sqrt a b massA massB * collisionNormal sqrt a b) /
                    massB)) := by
          rw [elasticCollision_eq, if_neg hd, if_neg hv]
        rcases lt_or_eq_of_le (not_lt.mp hv) with hlt | heq
        · rw [hE]
          have hd2 : centerDistance sqrt
              (a.setVelocity
                (a.velocity -
                  (collisionImpulse sqrt a b massA massB * collisionNormal sqrt a b) / massA))
              (b.setVelocity
                (b.velocity +
                  (collisionImpulse sqrt a b massA massB * collisionNormal sqrt a b) /
                    massB)) ≠ 0 := hd
          rw [elasticCollision_eq, if_neg hd2, if_pos (by rw [hrev]; linarith)]
        · have hj0 : collisionImpulse sqrt a b massA massB = 0 := by
            unfold collisionImpulse
            rw [heq, mul_zero, zero_div]
          have hE2 : elasticCollision sqrt a b massA massB = (a, b) := by
            rw [hE, hj0]
            apply Prod.ext
            · apply GameObject.ext
              · rfl
              · apply Vector2f.ext <;> simp
            · apply GameObject.ext
              · rfl
              · apply Vector2f.ext <;> simp
          rw [hE2]
          exact hE2
  refine ⟨?_, hidem, ?_, ?_⟩
  · intro hab hA hB hv
    have hd := centerDistance_ne_zero_of_exact sqrt a b hab hs
    rw [elasticCollision_eq, if_neg hd, if_neg (not_lt.mpr hv)]
    exact velocityAlongNormal_after_impulse sqrt a b massA massB
      (inv_mass_sum_ne_zero massA massB hA hB) (collisionNormal_unit sqrt a b hs hd)
  · intro hA hB
    exact hidem (elasticCollisionTraced_divisors_ne_zero sqrt a b massA massB hA hB)
  · intro hdiv
    refine ⟨elasticCollisionIEEE_toIEEE sqrt a b massA massB hdiv, ?_⟩
    rw [elasticCollisionIEEE_toIEEE sqrt _ _ massA massB
      (elasticCollisionTraced_divisors_ne_zero_twice sqrt a b massA massB hdiv), hidem hdiv]

/-- Witness of C18: masses `1` and `2`, centers `(0,0)` and `(3,4)`, the objects
approaching with `velocityAlongNormal = -3/5`; the call divides by no zero. -/
theorem elasticCollision_reverses_and_idempotent_witness :
    SqrtExactAt Rat.sqrt (centerDistanceSq movingAtOrigin restingAt34) ∧
      movingAtOrigin.position ≠ restingAt34.position ∧ (0 : ℚ) < 1 ∧ (0 : ℚ) < 2 ∧
      velocityAlongNormal Rat.sqrt movingAtOrigin restingAt34 ≤ 0 ∧
      (∀ d ∈ (elasticCollisionTraced Rat.sqrt movingAtOrigin restingAt34 1 2).2, d ≠ 0) ∧
      velocityAlongNormal Rat.sqrt (elasticCollision Rat.sqrt movingAtOrigin restingAt34 1 2).1
          (elasticCollision Rat.sqrt movingAtOrigin restingAt34 1 2).2 =
        -velocityAlongNormal Rat.sqrt movingAtOrigin restingAt34 ∧
      elasticCollision Rat.sqrt (elasticCollision Rat.sqrt movingAtOrigin restingAt34 1 2).1
          (elasticCollision Rat.sqrt movingAtOrigin restingAt34 1 2).2 1 2 =
        elasticCollision Rat.sqrt movingAtOrigin restingAt34 1 2 ∧
      elasticCollisionIEEE Rat.sqrt
          (elasticCollision Rat.sqrt movingAtOrigin restingAt34 1 2).1.toIEEE
          (elasticCollision Rat.sqrt movingAtOrigin restingAt34 1 2).2.toIEEE (IEEE.num 1)
          (IEEE.num 2) =
        ((elasticCollision Rat.sqrt movingAtOrigin restingAt34 1 2).1.toIEEE,
          (elasticCollision Rat.sqrt movingAtOrigin restingAt34 1 2).2.toIEEE) := by
  have hne : movingAtOrigin.position ≠ restingAt34.position := by
    simp [movingAtOrigin, restingAt34]
  have hs := sqrtExactAt_origin_34
  have hv : velocityAlongNormal Rat.sqrt movingAtOrigin restingAt34 ≤ 0 := by
    rw [velocityAlongNormal_origin_34]
    norm_num
  have hdiv := elasticCollisionTraced_divisors_ne_zero Rat.sqrt movingAtOrigin restingAt34 1 2
    (by norm_num) (by norm_num)
  have h := elasticCollision_reverses_and_idempotent Rat.sqrt movingAtOrigin restingAt34 1 2 hs
  exact ⟨hs, hne, by norm_num, by norm_num, hv, hdiv,
    h.1 hne (by norm_num) (by norm_num) hv, h.2.2.1 (by norm_num) (by norm_num),
    (h.2.2.2 hdiv).2⟩

end Reversal

/-! ## Momentum of the whole dispatcher -/

section MomentumLemmas

variable {F : Type} [LinearOrderedField F]

/-- Along either axis, `elasticCollision` with positive masses conserves the momentum of the
pair. -/
theorem elasticCollision_momentum_axis (sqrt : F → F) (axis : Vector2f F → F)
    (hax : axis = Vector2f.x ∨ axis = Vector2f.y) (a b : GameObject F) (massA massB : F)
    (hA : 0 < massA) (hB : 0 < massB) :
    massA * axis (elasticCollision sqrt a b massA massB).1.velocity +
        massB * axis (elasticCollision sqrt a b massA massB).2.velocity =
      massA * axis a.velocity + massB * axis b.velocity := by
  have hA1 := hA.ne'
  have hB1 := hB.ne'
  rw [elasticCollision_eq]
  split_ifs with h1 h2
  · rfl
  · rfl
  · rcases hax with rfl | rfl
    · simp only [GameObject.setVelocity_velocity, Vector2f.sub_x, Vector2f.add_x,
        Vector2f.div_x, Vector2f.smul_x]
      field_simp
      ring
    · simp only [GameObject.setVelocity_velocity, Vector2f.sub_y, Vector2f.add_y,
        Vector2f.div_y, Vector2f.smul_y]
      field_simp
      ring

/-- The sum of the images after replacing the entry at `i`. -/
theorem sum_map_set {α : Type} (f : α → F) :
    ∀ (l : List α) (i : Nat) (x y : α), l[i]? = some x →
      ((l.set i y).map f).sum = (l.map f).sum - f x + f y := by
  intro l
  induction l with
  | nil =>
    intro i x y hi
    simp at hi
  | cons h t ih =>
    intro i x y hi
    cases i with
    | zero =>
      simp only [List.getElem?_cons_zero, Option.some.injEq] at hi
      subst hi
      simp only [List.set_cons_zero, List.map_cons, List.sum_cons]
      ring
    | succ n =>
      simp only [List.getElem?_cons_succ] at hi
      simp only [List.set_cons_succ, List.map_cons, List.sum_cons, ih n x y hi]
      ring

/-- Positive masses carry over to a container with the same fixed data. -/
theorem mass_pos_of_fixedData (l1 l2 : List (Asteroid F))
    (h : l1.map Asteroid.fixedData = l2.map Asteroid.fixedData)
    (hm : ∀ a ∈ l2, 0 < a.mass) : ∀ a ∈ l1, 0 < a.mass := by
  intro a ha
  have hkey : a.fixedData ∈ l1.map Asteroid.fixedData := List.mem_map.mpr ⟨a, ha, rfl⟩
  rw [h] at hkey
  obtain ⟨a2, ha2, hk⟩ := List.mem_map.mp hkey
  have hmass : a2.mass = a.mass := congrArg (fun d : Vector2f F × F × F => d.2.2) hk
  rw [← hmass]
  exact hm a2 ha2

/-- The scan of one bullet conserves the momentum of the bullet and the asteroids. -/
theorem scanAsteroids_momentum (sqrt : F → F) (axis : Vector2f F → F)
    (hax : axis = Vector2f.x ∨ axis = Vector2f.y) (bullet : Bullet F)
    (asteroids : List (Asteroid F)) (hm : ∀ a ∈ asteroids, 0 < a.mass) :
    0.1 * axis (scanAsteroids sqrt bullet asteroids).1.velocity +
        ((scanAsteroids sqrt bullet asteroids).2.map (fun a => a.mass * axis a.velocity)).sum =
      0.1 * axis bullet.velocity + (asteroids.map (fun a => a.mass * axis a.velocity)).sum := by
  induction asteroids with
  | nil => rfl
  | cons asteroid rest ih =>
    have hpos := hm asteroid (List.mem_cons_self _ _)
    have ih2 := ih (fun a ha => hm a (List.mem_cons_of_mem _ ha))
    simp only [scanAsteroids]
    split_ifs
    · have hE := elasticCollision_momentum_axis sqrt axis hax bullet.toGameObject
        asteroid.toGameObject 0.1 asteroid.getMass (by norm_num) hpos
      simp only [List.map_cons, List.sum_cons]
      simp only [Asteroid.getMass] at hE ⊢
      linear_combination hE
    · simp only [List.map_cons, List.sum_cons]
      linear_combination ih2

/-- The bullet-asteroid phase conserves the momentum of the bullets and the asteroids. -/
theorem bulletAsteroidPhase_momentum (sqrt : F → F) (axis : Vector2f F → F)
    (hax : axis = Vector2f.x ∨ axis = Vector2f.y) (bullets : List (Bullet F)) :
    ∀ asteroids : List (Asteroid F), (∀ a ∈ asteroids, 0 < a.mass) →
      ((bulletAsteroidPhase sqrt bullets asteroids).1.map
            (fun b => 0.1 * axis b.velocity)).sum +
          ((bulletAsteroidPhase sqrt bullets asteroids).2.map
            (fun a => a.mass * axis a.velocity)).sum =
        (bullets.map (fun b => 0.1 * axis b.velocity)).sum +
          (asteroids.map (fun a => a.mass * axis a.velocity)).sum := by
  induction bullets with
  | nil =>
    intro asteroids _
    rfl
  | cons bullet rest ih =>
    intro asteroids hm
    have h1 := scanAsteroids_momentum sqrt axis hax bullet asteroids hm
    have h2 := ih (scanAsteroids sqrt bullet asteroids).2
      (mass_pos_of_fixedData _ _ (scanAsteroids_fixedData sqrt bullet asteroids) hm)
    simp only [bulletAsteroidPhase, List.map_cons, List.sum_cons]
    linear_combination h1 + h2

/-- The rocket-asteroid phase conserves the momentum of the rocket and the asteroids. -/
theorem rocketAsteroidPhase_momentum (sqrt : F → F) (axis : Vector2f F → F)
    (hax : axis = Vector2f.x ∨ axis = Vector2f.y) (asteroids : List (Asteroid F)) :
    ∀ rocket : Rocket F, (∀ a ∈ asteroids, 0 < a.mass) →
      1.0 * axis (rocketAsteroidPhase sqrt rocket asteroids).1.velocity +
          ((rocketAsteroidPhase sqrt rocket asteroids).2.map
            (fun a => a.mass * axis a.velocity)).sum =
        1.0 * axis rocket.velocity + (asteroids.map (fun a => a.mass * axis a.velocity)).sum := by
  induction asteroids with
  | nil =>
    intro rocket _
    rfl
  | cons asteroid rest ih =>
    intro rocket hm
    have hpos := hm asteroid (List.mem_cons_self _ _)
    have hrest : ∀ a ∈ rest, 0 < a.mass := fun a ha => hm a (List.mem_cons_of_mem _ ha)
    simp only [rocketAsteroidPhase]
    split_ifs
    · have hE := elasticCollision_momentum_axis sqrt axis hax rocket.toGameObject
        asteroid.toGameObject 1.0 asteroid.getMass (by norm_num) hpos
      have h2 := ih { rocket with toGameObject :=
        (elasticCollision sqrt rocket.toGameObject asteroid.toGameObject 1.0
          asteroid.getMass).1 } hrest
      simp only [List.map_cons, List.sum_cons]
      simp only [Asteroid.getMass] at hE h2 ⊢
      linear_combination hE + h2
    · have h2 := ih rocket hrest
      simp only [List.map_cons, List.sum_cons]
      linear_combination h2

/-- One call of the asteroid-asteroid phase, on two different indices, conserves the momentum
of the asteroids. -/
theorem collidePair_momentum (sqrt : F → F) (axis : Vector2f F → F)
    (hax : axis = Vector2f.x ∨ axis = Vector2f.y) (l : List (Asteroid F)) (i j : Nat)
    (hij : i < j) (hm : ∀ a ∈ l, 0 < a.mass) :
    ((collidePair sqrt l i j).map (fun a => a.mass * axis a.velocity)).sum =
      (l.map (fun a => a.mass * axis a.velocity)).sum := by
  unfold collidePair
  split
  · rename_i ai aj hi hj
    have hpi : 0 < ai.mass := hm ai (List.getElem?_mem hi)
    have hpj : 0 < aj.mass := hm aj (List.getElem?_mem hj)
    have hE := elasticCollision_momentum_axis sqrt axis hax ai.toGameObject aj.toGameObject
      ai.getMass aj.getMass hpi hpj
    have hj2 : (l.set i { ai with toGameObject :=
        (elasticCollision sqrt ai.toGameObject aj.toGameObject ai.getMass
          aj.getMass).1 })[j]? = some aj := by
      rw [List.getElem?_set_ne (Nat.ne_of_lt hij)]
      exact hj
    rw [sum_map_set _ _ j aj _ hj2, sum_map_set _ _ i ai _ hi]
    simp only [Asteroid.getMass] at hE ⊢
    linear_combination hE
  · rfl

/-- The asteroid-asteroid phase conserves the momentum of the asteroids. -/
theorem asteroidAsteroidPhase_momentum (sqrt : F → F) (axis : Vector2f F → F)
    (hax : axis = Vector2f.x ∨ axis = Vector2f.y) (asteroids : List (Asteroid F))
    (hm : ∀ a ∈ asteroids, 0 < a.mass) :
    ((asteroidAsteroidPhase sqrt asteroids).map (fun a => a.mass * axis a.velocity)).sum =
      (asteroids.map (fun a => a.mass * axis a.velocity)).sum := by
  have h := asteroidAsteroidPhase_invariant sqrt
    (fun l => l.map Asteroid.fixedData = asteroids.map Asteroid.fixedData ∧
      (l.map (fun a => a.mass * axis a.velocity)).sum =
        (asteroids.map (fun a => a.mass * axis a.velocity)).sum)
    (fun l i j hij hl => by
      refine ⟨?_, ?_⟩
      · rw [collidePair_fixedData]
        exact hl.1
      · rw [collidePair_momentum sqrt axis hax l i j hij
          (mass_pos_of_fixedData _ _ hl.1 hm)]
        exact hl.2)
    asteroids ⟨rfl, rfl⟩
  exact h.2

/-- The function `handleCollisions` conserves the total momentum along either axis when
every asteroid has positive mass. -/
theorem handleCollisions_momentum_axis (sqrt : F → F) (axis : Vector2f F → F)
    (hax : axis = Vector2f.x ∨ axis = Vector2f.y) (g : Game F)
    (hm : ∀ a ∈ g.asteroids, 0 < a.mass) :
    totalMomentum axis (handleCollisions sqrt g) = totalMomentum axis g := by
  have hm1 : ∀ a ∈ (bulletAsteroidPhase sqrt g.bullets g.asteroids).2, 0 < a.mass :=
    mass_pos_of_fixedData _ _ (bulletAsteroidPhase_fixedData sqrt g.bullets g.asteroids) hm
  have hm2 : ∀ a ∈ (rocketAsteroidPhase sqrt g.rocket
      (bulletAsteroidPhase sqrt g.bullets g.asteroids).2).2, 0 < a.mass :=
    mass_pos_of_fixedData _ _ (rocketAsteroidPhase_fixedData sqrt _ g.rocket) hm1
  have h1 := bulletAsteroidPhase_momentum sqrt axis hax g.bullets g.asteroids hm
  have h2 := rocketAsteroidPhase_momentum sqrt axis hax
    (bulletAsteroidPhase sqrt g.bullets g.asteroids).2 g.rocket hm1
  have h3 := asteroidAsteroidPhase_momentum sqrt axis hax _ hm2
  simp only [totalMomentum, handleCollisions]
  linear_combination h1 + h2 + h3

end MomentumLemmas

section Momentum

variable {F : Type} [LinearOrderedField F]

/-- C19. Total momentum is conserved by the whole collision dispatcher: for every craft, every
list of projectiles and every list of bodies all of whose masses are `> 0` (and whatever
`std::sqrt` returns), the vector `1.0 * craft.vel + sum of 0.1 * vel over the projectiles +
sum of mass * vel over the bodies` is the same before and after `handleCollisions`, in `x` and
in `y`; and `handleCollisions` changes no position and neither container's length. -/
theorem handleCollisions_total_momentum_conserved (sqrt : F → F) (g : Game F)
    (hm : ∀ a ∈ g.asteroids, 0 < a.mass) :
    totalMomentum Vector2f.x (handleCollisions sqrt g) = totalMomentum Vector2f.x g ∧
      totalMomentum Vector2f.y (handleCollisions sqrt g) = totalMomentum Vector2f.y g ∧
      (handleCollisions sqrt g).rocket.position = g.rocket.position ∧
      (handleCollisions sqrt g).bullets.map (fun b => b.position) =
        g.bullets.map (fun b => b.position) ∧
      (handleCollisions sqrt g).asteroids.map (fun a => a.position) =
        g.asteroids.map (fun a => a.position) ∧
      (handleCollisions sqrt g).bullets.length = g.bullets.length ∧
      (handleCollisions sqrt g).asteroids.length = g.asteroids.length := by
  have hb := handleCollisions_bullets_fixedData sqrt g
  have ha := handleCollisions_asteroids_fixedData sqrt g
  have hr := handleCollisions_rocket_fixedData sqrt g
  refine ⟨handleCollisions_momentum_axis sqrt Vector2f.x (Or.inl rfl) g hm,
    handleCollisions_momentum_axis sqrt Vector2f.y (Or.inr rfl) g hm, ?_, ?_, ?_, ?_, ?_⟩
  · exact congrArg Prod.fst hr
  · have h2 := congrArg (List.map (fun d : Vector2f F × F × F => d.1)) hb
    simpa only [List.map_map] using h2
  · have h2 := congrArg (List.map (fun d : Vector2f F × F × F => d.1)) ha
    simpa only [List.map_map] using h2
  · have h2 := congrArg List.length hb
    simpa only [List.length_map] using h2
  · have h2 := congrArg List.length ha
    simpa only [List.length_map] using h2

/-- Witness of C19: `hitScenario`, in which the projectile and the body of mass `16000`
exchange momentum. -/
theorem handleCollisions_total_momentum_conserved_witness :
    (∀ a ∈ hitScenario.asteroids, 0 < a.mass) ∧
      totalMomentum Vector2f.x (handleCollisions Rat.sqrt hitScenario) =
        totalMomentum Vector2f.x hitScenario ∧
      totalMomentum Vector2f.y (handleCollisions Rat.sqrt hitScenario) =
        totalMomentum Vector2f.y hitScenario := by
  have hm : ∀ a ∈ hitScenario.asteroids, 0 < a.mass := by
    intro a ha
    simp only [hitScenario, List.mem_singleton] at ha
    rw [ha]
    norm_num [Asteroid.new]
  have h := handleCollisions_total_momentum_conserved Rat.sqrt hitScenario hm
  exact ⟨hm, h.1, h.2.1⟩

end Momentum

/-! ## The thrusting flag -/

section Thrusting

variable {F : Type} [LinearOrderedField F]

/-- C20. The thrusting flag is never true when the craft is rendered: for every craft state
and `dt`, `isThrusting()` is false after `Rocket::update(dt)`, also right after a forward
`applyThrust`, which sets it; each tick of `main` applies the input before `rocket.update` and
draws after it, so after every tick, whatever the keys (forward thrust included), the flag
that `Rocket::draw` reads is false and `draw` draws the hull only, never the flame. -/
theorem Rocket_thrusting_false_when_drawn (m : CMath F) (dt : F) (keys : Keys) (g : Game F)
    (r : Rocket F) (forward : Bool) :
    (r.update dt).isThrusting = false ∧
      (r.applyThrust m dt true).isThrusting = true ∧
      ((r.applyThrust m dt forward).update dt).isThrusting = false ∧
      (tick m dt keys g).rocket.isThrusting = false ∧
      (tick m dt { keys with W := true } g).rocket.isThrusting = false ∧
      (tick m dt keys g).rocket.draw = [DrawCall.shape] := by
  have ht : ∀ k : Keys, (tick m dt k g).rocket.thrusting = false := by
    intro k
    have h := handleCollisions_rocket_fixedData m.sqrt
      (removeExpired (wallCollisions (updateObjects dt (handleInput m dt k g))))
    have h2 := congrArg (fun d : Vector2f F × F × F × Bool => d.2.2.2) h
    exact h2
  refine ⟨rfl, rfl, rfl, ht keys, ht _, ?_⟩
  simp only [Rocket.draw, ht keys]
  rfl

end Thrusting

end SpaceForce
